import Mathlib

/-!
# The actor runtime of Project2 (`cacti.c`, `threadpool.c`)

A shallow embedding of the actor registry, the dispatcher and the worker pool,
followed by the properties proved about them.

* Pointers (`void *`, `role_t *`) are integers: the address, or the integer that
  was cast to the pointer; `NULL` is `0`.
* The globals of `cacti.c` are the fields of `system_t`; the pool that
  `thread_pool_ptr_g` points to is the field `thread_pool_g`.
* An actor id (`actor_id_t`, a signed integer type: the source tests `actor_id < 0`)
  is an `Int`; a message type (`message_type_t`) and the address of a handler
  (`act_t`) are a `Nat`.
* A call of `fatal` ends the process: functions that can reach it return
  `Except fault _`, the error naming the call site.
* Every block of the source that runs under the registry mutex `mutex_g` is one
  atomic function of the embedding; OS primitives (mutexes, conditions, `malloc`)
  are taken to succeed.
-/

namespace Cacti

/-! ## Types of `cacti.h` -/

/-- The message envelope `message_t`: `data` is the pointer value. -/
structure message_t where
  message_type : Nat
  nbytes : Nat
  data : Int
deriving DecidableEq, Repr

/-- The role descriptor `role_t`: `prompts` is the table that the pointer
`prompts` addresses; reading it at an index past its end is an out-of-bounds read. -/
structure role_t where
  nprompts : Nat
  prompts : List Nat
deriving DecidableEq, Repr

/-- The constants of `cacti.h` (the header is not among the sources, so they are
parameters), the size of `actor_id_t`, and the application memory holding the role
descriptors: `roles p` is the role stored at address `p`, if `p` addresses one. -/
structure config where
  POOL_SIZE : Nat
  ACTOR_QUEUE_LIMIT : Nat
  CAST_LIMIT : Int
  MSG_SPAWN : Nat
  MSG_GODIE : Nat
  MSG_HELLO : Nat
  sizeof_actor_id : Nat
  roles : Int → Option role_t

/-- How a run of the code ends other than by returning: the four reachable calls of
`fatal`, and behaviour that C leaves undefined (an index outside an array, `dequeue`
on an empty queue). -/
inductive fault where
  /-- Site `cacti.c:59`, in `create_new_actor`. -/
  | cast_limit_exceeded
  /-- Site `cacti.c:81`, in `process_spawn`. -/
  | spawn_hello_refused
  /-- Site `cacti.c:187`, in `actor_system_create`. -/
  | create_hello_refused
  /-- Site `threadpool.c:147`, in `thread_pool_add_task`. -/
  | add_task_after_shutdown
  /-- Not a call of `fatal`: the C program has no defined behaviour. -/
  | undefined_behaviour
deriving DecidableEq, Repr

/-- Whether the run ended in the fatal reporter `fatal` of `err.c`. -/
def fault.is_fatal : fault → Bool
  | .undefined_behaviour => false
  | _ => true

/-! ## The queue and the dynamic array -/

/-- Modelled from the spec: `queue.h` and its implementation are not among the
sources. Section 4.1: a strict FIFO container; `createQueue` gives the empty one. -/
def createQueue {α : Type} : List α := []

/-- Modelled from the spec: `enqueue` of the missing `queue.h` copies the element in
at the tail. -/
def enqueue {α : Type} (q : List α) (x : α) : List α := q ++ [x]

/-- Modelled from the spec: `dequeue` of the missing `queue.h` copies out and removes
the head; on an empty queue there is nothing to copy (`none`). -/
def dequeue {α : Type} : List α → Option (α × List α)
  | [] => none
  | x :: q => some (x, q)

/-- Modelled from the spec: `getSize` of the missing `queue.h`. -/
def getSize {α : Type} (q : List α) : Nat := q.length

/-- Modelled from the spec: `dynarray_length` of the missing `dynarray.h` (the
registry is an append-only vector). -/
def dynarray_length {α : Type} (a : List α) : Nat := a.length

/-- Modelled from the spec: `dynarray_push` of the missing `dynarray.h` appends at
the next index. -/
def dynarray_push {α : Type} (a : List α) (x : α) : List α := a ++ [x]

/-! ## The worker pool (`threadpool.c`) -/

/-- A task record `runnable_t`. The only function ever submitted is
`thread_pool_task`, so the record is its argument buffer: a copy of an actor id. -/
structure runnable_t where
  arg : Int
deriving DecidableEq, Repr

/-- The data of `struct thread_pool`: the task queue and the shutdown flag (the
worker threads are the `workers` of `world_t`). -/
structure thread_pool_t where
  tasks : List runnable_t
  shutdown : Bool
deriving DecidableEq, Repr

/-- `thread_pool_init`: an empty task queue, `shutdown = false`. -/
def thread_pool_init : thread_pool_t :=
  { tasks := createQueue, shutdown := false }

/-- `thread_pool_add_task` (`threadpool.c:134-167`): fatal once `shutdown` is
raised, otherwise a copy of the argument is enqueued. -/
def thread_pool_add_task (pool : thread_pool_t) (arg : Int) :
    Except fault thread_pool_t :=
  if pool.shutdown then .error .add_task_after_shutdown
  else .ok { pool with tasks := enqueue pool.tasks { arg := arg } }

/-- `thread_pool_shutdown` up to the raising of the flag (`threadpool.c:114`). -/
def thread_pool_shutdown (pool : thread_pool_t) : thread_pool_t :=
  { pool with shutdown := true }

/-- One turn of the loop of `thread_pool_thread` (`threadpool.c:37-63`) up to the
call of the task: `none` while the worker waits (no task, no shutdown),
`some (none, _)` when it leaves the loop, `some (some task, _)` when it pops
a task. -/
def thread_pool_thread (pool : thread_pool_t) :
    Option (Option runnable_t × thread_pool_t) :=
  if getSize pool.tasks = 0 ∧ pool.shutdown = false then none
  else if pool.shutdown = true ∧ getSize pool.tasks = 0 then some (none, pool)
  else
    match dequeue pool.tasks with
    | none => none
    | some (task, rest) => some (some task, { pool with tasks := rest })

/-! ## The registry (`cacti.c`) -/

/-- The actor record `actor_t` (the condition `free_cond_ptr` carries no data). -/
structure actor_t where
  id : Int
  role_ptr : Int
  state : Int
  message_queue : List message_t
  alive : Bool
  free : Bool
deriving DecidableEq, Repr

/-- The globals of `cacti.c`. -/
structure system_t where
  actor_array_g : List actor_t
  active_actor_number_g : Int
  all_actor_number_g : Int
  thread_pool_g : thread_pool_t
deriving DecidableEq, Repr

/-- The record `actor_array_g[actor_id]`, when `actor_id` indexes the registry. -/
def actor_at (s : system_t) (actor_id : Int) : Option actor_t :=
  if actor_id < 0 then none else s.actor_array_g[actor_id.toNat]?

/-- Stores `a` at `actor_array_g[actor_id]`. -/
def set_actor (s : system_t) (actor_id : Int) (a : actor_t) : system_t :=
  { s with actor_array_g := s.actor_array_g.set actor_id.toNat a }

/-- `send_message` (`cacti.c:235-276`), returning the code and the new globals. -/
def send_message (cfg : config) (s : system_t) (actor_id : Int)
    (message : message_t) : Except fault (Int × system_t) :=
  if actor_id < 0 ∨ dynarray_length s.actor_array_g ≤ actor_id.toNat then .ok (-2, s)
  else
    match actor_at s actor_id with
    | none => .error .undefined_behaviour
    | some actor =>
      if actor.alive = false then .ok (-1, s)
      else if getSize actor.message_queue ≥ cfg.ACTOR_QUEUE_LIMIT then .ok (-3, s)
      else
        match thread_pool_add_task s.thread_pool_g actor_id with
        | .error f => .error f
        | .ok pool =>
          .ok (0, { set_actor s actor_id
                      { actor with message_queue := enqueue actor.message_queue message }
                    with thread_pool_g := pool })

/-- `create_new_actor` (`cacti.c:38-68`), returning the new record and the new
globals. -/
def create_new_actor (cfg : config) (s : system_t) (role_ptr : Int) :
    Except fault (actor_t × system_t) :=
  let actor : actor_t :=
    { id := dynarray_length s.actor_array_g
      role_ptr := role_ptr
      state := 0
      message_queue := createQueue
      alive := true
      free := true }
  let all := s.all_actor_number_g + 1
  if all > cfg.CAST_LIMIT then .error .cast_limit_exceeded
  else
    .ok (actor,
      { s with
        actor_array_g := dynarray_push s.actor_array_g actor
        all_actor_number_g := all
        active_actor_number_g := s.active_actor_number_g + 1 })

/-- The `HELLO` that `process_spawn` builds (`cacti.c:74-78`). -/
def spawn_hello_msg (cfg : config) (self_id : Int) : message_t :=
  { message_type := cfg.MSG_HELLO, nbytes := cfg.sizeof_actor_id, data := self_id }

/-- The second half of `process_spawn` (`cacti.c:74-82`): the `HELLO` is sent to the
new actor; any code but 0 is fatal. -/
def process_spawn_hello (cfg : config) (s : system_t) (self_id new_id : Int) :
    Except fault system_t :=
  match send_message cfg s new_id (spawn_hello_msg cfg self_id) with
  | .error f => .error f
  | .ok (code, s1) => if code ≠ 0 then .error .spawn_hello_refused else .ok s1

/-- `process_spawn` (`cacti.c:70-83`) run without interruption by a worker whose
thread-local id is `self_id`. -/
def process_spawn (cfg : config) (s : system_t) (self_id : Int)
    (message : message_t) : Except fault system_t :=
  match create_new_actor cfg s message.data with
  | .error f => .error f
  | .ok (actor, s1) => process_spawn_hello cfg s1 self_id actor.id

/-- `process_godie` (`cacti.c:85-97`) on a worker whose thread-local id is
`self_id`. -/
def process_godie (s : system_t) (self_id : Int) : Except fault system_t :=
  match actor_at s self_id with
  | none => .error .undefined_behaviour
  | some actor => .ok (set_actor s self_id { actor with alive := false })

/-- A handler invocation `(*func_ptr)(state_ptr, nbytes, data)`; the state cell is
named by the actor that owns it. -/
structure call_t where
  func : Nat
  state_cell : Int
  nbytes : Nat
  data : Int
deriving DecidableEq, Repr

/-- The last branch of `process_message` (`cacti.c:107-108`): the entry
`role_ptr->prompts[message_type]` is read (no comparison with `nprompts` is made)
and called. Reading past the table has no defined behaviour. -/
def process_prompt (role : role_t) (self_id : Int) (message : message_t) :
    Except fault call_t :=
  match role.prompts[message.message_type]? with
  | none => .error .undefined_behaviour
  | some func =>
    .ok { func := func, state_cell := self_id, nbytes := message.nbytes,
          data := message.data }

/-- `process_message` (`cacti.c:99-110`) run without interruption on a worker whose
thread-local id is `self_id`; `role` is `*role_ptr`. Returns the new globals and the
handler invocation made, if one was made. -/
def process_message (cfg : config) (s : system_t) (self_id : Int)
    (message : message_t) (role : role_t) : Except fault (system_t × Option call_t) :=
  if message.message_type = cfg.MSG_SPAWN then
    match process_spawn cfg s self_id message with
    | .error f => .error f
    | .ok s1 => .ok (s1, none)
  else if message.message_type = cfg.MSG_GODIE then
    match process_godie s self_id with
    | .error f => .error f
    | .ok s1 => .ok (s1, none)
  else
    match process_prompt role self_id message with
    | .error f => .error f
    | .ok call => .ok (s, some call)

/-- The first critical section of `thread_pool_task` (`cacti.c:116-134`): `none`
while the task waits for the actor's token, otherwise the token is taken
(`free = false`), the head message is dequeued and the role pointer captured. -/
def thread_pool_task_begin (s : system_t) (actor_id : Int) :
    Except fault (Option (message_t × Int × system_t)) :=
  match actor_at s actor_id with
  | none => .error .undefined_behaviour
  | some actor =>
    if actor.free = false then .ok none
    else
      match dequeue actor.message_queue with
      | none => .error .undefined_behaviour
      | some (message, rest) =>
        .ok (some (message, actor.role_ptr,
          set_actor s actor_id { actor with free := false, message_queue := rest }))

/-- The second critical section of `thread_pool_task` (`cacti.c:138-160`): the
bookkeeping of `active`, then the token is given back. -/
def thread_pool_task_end (s : system_t) (actor_id : Int) :
    Except fault system_t :=
  match actor_at s actor_id with
  | none => .error .undefined_behaviour
  | some actor =>
    let s1 : system_t :=
      if getSize actor.message_queue = 0 ∧ actor.alive = false then
        { s with active_actor_number_g := s.active_actor_number_g - 1 }
      else s
    .ok (set_actor s1 actor_id { actor with free := true })

/-- The `HELLO` that `actor_system_create` builds (`cacti.c:181-184`). -/
def create_hello_msg (cfg : config) : message_t :=
  { message_type := cfg.MSG_HELLO, nbytes := 0, data := 0 }

/-- `actor_system_create` (`cacti.c:163-191`) on the globals `s`: the return code,
the value stored through `actor_id` (if one was stored) and the new globals. -/
def actor_system_create (cfg : config) (s : system_t) (role_ptr : Int) :
    Except fault (Int × Option Int × system_t) :=
  if cfg.CAST_LIMIT < 1 then .ok (-1, none, s)
  else
    let s0 : system_t := { s with thread_pool_g := thread_pool_init, actor_array_g := [] }
    match create_new_actor cfg s0 role_ptr with
    | .error f => .error f
    | .ok (first_actor, s1) =>
      match send_message cfg s1 first_actor.id (create_hello_msg cfg) with
      | .error f => .error f
      | .ok (code, s2) =>
        if code ≠ 0 then .error .create_hello_refused
        else .ok (0, some first_actor.id, s2)

/-- The globals before the first `actor_system_create`: the counters are statically
0, no registry and no pool exist yet. -/
def fresh : system_t :=
  { actor_array_g := []
    active_actor_number_g := 0
    all_actor_number_g := 0
    thread_pool_g := thread_pool_init }

/-! ## Executions: the workers and every other thread, interleaved

Between two critical sections a thread can be overtaken by any other thread. An
execution is a sequence of atomic events; each event is one critical section of the
source, run by the thread the event names. What a user handler does is not fixed by
the runtime: while a worker is inside a handler it may call `send_message` with any
arguments, any number of times, and write the state cell. -/

/-- Where a worker thread of the pool stands. Every constructor but `idle` and
`exited` carries the argument `actor_id` of the call of `thread_pool_task` the worker
is inside. -/
inductive worker_t where
  /-- In the loop of `thread_pool_thread`, holding no task. -/
  | idle
  /-- In `thread_pool_task` at the wait loop `cacti.c:121`. -/
  | waiting (actor_id : Int)
  /-- At `cacti.c:136`, about to call `process_message` on the dequeued message. -/
  | processing (actor_id : Int) (message : message_t) (role_ptr : Int)
  /-- In `process_spawn` between `create_new_actor` and the send of `HELLO`. -/
  | spawning (actor_id : Int) (new_id : Int)
  /-- Inside the user handler called at `cacti.c:108`. -/
  | in_handler (actor_id : Int) (call : call_t)
  /-- Back from `process_message`, before the lock at `cacti.c:138`. -/
  | finishing (actor_id : Int)
  /-- Out of the loop of `thread_pool_thread`. -/
  | exited
deriving DecidableEq, Repr

/-- Where the thread that calls `actor_system_join` stands. -/
inductive join_t where
  /-- Not past the wait loop `cacti.c:215`. -/
  | before
  /-- Past the wait loop, `thread_pool_shutdown` not yet at `threadpool.c:114`. -/
  | passed
  /-- The flag `shutdown` has been raised. -/
  | shut
deriving DecidableEq, Repr

/-- The state of an execution: the globals, the workers of the pool, the joining
thread, and two history variables that no code reads: `sent_log` lists the pairs
`(id, message)` of the calls of `send_message` that returned 0, and `handled_log`
the pairs `(id, message)` passed to `process_message`, each in the order of
occurrence. The last field holds, for each worker of the pool, the value of its copy
of the thread-local `actor_id_thread_local` of `cacti.c:26`. -/
structure world_t where
  sys : system_t
  workers : List worker_t
  joiner : join_t
  sent_log : List (Int × message_t)
  handled_log : List (Int × message_t)
  actor_id_thread_local : List Int
deriving DecidableEq, Repr

/-- The atomic events of an execution; `w` is the index of a worker of the pool. -/
inductive event where
  /-- One turn of `thread_pool_thread`: worker `w` pops a task or leaves its loop. -/
  | pool_turn (w : Nat)
  /-- First critical section of `thread_pool_task` on worker `w`. -/
  | acquire (w : Nat)
  /-- Worker `w` calls `process_message`: for `SPAWN` up to the return of
  `create_new_actor`, for `GODIE` all of `process_godie`, otherwise up to the entry
  into the handler. -/
  | process (w : Nat)
  /-- Worker `w` sends the `HELLO` of `process_spawn`. -/
  | spawn_hello (w : Nat)
  /-- The handler running on worker `w` calls `send_message target message`. -/
  | handler_send (w : Nat) (target : Int) (message : message_t)
  /-- The handler running on worker `w` writes `value` to its state cell. -/
  | handler_store (w : Nat) (value : Int)
  /-- The handler running on worker `w` returns. -/
  | handler_return (w : Nat)
  /-- Second critical section of `thread_pool_task` on worker `w`. -/
  | release (w : Nat)
  /-- A thread outside the pool calls `send_message target message`. -/
  | send (target : Int) (message : message_t)
  /-- The thread in `actor_system_join actor_id` leaves the wait loop. -/
  | join_pass (actor_id : Int)
  /-- The joining thread raises `shutdown` in `thread_pool_shutdown`. -/
  | join_shutdown
deriving DecidableEq, Repr

/-- The worker of the pool that performs the event; `none` for an event of a thread
outside the pool. -/
def event.worker : event → Option Nat
  | .pool_turn w => some w
  | .acquire w => some w
  | .process w => some w
  | .spawn_hello w => some w
  | .handler_send w _ _ => some w
  | .handler_store w _ => some w
  | .handler_return w => some w
  | .release w => some w
  | .send _ _ => none
  | .join_pass _ => none
  | .join_shutdown => none

/-- What an event does in a state. -/
inductive outcome where
  /-- The event cannot happen here: the thread is elsewhere, or it is blocked. -/
  | disabled
  /-- The process ends in `fatal`, or has no defined behaviour. -/
  | failed (f : fault)
  /-- The event happens and leaves this state. -/
  | next (w : world_t)
deriving DecidableEq, Repr

/-- Worker `i` moves to `p`, the globals become `s`. -/
def world_t.move (x : world_t) (i : Nat) (p : worker_t) (s : system_t) : world_t :=
  { x with sys := s, workers := x.workers.set i p }

/-- A call of `send_message` inside an execution: the globals change as the function
says, and a call that returns 0 is recorded in `sent_log`. -/
def world_t.send (cfg : config) (x : world_t) (target : Int)
    (message : message_t) : Except fault (Int × world_t) :=
  match send_message cfg x.sys target message with
  | .error f => .error f
  | .ok (code, s1) =>
    .ok (code,
      { x with
        sys := s1
        sent_log := if code = 0 then x.sent_log ++ [(target, message)] else x.sent_log })

/-- The event `process w` on a worker at `cacti.c:136`. -/
def step_process (cfg : config) (x : world_t) (i : Nat) (actor_id : Int)
    (message : message_t) (role_ptr : Int) : outcome :=
  let x1 : world_t := { x with handled_log := x.handled_log ++ [(actor_id, message)] }
  if message.message_type = cfg.MSG_SPAWN then
    match create_new_actor cfg x.sys message.data with
    | .error f => .failed f
    | .ok (actor, s1) => .next (x1.move i (.spawning actor_id actor.id) s1)
  else if message.message_type = cfg.MSG_GODIE then
    match process_godie x.sys actor_id with
    | .error f => .failed f
    | .ok s1 => .next (x1.move i (.finishing actor_id) s1)
  else
    match cfg.roles role_ptr with
    | none => .failed .undefined_behaviour
    | some role =>
      match process_prompt role actor_id message with
      | .error f => .failed f
      | .ok call => .next (x1.move i (.in_handler actor_id call) x.sys)

/-- The transition function of executions. -/
def step (cfg : config) (x : world_t) : event → outcome
  | .pool_turn i =>
    match x.workers[i]? with
    | some .idle =>
      match thread_pool_thread x.sys.thread_pool_g with
      | none => .disabled
      | some (none, pool) => .next (x.move i .exited { x.sys with thread_pool_g := pool })
      | some (some task, pool) =>
        .next
          { x.move i (.waiting task.arg) { x.sys with thread_pool_g := pool } with
            actor_id_thread_local := x.actor_id_thread_local.set i task.arg }
    | _ => .disabled
  | .acquire i =>
    match x.workers[i]? with
    | some (.waiting actor_id) =>
      match thread_pool_task_begin x.sys actor_id with
      | .error f => .failed f
      | .ok none => .disabled
      | .ok (some (message, role_ptr, s1)) =>
        .next (x.move i (.processing actor_id message role_ptr) s1)
    | _ => .disabled
  | .process i =>
    match x.workers[i]? with
    | some (.processing actor_id message role_ptr) =>
      step_process cfg x i actor_id message role_ptr
    | _ => .disabled
  | .spawn_hello i =>
    match x.workers[i]? with
    | some (.spawning actor_id new_id) =>
      match x.send cfg new_id (spawn_hello_msg cfg actor_id) with
      | .error f => .failed f
      | .ok (code, x1) =>
        if code ≠ 0 then .failed .spawn_hello_refused
        else .next (x1.move i (.finishing actor_id) x1.sys)
    | _ => .disabled
  | .handler_send i target message =>
    match x.workers[i]? with
    | some (.in_handler _ _) =>
      match x.send cfg target message with
      | .error f => .failed f
      | .ok (_, x1) => .next x1
    | _ => .disabled
  | .handler_store i value =>
    match x.workers[i]? with
    | some (.in_handler actor_id _) =>
      match actor_at x.sys actor_id with
      | none => .failed .undefined_behaviour
      | some actor =>
        .next { x with sys := set_actor x.sys actor_id { actor with state := value } }
    | _ => .disabled
  | .handler_return i =>
    match x.workers[i]? with
    | some (.in_handler actor_id _) => .next (x.move i (.finishing actor_id) x.sys)
    | _ => .disabled
  | .release i =>
    match x.workers[i]? with
    | some (.finishing actor_id) =>
      match thread_pool_task_end x.sys actor_id with
      | .error f => .failed f
      | .ok s1 => .next (x.move i .idle s1)
    | _ => .disabled
  | .send target message =>
    match x.send cfg target message with
    | .error f => .failed f
    | .ok (_, x1) => .next x1
  | .join_pass actor_id =>
    if x.joiner = .before ∧ ¬ x.sys.all_actor_number_g ≤ actor_id
        ∧ ¬ x.sys.active_actor_number_g > 0 then
      .next { x with joiner := .passed }
    else .disabled
  | .join_shutdown =>
    if x.joiner = .passed then
      .next { x with
              joiner := .shut
              sys := { x.sys with thread_pool_g := thread_pool_shutdown x.sys.thread_pool_g } }
    else .disabled

/-- Runs the events of `es` in order from `x`; stops at the first event that is
disabled or fails. -/
def run (cfg : config) (x : world_t) : List event → outcome
  | [] => .next x
  | e :: es =>
    match step cfg x e with
    | .next x1 => run cfg x1 es
    | o => o

/-- The state in which `actor_system_create cfg fresh role_ptr` returns 0: its
globals, `POOL_SIZE` workers started by `thread_pool_init`, and the one successful
send made so far, the `HELLO` of actor 0. No worker has run a task yet, so each copy
of `actor_id_thread_local`, a variable of static storage without an initialiser,
holds 0. -/
def init (cfg : config) (role_ptr : Int) : Option world_t :=
  match actor_system_create cfg fresh role_ptr with
  | .ok (0, some first_id, s) =>
    some { sys := s
           workers := List.replicate cfg.POOL_SIZE .idle
           joiner := .before
           sent_log := [(first_id, create_hello_msg cfg)]
           handled_log := []
           actor_id_thread_local := List.replicate cfg.POOL_SIZE 0 }
  | _ => none

/-- The states of the executions that start with a successful `actor_system_create`
on fresh globals. -/
def Reachable (cfg : config) (x : world_t) : Prop :=
  ∃ role_ptr x0 es, init cfg role_ptr = some x0 ∧ run cfg x0 es = .next x

/-- The messages that `log` records for actor `id`, in order. -/
def log_of (log : List (Int × message_t)) (id : Int) : List message_t :=
  (log.filter (fun p => decide (p.1 = id))).map (fun p => p.2)

/-- The queue of actor `id`; empty when the registry has no such actor. -/
def queue_of (s : system_t) (id : Int) : List message_t :=
  match actor_at s id with
  | none => []
  | some actor => actor.message_queue

/-- The actor whose token the worker holds: from the dequeue to the release. -/
def worker_t.holds : worker_t → Option Int
  | .processing actor_id _ _ => some actor_id
  | .spawning actor_id _ => some actor_id
  | .in_handler actor_id _ => some actor_id
  | .finishing actor_id => some actor_id
  | _ => none

/-- A configuration for the examples: one worker, room for four messages per actor,
at most three actors; a single role at address 100 with the two handlers 7 and 8. -/
def example_cfg : config :=
  { POOL_SIZE := 1
    ACTOR_QUEUE_LIMIT := 4
    CAST_LIMIT := 3
    MSG_SPAWN := 101080686
    MSG_GODIE := 1623121581
    MSG_HELLO := 0
    sizeof_actor_id := 8
    roles := fun p => if p = 100 then some { nprompts := 2, prompts := [7, 8] } else none }

/-! ## Definitions used to state the properties -/

/-- The return code that the specification gives for `send_message`, in its words:
`-2` if the id is out of `[0, N)`, else `-1` if the actor is not alive, else `-3` if
its queue already holds `ACTOR_QUEUE_LIMIT` messages, else `0`. -/
def claimed_send_code (cfg : config) (s : system_t) (id : Int) : Int :=
  if id < 0 ∨ (s.actor_array_g.length : Int) ≤ id then -2
  else
    match actor_at s id with
    | none => -2
    | some actor =>
      if actor.alive = false then -1
      else if cfg.ACTOR_QUEUE_LIMIT ≤ actor.message_queue.length then -3
      else 0

/-- Globals in which `shutdown` has been raised while actor 0 is alive, not busy and
has an empty queue. -/
def pool_shut_down : system_t :=
  { actor_array_g :=
      [{ id := 0, role_ptr := 100, state := 0, message_queue := [], alive := true,
         free := true }]
    active_actor_number_g := 1
    all_actor_number_g := 1
    thread_pool_g := { tasks := [], shutdown := true } }

/-- The globals of `pool_shut_down` with a running pool. -/
def one_actor : system_t :=
  { pool_shut_down with thread_pool_g := thread_pool_init }

/-- A message of the user type 1. -/
def user_msg : message_t := { message_type := 1, nbytes := 0, data := 0 }

/-- A message whose type 99 is neither `MSG_SPAWN`, `MSG_GODIE` or `MSG_HELLO` of
`example_cfg` nor an index of the two-entry table of the role at address 100. -/
def stray_msg : message_t := { message_type := 99, nbytes := 0, data := 0 }

/-- The configuration `example_cfg` compiled with `ACTOR_QUEUE_LIMIT` 0. -/
def no_room_cfg : config := { example_cfg with ACTOR_QUEUE_LIMIT := 0 }

/-- The role stored at address 100 of `example_cfg`. -/
def example_role : role_t := { nprompts := 2, prompts := [7, 8] }

/-- A `SPAWN` message of `example_cfg` whose `data` is the address 100 of a role. -/
def spawn_msg : message_t := { message_type := 101080686, nbytes := 16, data := 100 }

/-- A `GODIE` message of `example_cfg`. -/
def godie_msg : message_t := { message_type := 1623121581, nbytes := 0, data := 0 }

/-- A message of type 5, past the two-entry table of `example_role`. -/
def past_table_msg : message_t := { message_type := 5, nbytes := 0, data := 0 }

/-- The globals after `send_message` accepted `message` for the actor `actor` found at
`actor_id`: the message at the tail of its queue, one more task in the pool. -/
def accepted (s : system_t) (actor_id : Int) (actor : actor_t) (message : message_t) :
    system_t :=
  { set_actor s actor_id
      { actor with message_queue := enqueue actor.message_queue message }
    with thread_pool_g :=
      { s.thread_pool_g with tasks := enqueue s.thread_pool_g.tasks { arg := actor_id } } }

/-- The globals after `create_new_actor` returned for the role at `role_ptr`. -/
def created (s : system_t) (role_ptr : Int) : system_t :=
  { s with
    actor_array_g := dynarray_push s.actor_array_g
      { id := dynarray_length s.actor_array_g, role_ptr := role_ptr, state := 0,
        message_queue := createQueue, alive := true, free := true }
    all_actor_number_g := s.all_actor_number_g + 1
    active_actor_number_g := s.active_actor_number_g + 1 }

/-- The globals after the second critical section of `thread_pool_task` on the
actor `actor` found at `actor_id`. -/
def released (s : system_t) (actor_id : Int) (actor : actor_t) : system_t :=
  set_actor
    (if getSize actor.message_queue = 0 ∧ actor.alive = false then
      { s with active_actor_number_g := s.active_actor_number_g - 1 }
    else s)
    actor_id { actor with free := true }

/-- The world with `(id, message)` appended to `handled_log`. -/
def world_t.handled (x : world_t) (id : Int) (message : message_t) : world_t :=
  { x with handled_log := x.handled_log ++ [(id, message)] }

/-- The world with `(id, message)` appended to `sent_log`. -/
def world_t.sent (x : world_t) (id : Int) (message : message_t) : world_t :=
  { x with sent_log := x.sent_log ++ [(id, message)] }

/-- The successful transitions of `step`, one constructor for each way an event can
happen, with the state it needs and the state it leaves (`step_sound` shows that
every `step` that returns `next` is one of them). -/
inductive Step (cfg : config) : world_t → world_t → Prop where
  /-- A worker leaves the loop of `thread_pool_thread`. -/
  | leave (x : world_t) (i : Nat) :
      x.workers[i]? = some .idle → x.sys.thread_pool_g.shutdown = true →
      x.sys.thread_pool_g.tasks = [] →
      Step cfg x (x.move i .exited x.sys)
  /-- A worker pops the head task and enters `thread_pool_task`, which first writes
  its argument to `actor_id_thread_local` (`cacti.c:114`). -/
  | take (x : world_t) (i : Nat) (task : runnable_t) (rest : List runnable_t) :
      x.workers[i]? = some .idle → x.sys.thread_pool_g.tasks = task :: rest →
      Step cfg x
        { x.move i (.waiting task.arg)
            { x.sys with thread_pool_g := { x.sys.thread_pool_g with tasks := rest } } with
          actor_id_thread_local := x.actor_id_thread_local.set i task.arg }
  /-- A task passes the wait loop, takes the token and dequeues the head message. -/
  | acquire (x : world_t) (i : Nat) (id : Int) (a : actor_t) (m : message_t)
      (rest : List message_t) :
      x.workers[i]? = some (.waiting id) → actor_at x.sys id = some a →
      a.free = true → a.message_queue = m :: rest →
      Step cfg x (x.move i (.processing id m a.role_ptr)
        (set_actor x.sys id { a with free := false, message_queue := rest }))
  /-- A `SPAWN` is processed up to the return of `create_new_actor`. -/
  | spawn (x : world_t) (i : Nat) (id : Int) (m : message_t) (r : Int) :
      x.workers[i]? = some (.processing id m r) → m.message_type = cfg.MSG_SPAWN →
      x.sys.all_actor_number_g + 1 ≤ cfg.CAST_LIMIT →
      Step cfg x ((x.handled id m).move i
        (.spawning id (dynarray_length x.sys.actor_array_g)) (created x.sys m.data))
  /-- A `GODIE` is processed. -/
  | godie (x : world_t) (i : Nat) (id : Int) (m : message_t) (r : Int) (a : actor_t) :
      x.workers[i]? = some (.processing id m r) → m.message_type ≠ cfg.MSG_SPAWN →
      m.message_type = cfg.MSG_GODIE → actor_at x.sys id = some a →
      Step cfg x ((x.handled id m).move i (.finishing id)
        (set_actor x.sys id { a with alive := false }))
  /-- Any other message: the handler is entered. -/
  | prompt (x : world_t) (i : Nat) (id : Int) (m : message_t) (r : Int)
      (role : role_t) (call : call_t) :
      x.workers[i]? = some (.processing id m r) → m.message_type ≠ cfg.MSG_SPAWN →
      m.message_type ≠ cfg.MSG_GODIE → cfg.roles r = some role →
      process_prompt role id m = .ok call →
      Step cfg x ((x.handled id m).move i (.in_handler id call) x.sys)
  /-- The `HELLO` of `process_spawn` is accepted. -/
  | hello (x : world_t) (i : Nat) (id n : Int) (a : actor_t) :
      x.workers[i]? = some (.spawning id n) → actor_at x.sys n = some a →
      a.alive = true → a.message_queue.length < cfg.ACTOR_QUEUE_LIMIT →
      x.sys.thread_pool_g.shutdown = false →
      Step cfg x ((x.sent n (spawn_hello_msg cfg id)).move i (.finishing id)
        (accepted x.sys n a (spawn_hello_msg cfg id)))
  /-- A `send_message` of a handler or of an outside thread is accepted. -/
  | sent (x : world_t) (target : Int) (m : message_t) (a : actor_t) :
      actor_at x.sys target = some a → a.alive = true →
      a.message_queue.length < cfg.ACTOR_QUEUE_LIMIT →
      x.sys.thread_pool_g.shutdown = false →
      Step cfg x { x.sent target m with sys := accepted x.sys target a m }
  /-- A `send_message` of a handler or of an outside thread is refused. -/
  | refused (x : world_t) : Step cfg x x
  /-- A handler writes its state cell. -/
  | store (x : world_t) (i : Nat) (id : Int) (call : call_t) (a : actor_t) (v : Int) :
      x.workers[i]? = some (.in_handler id call) → actor_at x.sys id = some a →
      Step cfg x { x with sys := set_actor x.sys id { a with state := v } }
  /-- A handler returns. -/
  | back (x : world_t) (i : Nat) (id : Int) (call : call_t) :
      x.workers[i]? = some (.in_handler id call) →
      Step cfg x (x.move i (.finishing id) x.sys)
  /-- A task does its bookkeeping and gives the token back. -/
  | release (x : world_t) (i : Nat) (id : Int) (a : actor_t) :
      x.workers[i]? = some (.finishing id) → actor_at x.sys id = some a →
      Step cfg x (x.move i .idle (released x.sys id a))
  /-- The joining thread leaves its wait loop. -/
  | join_pass (x : world_t) :
      x.joiner = .before → x.sys.active_actor_number_g ≤ 0 →
      Step cfg x { x with joiner := .passed }
  /-- The joining thread raises `shutdown`. -/
  | join_shutdown (x : world_t) :
      x.joiner = .passed →
      Step cfg x
        { x with
          joiner := .shut
          sys := { x.sys with thread_pool_g := thread_pool_shutdown x.sys.thread_pool_g } }

/-- The state in which `actor_system_create example_cfg fresh 100` returns 0. -/
def start : world_t :=
  { sys :=
      { actor_array_g :=
          [{ id := 0, role_ptr := 100, state := 0,
             message_queue := [{ message_type := 0, nbytes := 0, data := 0 }],
             alive := true, free := true }]
        active_actor_number_g := 1
        all_actor_number_g := 1
        thread_pool_g := { tasks := [{ arg := 0 }], shutdown := false } }
    workers := [.idle]
    joiner := .before
    sent_log := [(0, { message_type := 0, nbytes := 0, data := 0 })]
    handled_log := []
    actor_id_thread_local := [0] }

/-- The events that lead from `start` to `godie_taken`: the `HELLO` handler of actor 0
sends its own actor a `GODIE`, and the next task dequeues it. -/
def godie_events : List event :=
  [.pool_turn 0, .acquire 0, .process 0, .handler_send 0 0 godie_msg,
   .handler_return 0, .release 0, .pool_turn 0, .acquire 0]

/-- The state after `godie_events`: the worker is about to process the `GODIE` of
actor 0. -/
def godie_taken : world_t :=
  { sys :=
      { actor_array_g :=
          [{ id := 0, role_ptr := 100, state := 0, message_queue := [],
             alive := true, free := false }]
        active_actor_number_g := 1
        all_actor_number_g := 1
        thread_pool_g := { tasks := [], shutdown := false } }
    workers := [.processing 0 godie_msg 100]
    joiner := .before
    sent_log := [(0, { message_type := 0, nbytes := 0, data := 0 }), (0, godie_msg)]
    handled_log := [(0, { message_type := 0, nbytes := 0, data := 0 })]
    actor_id_thread_local := [0] }

/-- The state after the `GODIE` of `godie_taken` has been processed. -/
def godie_done : world_t :=
  { godie_taken with
    sys := { godie_taken.sys with
      actor_array_g :=
        [{ id := 0, role_ptr := 100, state := 0, message_queue := [],
           alive := false, free := false }] }
    workers := [.finishing 0]
    handled_log := godie_taken.handled_log ++ [(0, godie_msg)] }

/-- The state after the task of `godie_done` has given the token back and an outside
thread has called `send_message 0 user_msg`, which was refused. -/
def godie_released : world_t :=
  { godie_done with
    sys := { godie_done.sys with
      actor_array_g :=
        [{ id := 0, role_ptr := 100, state := 0, message_queue := [],
           alive := false, free := true }]
      active_actor_number_g := 0 }
    workers := [.idle] }

/-- The token discipline: a worker that holds the token of an actor finds that actor
in the registry with `free = false`, and two workers never hold the token of the
same actor. -/
structure Mutex (ws : List worker_t) (s : system_t) : Prop where
  busy : ∀ (i : Nat) (p : worker_t) (id : Int), ws[i]? = some p → p.holds = some id →
    ∃ a, actor_at s id = some a ∧ a.free = false
  unique : ∀ (i j : Nat) (p q : worker_t) (id : Int), ws[i]? = some p →
    ws[j]? = some q → p.holds = some id → q.holds = some id → i = j

/-- The queue discipline, for every actor id: the messages sent to it with success
are, in order, those already passed to `process_message`, then the one a worker has
dequeued and is about to pass (if there is one), then those still in its queue. -/
def Fifo (ws : List worker_t) (s : system_t) (sent handled : List (Int × message_t)) :
    Prop :=
  ∀ id : Int,
    (∀ (i : Nat) (m : message_t) (r : Int), ws[i]? = some (.processing id m r) →
      log_of sent id = log_of handled id ++ m :: queue_of s id) ∧
    ((∀ (i : Nat) (m : message_t) (r : Int), ws[i]? ≠ some (.processing id m r)) →
      log_of sent id = log_of handled id ++ queue_of s id)

/-- Flags `free = false` of the registry `s` are still in place in `s1`. -/
def BusyKept (s s1 : system_t) : Prop :=
  ∀ id a, actor_at s id = some a → a.free = false →
    ∃ a1, actor_at s1 id = some a1 ∧ a1.free = false

/-- Whether an actor record still owes work: it is alive, or has queued messages, or
a dispatch task holds its token. -/
def counted (a : actor_t) : Bool :=
  a.alive || !a.message_queue.isEmpty || !a.free

/-- The counter `active` equals the number of records that are alive, have queued
messages or whose token is held. -/
def Counting (s : system_t) : Prop :=
  s.active_actor_number_g = ((s.actor_array_g.countP counted : Nat) : Int)

/-- Every actor of the registry is not alive, has an empty queue and a free token. -/
def Quiet (s : system_t) : Prop :=
  ∀ (id : Int) (a : actor_t), actor_at s id = some a →
    a.alive = false ∧ a.message_queue = [] ∧ a.free = true

/-- What holds once `actor_system_join` is past its wait loop: the registry is
quiet, and `shutdown` is raised only by the joining thread. -/
structure Joined (x : world_t) : Prop where
  quiet : x.joiner ≠ .before → Quiet x.sys
  raised : x.sys.thread_pool_g.shutdown = true → x.joiner = .shut

/-- The invariant of executions: the token discipline, the queue discipline, the
meaning of `active`, and what holds once the joining thread is past its wait. -/
structure Inv (x : world_t) : Prop where
  mutex : Mutex x.workers x.sys
  fifo : Fifo x.workers x.sys x.sent_log x.handled_log
  counting : Counting x.sys
  joined : Joined x

/-- The events that lead from `start` to `hello_done`: one task handles the `HELLO`
of actor 0, whose handler returns at once. -/
def hello_events : List event :=
  [.pool_turn 0, .acquire 0, .process 0, .handler_return 0, .release 0]

/-- The state after `hello_events`: the globals are `one_actor`. -/
def hello_done : world_t :=
  { sys := one_actor
    workers := [.idle]
    joiner := .before
    sent_log := [(0, { message_type := 0, nbytes := 0, data := 0 })]
    handled_log := [(0, { message_type := 0, nbytes := 0, data := 0 })]
    actor_id_thread_local := [0] }

/-- The events by which, from `start`, the `HELLO` handler of actor 0 sends its own
actor the message `past_table_msg` and the next task comes to process it. -/
def past_table_events : List event :=
  [.pool_turn 0, .acquire 0, .process 0, .handler_send 0 0 past_table_msg,
   .handler_return 0, .release 0, .pool_turn 0, .acquire 0, .process 0]

/-- The configuration `example_cfg` with a pool of two workers. -/
def two_cfg : config := { example_cfg with POOL_SIZE := 2 }

/-- The state in which `actor_system_create two_cfg fresh 100` returns 0. -/
def start2 : world_t :=
  { start with workers := [.idle, .idle], actor_id_thread_local := [0, 0] }

/-- Whether an actor record is counted by the specification's reading of `active`:
it is alive or has queued messages. -/
def claimed_counted (a : actor_t) : Bool :=
  a.alive || !a.message_queue.isEmpty

/-- The argument `actor_id` of the call of `thread_pool_task` that a worker is
inside; a worker in the loop of `thread_pool_thread`, or past it, is in no call. -/
def worker_t.task_arg : worker_t → Option Int
  | .waiting actor_id => some actor_id
  | .processing actor_id _ _ => some actor_id
  | .spawning actor_id _ => some actor_id
  | .in_handler actor_id _ => some actor_id
  | .finishing actor_id => some actor_id
  | _ => none

/-- What `actor_id_self` (`cacti.c:34`) returns on worker `i`: the value of its copy
of `actor_id_thread_local`, whatever the worker is doing. -/
def world_t.actor_id_self (x : world_t) (i : Nat) : Option Int :=
  x.actor_id_thread_local[i]?

/-- Every worker has its copy of `actor_id_thread_local`, and on a worker inside
`thread_pool_task` the copy holds the argument of that call. -/
structure Local (x : world_t) : Prop where
  each : x.actor_id_thread_local.length = x.workers.length
  current : ∀ (i : Nat) (p : worker_t) (id : Int), x.workers[i]? = some p →
    p.task_arg = some id → x.actor_id_self i = some id

/-- The events by which, from `start2`, the `HELLO` handler of actor 0 on worker 0
sends its own actor a message and worker 1 picks up the task posted for it. -/
def second_task_events : List event :=
  [.pool_turn 0, .acquire 0, .process 0, .handler_send 0 0 user_msg, .pool_turn 1]

/-- The state after `second_task_events`: worker 0 is inside the handler of actor 0,
worker 1 waits for the token of actor 0. -/
def second_task : world_t :=
  { sys :=
      { actor_array_g :=
          [{ id := 0, role_ptr := 100, state := 0, message_queue := [user_msg],
             alive := true, free := false }]
        active_actor_number_g := 1
        all_actor_number_g := 1
        thread_pool_g := { tasks := [], shutdown := false } }
    workers :=
      [.in_handler 0 { func := 7, state_cell := 0, nbytes := 0, data := 0 }, .waiting 0]
    joiner := .before
    sent_log := [(0, { message_type := 0, nbytes := 0, data := 0 }), (0, user_msg)]
    handled_log := [(0, { message_type := 0, nbytes := 0, data := 0 })]
    actor_id_thread_local := [0, 0] }

/-- The events by which, from `start2`, actor 0 spawns actor 1, worker 0 runs the
`HELLO` handler of actor 1, which sends its own actor a message, and goes back to the
loop of the pool, and worker 1 then takes the task posted for actor 1 and dequeues
that message. -/
def stale_self_events : List event :=
  [.pool_turn 0, .acquire 0, .process 0, .handler_send 0 0 spawn_msg,
   .handler_return 0, .release 0,
   .pool_turn 0, .acquire 0, .process 0, .spawn_hello 0, .release 0,
   .pool_turn 0, .acquire 0, .process 0, .handler_send 0 1 user_msg,
   .handler_return 0, .release 0,
   .pool_turn 1, .acquire 1]

/-- The number of tasks in the pool's queue that were posted for actor `id`. -/
def tasks_for (s : system_t) (id : Int) : Nat :=
  s.thread_pool_g.tasks.countP (fun task => decide (task.arg = id))

/-- The number of workers that have popped a task for actor `id` and have not yet
performed its dequeue. -/
def waiting_for (ws : List worker_t) (id : Int) : Nat :=
  ws.countP (fun p => decide (p = .waiting id))

/-- For every actor id, the dispatch tasks posted for it that have not yet performed
their dequeue are as many as the messages in its queue. -/
def Pending (ws : List worker_t) (s : system_t) : Prop :=
  ∀ id : Int,
    ((tasks_for s id : Nat) : Int) + ((waiting_for ws id : Nat) : Int)
      = (((queue_of s id).length : Nat) : Int)

/-- The actor `id` has left the active set: its record is not alive, its queue is
empty and its token is free. -/
def retired (s : system_t) (id : Int) : Prop :=
  ∃ a, actor_at s id = some a ∧ a.alive = false ∧ a.message_queue = [] ∧ a.free = true

/-- Once a worker has left the loop of `thread_pool_thread`, `shutdown` is raised and
the task queue is empty. -/
def Drained (x : world_t) : Prop :=
  ∀ i : Nat, x.workers[i]? = some .exited →
    x.sys.thread_pool_g.shutdown = true ∧ x.sys.thread_pool_g.tasks = []

/-- The state after `godie_released` in which the joining thread has left its wait
loop and raised `shutdown`, and the worker has left its loop. -/
def pool_stopped : world_t :=
  { godie_released with
    sys := { godie_released.sys with thread_pool_g := { tasks := [], shutdown := true } }
    workers := [.exited]
    joiner := .shut }

/-- Every accepted send was addressed to an actor of the registry. -/
def Known (x : world_t) : Prop :=
  ∀ p ∈ x.sent_log, ∃ a, actor_at x.sys p.1 = some a

/-- The events by which, from `start2`, actor 0 spawns actor 1 and then actor 2, and
the `HELLO` handler of actor 1 on worker 1 sends a message to id 2 after worker 0 has
inserted actor 2 into the registry and before it sends the `HELLO` of actor 2. -/
def overtake_events : List event :=
  [.pool_turn 0, .acquire 0, .process 0, .handler_send 0 0 spawn_msg,
   .handler_send 0 0 spawn_msg, .handler_return 0, .release 0,
   .pool_turn 0, .acquire 0, .process 0, .spawn_hello 0, .release 0,
   .pool_turn 0, .pool_turn 1, .acquire 1, .process 1,
   .acquire 0, .process 0,
   .handler_send 1 2 user_msg,
   .spawn_hello 0]

/-- The events by which, from `start`, the `HELLO` handler of actor 0 sends its own
actor a `SPAWN` and the next task dequeues it. -/
def spawn_events : List event :=
  [.pool_turn 0, .acquire 0, .process 0, .handler_send 0 0 spawn_msg,
   .handler_return 0, .release 0, .pool_turn 0, .acquire 0]

/-- The state after `spawn_events`: the worker is about to process the `SPAWN`. -/
def spawn_taken : world_t :=
  { sys :=
      { actor_array_g :=
          [{ id := 0, role_ptr := 100, state := 0, message_queue := [],
             alive := true, free := false }]
        active_actor_number_g := 1
        all_actor_number_g := 1
        thread_pool_g := { tasks := [], shutdown := false } }
    workers := [.processing 0 spawn_msg 100]
    joiner := .before
    sent_log := [(0, { message_type := 0, nbytes := 0, data := 0 }), (0, spawn_msg)]
    handled_log := [(0, { message_type := 0, nbytes := 0, data := 0 })]
    actor_id_thread_local := [0] }

/-- The state after the worker of `spawn_taken` has inserted actor 1. -/
def spawn_created : world_t :=
  { spawn_taken with
    sys := { spawn_taken.sys with
      actor_array_g := spawn_taken.sys.actor_array_g ++
        [{ id := 1, role_ptr := 100, state := 0, message_queue := [], alive := true,
           free := true }]
      active_actor_number_g := 2
      all_actor_number_g := 2 }
    workers := [.spawning 0 1]
    handled_log := spawn_taken.handled_log ++ [(0, spawn_msg)] }

end Cacti

/-! # The sample application `silnia.c`

The factorial is computed along a chain of actors. `unsigned long` and
`unsigned long long` are taken to be 64 bits wide (LP64), so the arithmetic of the
source is arithmetic modulo `2^64`.

* The handlers are embedded as functions on the memory of the application and the
  globals of the runtime; they call `Cacti.send_message` and, like the source, drop
  the code it returns.
* A field that the source leaves uninitialised holds 0; no code reads such a field
  before it is written.
* The dispatch tasks are run one at a time, each to its end, in the order in which
  the pool hands them out. With `POOL_SIZE = 1` this is the only schedule; with a
  larger pool it is the schedule in which the workers never overlap. -/

namespace Silnia

open Cacti

/-- The struct `factorial_t`. -/
structure factorial_t where
  k_factorial : Nat
  k : Nat
  n : Nat
deriving DecidableEq, Repr

/-- The struct `actor_state_t`. -/
structure actor_state_t where
  has_father : Bool
  has_son : Bool
  father_id : Int
  son_id : Int
  factorial : factorial_t
deriving DecidableEq, Repr

/-- The memory of the application: the globals `actor_state_array_g` and `n_g`, the
blocks handed out by `malloc` in `make_factorial_msg` (the address of a block is its
index; a freed block is `none`, and so is the block at address 0, `NULL`), and what
has been written to the standard output: the values printed by `printf("%llu")`, in
order. The last field is a history variable that no code reads: how many times the
multiplication `silnia.c:182` has been executed. -/
structure memory_t where
  actor_state_array_g : List actor_state_t
  n_g : Nat
  heap : List (Option factorial_t)
  stdout : List Nat
  multiplications : Nat
deriving DecidableEq, Repr

/-- The message `godie_msg` of `process_recursive_godie` (`silnia.c:215-216`); `nbytes`
and `data` are left uninitialised. -/
def godie_msg (cfg : config) : message_t :=
  { message_type := cfg.MSG_GODIE, nbytes := 0, data := 0 }

/-- A call `send_message(id, message)` whose return code is dropped. -/
def send (cfg : config) (s : system_t) (id : Int) (message : message_t) :
    Except fault system_t :=
  match send_message cfg s id message with
  | .error f => .error f
  | .ok (_, s1) => .ok s1

/-- The call `free(p)`. -/
def free (m : memory_t) (p : Int) : memory_t :=
  { m with heap := m.heap.set p.toNat none }

end Silnia

/-! # The division of nodes among threads (`multiThreadedPageRankComputer.hpp`)

`uint32_t` values are reduced modulo `2^32`, `size_t` values modulo `2^64`. -/

namespace PageRank

/-- The private fields of `MultiThreadedPageRankComputer::ThreadsInfo`. -/
structure ThreadsInfo where
  numberOfThreadsUsed : Nat
  nodesPerThreadInFirstGroup : Nat
  nodesPerThreadInSecondGroup : Nat
  numberOfThreadsInFirstGroup : Nat
deriving DecidableEq, Repr

/-- The constructor `ThreadsInfo(numberOfNodes, numThreads)`
(`multiThreadedPageRankComputer.hpp:100-111`); `numThreads` is not 0 (the source
divides by it). -/
def ThreadsInfo.new (numberOfNodes numThreads : Nat) : ThreadsInfo :=
  { numberOfThreadsUsed := min (numberOfNodes % 2 ^ 32) numThreads
    nodesPerThreadInFirstGroup := (numberOfNodes / numThreads + 1) % 2 ^ 64
    nodesPerThreadInSecondGroup := numberOfNodes / numThreads
    numberOfThreadsInFirstGroup := numberOfNodes % numThreads }

/-- `getThreadFirstIndex` (`multiThreadedPageRankComputer.hpp:113-122`). In the second
branch `threadNumber` is not below `numberOfThreadsInFirstGroup`, so the difference
does not wrap. -/
def ThreadsInfo.getThreadFirstIndex (info : ThreadsInfo) (threadNumber : Nat) : Nat :=
  if threadNumber < info.numberOfThreadsInFirstGroup then
    (threadNumber * info.nodesPerThreadInFirstGroup) % 2 ^ 64
  else
    (info.numberOfThreadsInFirstGroup * info.nodesPerThreadInFirstGroup
      + (threadNumber - info.numberOfThreadsInFirstGroup)
        * info.nodesPerThreadInSecondGroup) % 2 ^ 64

/-- `getThreadLastIndex` (`multiThreadedPageRankComputer.hpp:124-134`); the final
`- 1` is a subtraction of `size_t`, which wraps at 0. -/
def ThreadsInfo.getThreadLastIndex (info : ThreadsInfo) (threadNumber : Nat) : Nat :=
  if threadNumber < info.numberOfThreadsInFirstGroup then
    ((((threadNumber + 1) % 2 ^ 32) * info.nodesPerThreadInFirstGroup) % 2 ^ 64
      + 2 ^ 64 - 1) % 2 ^ 64
  else
    ((info.numberOfThreadsInFirstGroup * info.nodesPerThreadInFirstGroup
      + ((threadNumber - info.numberOfThreadsInFirstGroup + 1) % 2 ^ 64)
        * info.nodesPerThreadInSecondGroup) % 2 ^ 64
      + 2 ^ 64 - 1) % 2 ^ 64

/-- `getNumberOfThreadsUsed` (`multiThreadedPageRankComputer.hpp:136-139`). -/
def ThreadsInfo.getNumberOfThreadsUsed (info : ThreadsInfo) : Nat :=
  info.numberOfThreadsUsed

/-- The index at which the range of thread `t` starts when `N` nodes are divided
among `T` threads with the first `N % T` threads taking one node more: the
mathematical value that the machine arithmetic of `getThreadFirstIndex` computes. -/
def boundary (N T t : Nat) : Nat :=
  t * (N / T) + min t (N % T)

end PageRank

namespace Cacti

/-! ## Properties

### Reading and writing the registry -/

theorem actor_at_nonneg {s : system_t} {id : Int} {a : actor_t}
    (h : actor_at s id = some a) : 0 ≤ id := by
  by_contra hneg
  have : id < 0 := by omega
  simp [actor_at, this] at h

theorem actor_at_lt {s : system_t} {id : Int} {a : actor_t}
    (h : actor_at s id = some a) : id.toNat < s.actor_array_g.length := by
  have h0 : ¬ id < 0 := by have := actor_at_nonneg h; omega
  simp only [actor_at, if_neg h0] at h
  exact (List.getElem?_eq_some.mp h).1

theorem actor_at_some_of_range (s : system_t) (id : Int)
    (h : ¬ (id < 0 ∨ s.actor_array_g.length ≤ id.toNat)) :
    ∃ a, actor_at s id = some a := by
  have h1 : ¬ id < 0 := fun h0 => h (Or.inl h0)
  have h2 : id.toNat < s.actor_array_g.length := by omega
  exact ⟨s.actor_array_g[id.toNat], by simp [actor_at, h1, List.getElem?_eq_getElem h2]⟩

theorem actor_at_set_self {s : system_t} {id : Int} {a : actor_t} (b : actor_t)
    (h : actor_at s id = some a) : actor_at (set_actor s id b) id = some b := by
  have h0 : ¬ id < 0 := by have := actor_at_nonneg h; omega
  have h1 := actor_at_lt h
  simp [actor_at, set_actor, h0, h1]

theorem actor_at_set_other {s : system_t} {id j : Int} (b : actor_t)
    (h0 : 0 ≤ id) (hj : j ≠ id) : actor_at (set_actor s id b) j = actor_at s j := by
  unfold actor_at set_actor
  by_cases hneg : j < 0
  · simp [hneg]
  · have hne : id.toNat ≠ j.toNat := by omega
    simp [hneg, List.getElem?_set_ne hne]

/-- The return code of `send_message` in any state: the code of the specification,
except that the accepting case ends in `fatal` (`threadpool.c:147`) when the pool has
been shut down. -/
theorem send_message_code (cfg : config) (s : system_t) (id : Int) (m : message_t) :
    (send_message cfg s id m).map Prod.fst =
      if claimed_send_code cfg s id = 0 ∧ s.thread_pool_g.shutdown = true then
        .error .add_task_after_shutdown
      else .ok (claimed_send_code cfg s id) := by
  unfold send_message claimed_send_code dynarray_length getSize
  by_cases h : id < 0 ∨ s.actor_array_g.length ≤ id.toNat
  · have h1 : id < 0 ∨ (s.actor_array_g.length : Int) ≤ id := by omega
    simp [h, h1, Except.map]
  · have h1 : ¬ (id < 0 ∨ (s.actor_array_g.length : Int) ≤ id) := by omega
    obtain ⟨a, ha⟩ := actor_at_some_of_range s id h
    rw [if_neg h, if_neg h1, ha]
    simp only
    by_cases hal : a.alive = false
    · simp [hal, Except.map]
    · by_cases hq : cfg.ACTOR_QUEUE_LIMIT ≤ a.message_queue.length
      · simp [hal, hq, Except.map]
      · cases hs : s.thread_pool_g.shutdown <;>
          simp [hal, hq, hs, Except.map, thread_pool_add_task]

/-- The accepting case of `send_message` while the pool runs: 0 is returned, the
message is at the tail of the target's queue, one task for the target is at the tail
of the pool's queue, nothing else changes. -/
theorem send_message_accepted (cfg : config) (s : system_t) (id : Int) (m : message_t)
    (a : actor_t) (ha : actor_at s id = some a) (hal : a.alive = true)
    (hq : a.message_queue.length < cfg.ACTOR_QUEUE_LIMIT)
    (hs : s.thread_pool_g.shutdown = false) :
    ∃ s1, send_message cfg s id m = .ok (0, s1) ∧
      actor_at s1 id = some { a with message_queue := a.message_queue ++ [m] } ∧
      (∀ j, j ≠ id → actor_at s1 j = actor_at s j) ∧
      s1.actor_array_g.length = s.actor_array_g.length ∧
      s1.thread_pool_g.tasks = s.thread_pool_g.tasks ++ [{ arg := id }] ∧
      s1.thread_pool_g.shutdown = s.thread_pool_g.shutdown ∧
      s1.active_actor_number_g = s.active_actor_number_g ∧
      s1.all_actor_number_g = s.all_actor_number_g := by
  have h0 := actor_at_nonneg ha
  have h1 := actor_at_lt ha
  have hr : ¬ (id < 0 ∨ dynarray_length s.actor_array_g ≤ id.toNat) := by
    unfold dynarray_length; omega
  have hq1 : ¬ getSize a.message_queue ≥ cfg.ACTOR_QUEUE_LIMIT := by
    unfold getSize; omega
  refine ⟨{ set_actor s id { a with message_queue := enqueue a.message_queue m } with
             thread_pool_g := { s.thread_pool_g with
               tasks := enqueue s.thread_pool_g.tasks { arg := id } } },
    ?_, ?_, ?_, ?_, ?_, ?_, ?_, ?_⟩
  · simp [send_message, hr, ha, hal, hq1, thread_pool_add_task, hs]
  · exact actor_at_set_self (s := s) _ ha
  · intro j hj
    exact actor_at_set_other (s := s) _ h0 hj
  · simp [set_actor]
  · simp [enqueue]
  · rfl
  · simp [set_actor]
  · simp [set_actor]

/-! ### `actor_system_create` -/

/-- C4 (as amended): on fresh globals `actor_system_create` returns -1 and creates
nothing when `CAST_LIMIT < 1`; otherwise, when `ACTOR_QUEUE_LIMIT < 1`, the `HELLO` is
refused and the call ends in `fatal` (`cacti.c:187`); otherwise it returns 0, stores 0
as the first actor id, and leaves a registry of exactly one actor (id 0, the given
role, alive, not busy, `NULL` state, a queue holding exactly the `HELLO` with
`nbytes` 0 and `NULL` data), both counters 1 and exactly one task, for id 0, in
the pool. -/
theorem actor_system_create_fresh (cfg : config) (role_ptr : Int) :
    actor_system_create cfg fresh role_ptr =
      if cfg.CAST_LIMIT < 1 then .ok (-1, none, fresh)
      else if cfg.ACTOR_QUEUE_LIMIT < 1 then .error .create_hello_refused
      else
        .ok (0, some 0,
          { actor_array_g :=
              [{ id := 0, role_ptr := role_ptr, state := 0,
                 message_queue :=
                   [{ message_type := cfg.MSG_HELLO, nbytes := 0, data := 0 }],
                 alive := true, free := true }]
            active_actor_number_g := 1
            all_actor_number_g := 1
            thread_pool_g := { tasks := [{ arg := 0 }], shutdown := false } }) := by
  unfold actor_system_create
  by_cases hc : cfg.CAST_LIMIT < 1
  · simp [hc]
  · have hc1 : ¬ (1 : Int) > cfg.CAST_LIMIT := by omega
    by_cases hq : cfg.ACTOR_QUEUE_LIMIT < 1
    · have hq0 : cfg.ACTOR_QUEUE_LIMIT = 0 := by omega
      simp [hc, hq, hq0, create_new_actor, fresh, hc1, send_message, actor_at,
        dynarray_length, dynarray_push, getSize, createQueue]
    · have hq0 : ¬ cfg.ACTOR_QUEUE_LIMIT = 0 := by omega
      simp [hc, hq, hq0, create_new_actor, fresh, hc1, send_message, actor_at,
        dynarray_length, dynarray_push, getSize, createQueue, thread_pool_add_task,
        thread_pool_init, set_actor, enqueue, create_hello_msg]

/-- C4 (counterexample): with `CAST_LIMIT = 3` and `ACTOR_QUEUE_LIMIT = 0`,
`actor_system_create` on fresh globals does not return 0: `send_message` answers -3
for the `HELLO` and the call ends in `fatal`. -/
theorem actor_system_create_no_room :
    ¬ no_room_cfg.CAST_LIMIT < 1 ∧
      actor_system_create no_room_cfg fresh 100 = .error .create_hello_refused :=
  ⟨by decide, rfl⟩

/-! ### Message processing -/

/-- C5: when `total_ever < CAST_LIMIT`, processing a `SPAWN` on a worker whose current
actor is `self_id` first appends exactly one record to the registry of size `N`: id
`N`, the role `msg.data`, alive, not busy, `NULL` state, empty queue; both counters
grow by 1, the existing records and the pool are unchanged. Then `send_message` is
called for actor `N` with a `HELLO` whose `data` is `self_id`, and
any result of that send other than 0 is fatal (`cacti.c:81`). -/
theorem process_spawn_appends (cfg : config) (s : system_t) (self_id : Int)
    (msg : message_t) (h : s.all_actor_number_g < cfg.CAST_LIMIT) :
    ∃ s1,
      create_new_actor cfg s msg.data =
        .ok ({ id := s.actor_array_g.length, role_ptr := msg.data, state := 0,
               message_queue := [], alive := true, free := true }, s1) ∧
      s1.actor_array_g = s.actor_array_g ++
        [{ id := s.actor_array_g.length, role_ptr := msg.data, state := 0,
           message_queue := [], alive := true, free := true }] ∧
      s1.all_actor_number_g = s.all_actor_number_g + 1 ∧
      s1.active_actor_number_g = s.active_actor_number_g + 1 ∧
      s1.thread_pool_g = s.thread_pool_g ∧
      (∀ code s2,
        send_message cfg s1 s.actor_array_g.length
            { message_type := cfg.MSG_HELLO, nbytes := cfg.sizeof_actor_id,
              data := self_id } = .ok (code, s2) →
          process_spawn cfg s self_id msg =
            if code = 0 then .ok s2 else .error .spawn_hello_refused) ∧
      (∀ f,
        send_message cfg s1 s.actor_array_g.length
            { message_type := cfg.MSG_HELLO, nbytes := cfg.sizeof_actor_id,
              data := self_id } = .error f →
          process_spawn cfg s self_id msg = .error f) := by
  have h1 : ¬ s.all_actor_number_g + 1 > cfg.CAST_LIMIT := by omega
  refine ⟨{ s with
      actor_array_g := s.actor_array_g ++
        [{ id := s.actor_array_g.length, role_ptr := msg.data, state := 0,
           message_queue := [], alive := true, free := true }]
      all_actor_number_g := s.all_actor_number_g + 1
      active_actor_number_g := s.active_actor_number_g + 1 },
    ?_, rfl, rfl, rfl, rfl, ?_, ?_⟩
  · simp [create_new_actor, h1, dynarray_length, dynarray_push, createQueue]
  · intro code s2 hsend
    simp only [process_spawn, create_new_actor, h1, if_false, process_spawn_hello,
      spawn_hello_msg, dynarray_length, dynarray_push, createQueue]
    rw [hsend]
    by_cases hc : code = 0 <;> simp [hc]
  · intro f hsend
    simp only [process_spawn, create_new_actor, h1, if_false, process_spawn_hello,
      spawn_hello_msg, dynarray_length, dynarray_push, createQueue]
    rw [hsend]

/-- C5 (witness): a `SPAWN` processed by actor 0 in the one-actor registry. -/
theorem process_spawn_appends_witness :
    ∃ s1,
      create_new_actor example_cfg one_actor spawn_msg.data =
        .ok ({ id := one_actor.actor_array_g.length, role_ptr := spawn_msg.data,
               state := 0, message_queue := [], alive := true, free := true }, s1) ∧
      s1.actor_array_g = one_actor.actor_array_g ++
        [{ id := one_actor.actor_array_g.length, role_ptr := spawn_msg.data, state := 0,
           message_queue := [], alive := true, free := true }] ∧
      s1.all_actor_number_g = one_actor.all_actor_number_g + 1 ∧
      s1.active_actor_number_g = one_actor.active_actor_number_g + 1 ∧
      s1.thread_pool_g = one_actor.thread_pool_g ∧
      (∀ code s2,
        send_message example_cfg s1 one_actor.actor_array_g.length
            { message_type := example_cfg.MSG_HELLO,
              nbytes := example_cfg.sizeof_actor_id, data := 0 } = .ok (code, s2) →
          process_spawn example_cfg one_actor 0 spawn_msg =
            if code = 0 then .ok s2 else .error .spawn_hello_refused) ∧
      (∀ f,
        send_message example_cfg s1 one_actor.actor_array_g.length
            { message_type := example_cfg.MSG_HELLO,
              nbytes := example_cfg.sizeof_actor_id, data := 0 } = .error f →
          process_spawn example_cfg one_actor 0 spawn_msg = .error f) :=
  process_spawn_appends example_cfg one_actor 0 spawn_msg (by decide)

/-- C7 (as amended): processing a message whose type `t` is neither `SPAWN` nor
`GODIE`, for a role whose table has `nprompts` entries, invokes exactly
`role.prompts[t]` with the actor's state cell, `msg.nbytes` and `msg.data` when
`t < role.nprompts` and changes no global; when `t >= role.nprompts` the code makes no
check and does not reach `fatal`: it reads the table past its end, which has no
defined behaviour. -/
theorem process_message_prompt (cfg : config) (s : system_t) (self_id : Int)
    (msg : message_t) (role : role_t) (h1 : msg.message_type ≠ cfg.MSG_SPAWN)
    (h2 : msg.message_type ≠ cfg.MSG_GODIE)
    (hwf : role.prompts.length = role.nprompts) :
    (msg.message_type < role.nprompts →
      ∃ func, role.prompts[msg.message_type]? = some func ∧
        process_message cfg s self_id msg role =
          .ok (s, some { func := func, state_cell := self_id, nbytes := msg.nbytes,
                         data := msg.data })) ∧
    (role.nprompts ≤ msg.message_type →
      process_message cfg s self_id msg role = .error .undefined_behaviour ∧
      fault.is_fatal .undefined_behaviour = false) := by
  constructor
  · intro hlt
    have hlt1 : msg.message_type < role.prompts.length := by omega
    refine ⟨role.prompts[msg.message_type], List.getElem?_eq_getElem hlt1, ?_⟩
    simp [process_message, h1, h2, process_prompt, List.getElem?_eq_getElem hlt1]
  · intro hge
    have hge1 : role.prompts.length ≤ msg.message_type := by omega
    refine ⟨?_, rfl⟩
    simp [process_message, h1, h2, process_prompt, List.getElem?_eq_none hge1]

/-- C7 (witness): the user message of type 1 and the role with handlers 7 and 8. -/
theorem process_message_prompt_witness :
    (user_msg.message_type < example_role.nprompts →
      ∃ func, example_role.prompts[user_msg.message_type]? = some func ∧
        process_message example_cfg one_actor 0 user_msg example_role =
          .ok (one_actor, some { func := func, state_cell := 0,
                                 nbytes := user_msg.nbytes, data := user_msg.data })) ∧
    (example_role.nprompts ≤ user_msg.message_type →
      process_message example_cfg one_actor 0 user_msg example_role
        = .error .undefined_behaviour ∧
      fault.is_fatal .undefined_behaviour = false) :=
  process_message_prompt example_cfg one_actor 0 user_msg example_role
    (by decide) (by decide) rfl

/-- C7 (counterexample): a message of type 5 for a role with `nprompts = 2` is neither
`SPAWN` nor `GODIE` and `5 >= nprompts`, yet processing it does not end in the fatal
reporter: the table is indexed past its end. An execution gets there: the `HELLO`
handler of actor 0 sends such a message to its own actor, the send is accepted, and
the task that dequeues it runs into the out-of-bounds read. -/
theorem process_message_past_table :
    past_table_msg.message_type ≠ example_cfg.MSG_SPAWN ∧
      past_table_msg.message_type ≠ example_cfg.MSG_GODIE ∧
      example_role.nprompts ≤ past_table_msg.message_type ∧
      process_message example_cfg one_actor 0 past_table_msg example_role
        = .error .undefined_behaviour ∧
      fault.is_fatal .undefined_behaviour = false ∧
      run example_cfg start past_table_events = .failed .undefined_behaviour :=
  ⟨by decide, by decide, by decide, rfl, rfl, rfl⟩

/-- C8: processing a `GODIE` on a worker whose current actor `self_id` is in the
registry sets that actor's `alive` flag to false and changes nothing else: the
actor's queue and its other fields, every other record, the registry size, `active`,
`total_ever` and the pool are as before, and no handler is invoked. -/
theorem process_message_godie (cfg : config) (s : system_t) (self_id : Int)
    (msg : message_t) (role : role_t) (a : actor_t)
    (hm : msg.message_type = cfg.MSG_GODIE) (hne : cfg.MSG_GODIE ≠ cfg.MSG_SPAWN)
    (ha : actor_at s self_id = some a) :
    ∃ s1, process_message cfg s self_id msg role = .ok (s1, none) ∧
      actor_at s1 self_id = some { a with alive := false } ∧
      (∀ j, j ≠ self_id → actor_at s1 j = actor_at s j) ∧
      s1.actor_array_g.length = s.actor_array_g.length ∧
      s1.active_actor_number_g = s.active_actor_number_g ∧
      s1.all_actor_number_g = s.all_actor_number_g ∧
      s1.thread_pool_g = s.thread_pool_g := by
  have h0 := actor_at_nonneg ha
  refine ⟨set_actor s self_id { a with alive := false }, ?_, ?_, ?_, ?_, rfl, rfl, rfl⟩
  · simp [process_message, hm, hne, process_godie, ha]
  · exact actor_at_set_self _ ha
  · intro j hj
    exact actor_at_set_other _ h0 hj
  · simp [set_actor]

/-- C8 (witness): a `GODIE` processed by actor 0 of the one-actor registry. -/
theorem process_message_godie_witness :
    ∃ s1, process_message example_cfg one_actor 0 godie_msg example_role
        = .ok (s1, none) ∧
      actor_at s1 0 = some
        { id := 0, role_ptr := 100, state := 0, message_queue := [], alive := false,
          free := true } ∧
      (∀ j, j ≠ 0 → actor_at s1 j = actor_at one_actor j) ∧
      s1.actor_array_g.length = one_actor.actor_array_g.length ∧
      s1.active_actor_number_g = one_actor.active_actor_number_g ∧
      s1.all_actor_number_g = one_actor.all_actor_number_g ∧
      s1.thread_pool_g = one_actor.thread_pool_g :=
  process_message_godie example_cfg one_actor 0 godie_msg example_role
    { id := 0, role_ptr := 100, state := 0, message_queue := [], alive := true,
      free := true }
    rfl (by decide) rfl

/-! ### Executions -/

theorem send_message_ok {cfg : config} {s s1 : system_t} {id code : Int}
    {m : message_t} (h : send_message cfg s id m = .ok (code, s1)) :
    (code ≠ 0 ∧ s1 = s) ∨
      (code = 0 ∧ ∃ a, actor_at s id = some a ∧ a.alive = true ∧
        a.message_queue.length < cfg.ACTOR_QUEUE_LIMIT ∧
        s.thread_pool_g.shutdown = false ∧ s1 = accepted s id a m) := by
  unfold send_message at h
  split at h
  · simp only [Except.ok.injEq, Prod.mk.injEq] at h
    exact Or.inl ⟨by omega, h.2.symm⟩
  · split at h
    · cases h
    · rename_i a ha
      split at h
      · simp only [Except.ok.injEq, Prod.mk.injEq] at h
        exact Or.inl ⟨by omega, h.2.symm⟩
      · rename_i hal
        split at h
        · simp only [Except.ok.injEq, Prod.mk.injEq] at h
          exact Or.inl ⟨by omega, h.2.symm⟩
        · rename_i hq
          unfold thread_pool_add_task at h
          cases hs : s.thread_pool_g.shutdown
          · simp only [hs, Bool.false_eq_true, if_false, Except.ok.injEq,
              Prod.mk.injEq] at h
            refine Or.inr ⟨h.1.symm, a, ha, by simpa using hal, ?_, rfl, ?_⟩
            · unfold getSize at hq; omega
            · rw [← h.2]; simp [accepted, hs]
          · simp [hs] at h

theorem world_send_ok {cfg : config} {x x1 : world_t} {id code : Int} {m : message_t}
    (h : x.send cfg id m = .ok (code, x1)) :
    (code ≠ 0 ∧ x1 = x) ∨
      (code = 0 ∧ ∃ a, actor_at x.sys id = some a ∧ a.alive = true ∧
        a.message_queue.length < cfg.ACTOR_QUEUE_LIMIT ∧
        x.sys.thread_pool_g.shutdown = false ∧
        x1 = { x.sent id m with sys := accepted x.sys id a m }) := by
  unfold world_t.send at h
  split at h
  · cases h
  · rename_i c s1 hsend
    simp only [Except.ok.injEq, Prod.mk.injEq] at h
    obtain ⟨hc, hx⟩ := h
    subst hc
    rcases send_message_ok hsend with ⟨hne, hs⟩ | ⟨h0, a, ha, hal, hq, hsh, hs⟩
    · left
      refine ⟨hne, ?_⟩
      rw [← hx, hs]
      simp [hne]
    · right
      refine ⟨h0, a, ha, hal, hq, hsh, ?_⟩
      rw [← hx, hs]
      simp [h0, world_t.sent]

theorem thread_pool_thread_leave {pool p : thread_pool_t}
    (h : thread_pool_thread pool = some (none, p)) :
    p = pool ∧ pool.shutdown = true ∧ pool.tasks = [] := by
  unfold thread_pool_thread at h
  split at h
  · cases h
  · split at h
    · rename_i hexit
      simp only [Option.some.injEq, Prod.mk.injEq, true_and] at h
      exact ⟨h.symm, hexit.1, List.length_eq_zero.mp hexit.2⟩
    · split at h
      · cases h
      · simp at h

theorem thread_pool_thread_take {pool p : thread_pool_t} {task : runnable_t}
    (h : thread_pool_thread pool = some (some task, p)) :
    ∃ rest, pool.tasks = task :: rest ∧ p = { pool with tasks := rest } := by
  unfold thread_pool_thread at h
  split at h
  · cases h
  · split at h
    · simp at h
    · cases hd : pool.tasks with
      | nil => simp [hd, dequeue] at h
      | cons t rest =>
        simp only [hd, dequeue, Option.some.injEq, Prod.mk.injEq] at h
        exact ⟨rest, by rw [h.1], h.2.symm⟩

/-- Every successful `step` is one of the transitions of `Step`. -/
theorem step_sound {cfg : config} {x x1 : world_t} {e : event}
    (h : step cfg x e = .next x1) : Step cfg x x1 := by
  cases e with
  | pool_turn i =>
    simp only [step] at h
    split at h
    · rename_i hw
      split at h
      · cases h
      · rename_i pool hturn
        simp only [outcome.next.injEq] at h
        obtain ⟨hp, hsh, ht⟩ := thread_pool_thread_leave hturn
        rw [← h, hp]
        exact Step.leave x i hw hsh ht
      · rename_i task pool hturn
        simp only [outcome.next.injEq] at h
        obtain ⟨rest, ht, hp⟩ := thread_pool_thread_take hturn
        rw [← h, hp]
        exact Step.take x i task rest hw ht
    · cases h
  | acquire i =>
    simp only [step] at h
    split at h
    · rename_i id hw
      unfold thread_pool_task_begin at h
      cases ha : actor_at x.sys id with
      | none => simp [ha] at h
      | some a =>
        simp only [ha] at h
        cases hf : a.free with
        | false => simp [hf] at h
        | true =>
          cases hq : a.message_queue with
          | nil => simp [hf, hq, dequeue] at h
          | cons m rest =>
            simp only [hf, hq, dequeue, Bool.true_eq_false, if_false,
              outcome.next.injEq] at h
            rw [← h]
            exact Step.acquire x i id a m rest hw ha hf hq
    · cases h
  | process i =>
    simp only [step] at h
    split at h
    · rename_i id m r hw
      unfold step_process at h
      by_cases hs : m.message_type = cfg.MSG_SPAWN
      · simp only [hs, if_true] at h
        unfold create_new_actor at h
        by_cases hc : x.sys.all_actor_number_g + 1 > cfg.CAST_LIMIT
        · simp [hc] at h
        · simp only [hc, if_false, outcome.next.injEq] at h
          rw [← h]
          exact Step.spawn x i id m r hw hs (by omega)
      · simp only [hs, if_false] at h
        by_cases hg : m.message_type = cfg.MSG_GODIE
        · simp only [hg, if_true] at h
          unfold process_godie at h
          cases ha : actor_at x.sys id with
          | none => simp [ha] at h
          | some a =>
            simp only [ha, outcome.next.injEq] at h
            rw [← h]
            exact Step.godie x i id m r a hw hs hg ha
        · simp only [hg, if_false] at h
          cases hr : cfg.roles r with
          | none => simp [hr] at h
          | some role =>
            simp only [hr] at h
            cases hp : process_prompt role id m with
            | error f => simp [hp] at h
            | ok call =>
              simp only [hp, outcome.next.injEq] at h
              rw [← h]
              exact Step.prompt x i id m r role call hw hs hg hr hp
    · cases h
  | spawn_hello i =>
    simp only [step] at h
    split at h
    · rename_i id n hw
      split at h
      · cases h
      · rename_i code x2 hsend
        split at h
        · cases h
        · rename_i hcode
          simp only [outcome.next.injEq] at h
          rcases world_send_ok hsend with ⟨hne, _⟩ | ⟨_, a, ha, hal, hq, hsh, hx2⟩
          · exact absurd hne hcode
          · rw [← h, hx2]
            exact Step.hello x i id n a hw ha hal hq hsh
    · cases h
  | handler_send i target m =>
    simp only [step] at h
    split at h
    · split at h
      · cases h
      · rename_i code x2 hsend
        simp only [outcome.next.injEq] at h
        rcases world_send_ok hsend with ⟨_, hx⟩ | ⟨_, a, ha, hal, hq, hsh, hx2⟩
        · rw [← h, hx]; exact Step.refused x
        · rw [← h, hx2]; exact Step.sent x target m a ha hal hq hsh
    · cases h
  | handler_store i v =>
    simp only [step] at h
    split at h
    · rename_i id call hw
      split at h
      · cases h
      · rename_i a ha
        simp only [outcome.next.injEq] at h
        rw [← h]
        exact Step.store x i id call a v hw ha
    · cases h
  | handler_return i =>
    simp only [step] at h
    split at h
    · rename_i id call hw
      simp only [outcome.next.injEq] at h
      rw [← h]
      exact Step.back x i id call hw
    · cases h
  | release i =>
    simp only [step] at h
    split at h
    · rename_i id hw
      unfold thread_pool_task_end at h
      cases ha : actor_at x.sys id with
      | none => simp [ha] at h
      | some a =>
        simp only [ha, outcome.next.injEq] at h
        rw [← h]
        exact Step.release x i id a hw ha
    · cases h
  | send target m =>
    simp only [step] at h
    split at h
    · cases h
    · rename_i code x2 hsend
      simp only [outcome.next.injEq] at h
      rcases world_send_ok hsend with ⟨_, hx⟩ | ⟨_, a, ha, hal, hq, hsh, hx2⟩
      · rw [← h, hx]; exact Step.refused x
      · rw [← h, hx2]; exact Step.sent x target m a ha hal hq hsh
  | join_pass id =>
    simp only [step] at h
    split at h
    · rename_i hj
      simp only [outcome.next.injEq] at h
      rw [← h]
      exact Step.join_pass x hj.1 (by have := hj.2.2; omega)
    · cases h
  | join_shutdown =>
    simp only [step] at h
    split at h
    · rename_i hj
      simp only [outcome.next.injEq] at h
      rw [← h]
      exact Step.join_shutdown x hj
    · cases h

theorem run_invariant {cfg : config} (P : world_t → Prop)
    (hstep : ∀ x x1, P x → Step cfg x x1 → P x1) :
    ∀ (es : List event) (x x1 : world_t), P x → run cfg x es = .next x1 → P x1 := by
  intro es
  induction es with
  | nil =>
    intro x x1 hx h
    simp only [run, outcome.next.injEq] at h
    exact h ▸ hx
  | cons e es ih =>
    intro x x1 hx h
    simp only [run] at h
    cases hs : step cfg x e with
    | disabled => simp [hs] at h
    | failed f => simp [hs] at h
    | next x2 =>
      simp only [hs] at h
      exact ih x2 x1 (hstep x x2 hx (step_sound hs)) h

theorem Reachable.start (cfg : config) (role_ptr : Int) (x0 : world_t)
    (h : init cfg role_ptr = some x0) : Reachable cfg x0 :=
  ⟨role_ptr, x0, [], h, rfl⟩

theorem init_eq {cfg : config} {role_ptr : Int} {x0 : world_t}
    (h : init cfg role_ptr = some x0) :
    ¬ cfg.CAST_LIMIT < 1 ∧ ¬ cfg.ACTOR_QUEUE_LIMIT < 1 ∧
    x0 =
      { sys :=
          { actor_array_g :=
              [{ id := 0, role_ptr := role_ptr, state := 0,
                 message_queue :=
                   [{ message_type := cfg.MSG_HELLO, nbytes := 0, data := 0 }],
                 alive := true, free := true }]
            active_actor_number_g := 1
            all_actor_number_g := 1
            thread_pool_g := { tasks := [{ arg := 0 }], shutdown := false } }
        workers := List.replicate cfg.POOL_SIZE .idle
        joiner := .before
        sent_log := [(0, { message_type := cfg.MSG_HELLO, nbytes := 0, data := 0 })]
        handled_log := []
        actor_id_thread_local := List.replicate cfg.POOL_SIZE 0 } := by
  unfold init at h
  by_cases hc : cfg.CAST_LIMIT < 1
  · simp [actor_system_create, hc] at h
  · have hc1 : ¬ (1 : Int) > cfg.CAST_LIMIT := by omega
    by_cases hq : cfg.ACTOR_QUEUE_LIMIT < 1
    · have hq0 : cfg.ACTOR_QUEUE_LIMIT = 0 := by omega
      have hcreate : actor_system_create cfg fresh role_ptr
          = .error .create_hello_refused := by
        simp [actor_system_create, hc, hq0, create_new_actor, fresh, hc1, send_message,
          actor_at, dynarray_length, dynarray_push, getSize, createQueue]
      rw [hcreate] at h
      cases h
    · have hq0 : ¬ cfg.ACTOR_QUEUE_LIMIT = 0 := by omega
      have hcreate : actor_system_create cfg fresh role_ptr =
          .ok (0, some 0,
            { actor_array_g :=
                [{ id := 0, role_ptr := role_ptr, state := 0,
                   message_queue :=
                     [{ message_type := cfg.MSG_HELLO, nbytes := 0, data := 0 }],
                   alive := true, free := true }]
              active_actor_number_g := 1
              all_actor_number_g := 1
              thread_pool_g := { tasks := [{ arg := 0 }], shutdown := false } }) := by
        simp [actor_system_create, hc, hq0, create_new_actor, fresh, hc1, send_message,
          actor_at, dynarray_length, dynarray_push, getSize, createQueue,
          thread_pool_add_task, thread_pool_init, set_actor, enqueue, create_hello_msg]
      rw [hcreate] at h
      simp only [Option.some.injEq] at h
      exact ⟨hc, hq, h.symm⟩

/-- A property that holds where `actor_system_create` returns and that every
transition keeps holds in every reachable state. -/
theorem Reachable.induct {cfg : config} (P : world_t → Prop)
    (h0 : ∀ role_ptr x0, init cfg role_ptr = some x0 → P x0)
    (hstep : ∀ x x1, P x → Step cfg x x1 → P x1) :
    ∀ x, Reachable cfg x → P x := by
  rintro x ⟨role_ptr, x0, es, hinit, hrun⟩
  exact run_invariant P hstep es x0 x (h0 role_ptr x0 hinit) hrun

/-! ### The counter `total_ever` -/

theorem actor_at_set {s : system_t} {id : Int} {a : actor_t} (b : actor_t) (j : Int)
    (h : actor_at s id = some a) :
    actor_at (set_actor s id b) j = if j = id then some b else actor_at s j := by
  by_cases hj : j = id
  · rw [if_pos hj, hj]
    exact actor_at_set_self b h
  · rw [if_neg hj]
    exact actor_at_set_other b (actor_at_nonneg h) hj

theorem actor_at_created {s : system_t} {j : Int} {a : actor_t} (role_ptr : Int)
    (h : actor_at s j = some a) : actor_at (created s role_ptr) j = some a := by
  have h0 : ¬ j < 0 := by have := actor_at_nonneg h; omega
  have h1 := actor_at_lt h
  simp only [actor_at, if_neg h0] at h
  simp only [actor_at, if_neg h0, created, dynarray_push]
  rw [List.getElem?_append_left h1]
  exact h

theorem actor_at_released {s : system_t} {id : Int} {a : actor_t} (j : Int)
    (h : actor_at s id = some a) :
    actor_at (released s id a) j =
      if j = id then some { a with free := true } else actor_at s j := by
  unfold released
  split
  · exact actor_at_set (s := { s with
      active_actor_number_g := s.active_actor_number_g - 1 }) _ j h
  · exact actor_at_set _ j h

theorem actor_at_accepted {s : system_t} {id : Int} {a : actor_t} (m : message_t)
    (j : Int) (h : actor_at s id = some a) :
    actor_at (accepted s id a m) j =
      if j = id then some { a with message_queue := a.message_queue ++ [m] }
      else actor_at s j :=
  actor_at_set (s := s) _ j h

/-- No transition removes an actor from the registry or sets `alive` back to true. -/
theorem Step.alive {cfg : config} {x x1 : world_t} (h : Step cfg x x1) (id : Int)
    (a : actor_t) (ha : actor_at x.sys id = some a) (hd : a.alive = false) :
    ∃ a1, actor_at x1.sys id = some a1 ∧ a1.alive = false := by
  cases h with
  | leave => exact ⟨a, ha, hd⟩
  | take => exact ⟨a, ha, hd⟩
  | acquire i t b m rest hw hb hf hq =>
    show ∃ a1, actor_at (set_actor x.sys t _) id = some a1 ∧ _
    rw [actor_at_set _ id hb]
    by_cases hi : id = t
    · subst hi
      rw [ha] at hb
      cases hb
      simp [hd]
    · simp [hi, ha, hd]
  | spawn i t m r hw hm hc => exact ⟨a, actor_at_created _ ha, hd⟩
  | godie i t m r b hw hs hm hb =>
    show ∃ a1, actor_at (set_actor x.sys t _) id = some a1 ∧ _
    rw [actor_at_set _ id hb]
    by_cases hi : id = t
    · simp [hi]
    · simp [hi, ha, hd]
  | prompt => exact ⟨a, ha, hd⟩
  | hello i t n b hw hb hal hq hsh =>
    show ∃ a1, actor_at (accepted x.sys n b _) id = some a1 ∧ _
    rw [actor_at_accepted _ id hb]
    by_cases hi : id = n
    · subst hi
      rw [ha] at hb
      cases hb
      simp [hd]
    · simp [hi, ha, hd]
  | sent t m b hb hal hq hsh =>
    show ∃ a1, actor_at (accepted x.sys t b m) id = some a1 ∧ _
    rw [actor_at_accepted _ id hb]
    by_cases hi : id = t
    · subst hi
      rw [ha] at hb
      cases hb
      simp [hd]
    · simp [hi, ha, hd]
  | refused => exact ⟨a, ha, hd⟩
  | store i t call b v hw hb =>
    show ∃ a1, actor_at (set_actor x.sys t _) id = some a1 ∧ _
    rw [actor_at_set _ id hb]
    by_cases hi : id = t
    · subst hi
      rw [ha] at hb
      cases hb
      simp [hd]
    · simp [hi, ha, hd]
  | back => exact ⟨a, ha, hd⟩
  | release i t b hw hb =>
    show ∃ a1, actor_at (released x.sys t b) id = some a1 ∧ _
    rw [actor_at_released id hb]
    by_cases hi : id = t
    · subst hi
      rw [ha] at hb
      cases hb
      simp [hd]
    · simp [hi, ha, hd]
  | join_pass => exact ⟨a, ha, hd⟩
  | join_shutdown => exact ⟨a, ha, hd⟩

theorem send_message_dead {cfg : config} {s : system_t} {id : Int} {a : actor_t}
    (ha : actor_at s id = some a) (hd : a.alive = false) (m : message_t) :
    send_message cfg s id m = .ok (-1, s) := by
  have h0 := actor_at_nonneg ha
  have h1 := actor_at_lt ha
  have hr : ¬ (id < 0 ∨ dynarray_length s.actor_array_g ≤ id.toNat) := by
    unfold dynarray_length; omega
  simp [send_message, hr, ha, hd]

/-- C9: once a worker has processed a `GODIE` for actor `id`, then after any further
events whatsoever the actor is still in the registry with `alive = false`, and every
`send_message` to `id` returns -1 and leaves the globals as they are (nothing is
enqueued, no task is posted). -/
theorem dead_actor_stays_dead (cfg : config) (x x1 x2 : world_t) (i : Nat) (id : Int)
    (m : message_t) (r : Int) (es : List event)
    (hw : x.workers[i]? = some (.processing id m r))
    (hm : m.message_type = cfg.MSG_GODIE) (hne : cfg.MSG_GODIE ≠ cfg.MSG_SPAWN)
    (h1 : step cfg x (.process i) = .next x1) (h2 : run cfg x1 es = .next x2) :
    (∃ a, actor_at x2.sys id = some a ∧ a.alive = false) ∧
      ∀ m1, send_message cfg x2.sys id m1 = .ok (-1, x2.sys) := by
  have hdead1 : ∃ a, actor_at x1.sys id = some a ∧ a.alive = false := by
    simp only [step, hw, step_process, hm, hne, if_false, if_true] at h1
    unfold process_godie at h1
    cases ha : actor_at x.sys id with
    | none => simp [ha] at h1
    | some a =>
      simp only [ha, outcome.next.injEq] at h1
      rw [← h1]
      exact ⟨_, actor_at_set_self (s := x.sys) { a with alive := false } ha, rfl⟩
  have hdead2 : ∃ a, actor_at x2.sys id = some a ∧ a.alive = false :=
    run_invariant (fun y => ∃ a, actor_at y.sys id = some a ∧ a.alive = false)
      (fun y y1 ⟨a, ha, hd⟩ hs => hs.alive id a ha hd) es x1 x2 hdead1 h2
  obtain ⟨a, ha, hd⟩ := hdead2
  exact ⟨⟨a, ha, hd⟩, fun m1 => send_message_dead ha hd m1⟩

/-- C9 (witness): actor 0 processes the `GODIE` it sent itself; after its task has
given the token back and an outside thread has tried to send, a send to actor 0
still returns -1. -/
theorem dead_actor_stays_dead_witness :
    run example_cfg start godie_events = .next godie_taken ∧
    (∃ a, actor_at godie_released.sys 0 = some a ∧ a.alive = false) ∧
    ∀ m1, send_message example_cfg godie_released.sys 0 m1
      = .ok (-1, godie_released.sys) :=
  ⟨rfl,
    dead_actor_stays_dead example_cfg godie_taken godie_done godie_released 0 0
      godie_msg 100 [.release 0, .send 0 user_msg] rfl rfl (by decide) rfl rfl⟩

/-! ### The token and the queue discipline -/

theorem set_get {ws : List worker_t} {i : Nat} {p : worker_t} (p1 : worker_t) (j : Nat)
    (h : ws[i]? = some p) : (ws.set i p1)[j]? = if j = i then some p1 else ws[j]? := by
  have hi : i < ws.length := (List.getElem?_eq_some.mp h).1
  rw [List.getElem?_set]
  by_cases hj : i = j
  · subst hj
    simp [hi]
  · have hj1 : ¬ j = i := fun e => hj e.symm
    simp [hj, hj1]

theorem log_of_append (log : List (Int × message_t)) (t id : Int) (m : message_t) :
    log_of (log ++ [(t, m)]) id =
      if t = id then log_of log id ++ [m] else log_of log id := by
  unfold log_of
  rw [List.filter_append, List.map_append]
  by_cases h : t = id
  · simp [List.filter, h]
  · simp [List.filter, h]

theorem queue_of_set {s : system_t} {t : Int} {a : actor_t} (b : actor_t) (id : Int)
    (h : actor_at s t = some a) :
    queue_of (set_actor s t b) id =
      if id = t then b.message_queue else queue_of s id := by
  unfold queue_of
  rw [actor_at_set b id h]
  by_cases hi : id = t <;> simp [hi]

theorem queue_of_created (s : system_t) (role_ptr : Int) (id : Int) :
    queue_of (created s role_ptr) id = queue_of s id := by
  unfold queue_of
  cases h : actor_at s id with
  | some a => rw [actor_at_created role_ptr h]
  | none =>
    simp only
    unfold actor_at at h ⊢
    by_cases h0 : id < 0
    · simp [h0]
    · simp only [if_neg h0] at h ⊢
      have hlen : s.actor_array_g.length ≤ id.toNat := by
        by_contra hlt
        rw [List.getElem?_eq_getElem (by omega)] at h
        cases h
      simp only [created, dynarray_push]
      rw [List.getElem?_append_right hlen]
      cases hk : id.toNat - s.actor_array_g.length with
      | zero => simp [createQueue]
      | succ k => simp

theorem queue_of_released {s : system_t} {t : Int} {a : actor_t} (id : Int)
    (h : actor_at s t = some a) : queue_of (released s t a) id = queue_of s id := by
  unfold queue_of
  rw [actor_at_released id h]
  by_cases hi : id = t
  · simp [hi, h]
  · simp [hi]

theorem queue_of_accepted {s : system_t} {t : Int} {a : actor_t} (m : message_t)
    (id : Int) (h : actor_at s t = some a) :
    queue_of (accepted s t a m) id =
      if id = t then queue_of s id ++ [m] else queue_of s id := by
  unfold queue_of
  rw [actor_at_accepted m id h]
  by_cases hi : id = t
  · simp [hi, h]
  · simp [hi]

theorem BusyKept.refl (s : system_t) : BusyKept s s :=
  fun _ a ha hf => ⟨a, ha, hf⟩

theorem BusyKept.set {s : system_t} {t : Int} {a : actor_t} (b : actor_t)
    (h : actor_at s t = some a) (hb : a.free = false → b.free = false) :
    BusyKept s (set_actor s t b) := by
  intro id c hc hf
  rw [actor_at_set b id h]
  by_cases hi : id = t
  · subst hi
    rw [h] at hc
    cases hc
    exact ⟨b, by simp, hb hf⟩
  · exact ⟨c, by simp [hi, hc], hf⟩

/-- The token discipline survives when no worker gains a token and no busy flag is
cleared. -/
theorem Mutex.mono {ws ws1 : List worker_t} {s s1 : system_t} (h : Mutex ws s)
    (hsub : ∀ (j : Nat) (p1 : worker_t) (id : Int), ws1[j]? = some p1 →
      p1.holds = some id → ∃ p, ws[j]? = some p ∧ p.holds = some id)
    (hkept : BusyKept s s1) : Mutex ws1 s1 := by
  constructor
  · intro i p1 id hp1 hh
    obtain ⟨p, hp, hph⟩ := hsub i p1 id hp1 hh
    obtain ⟨a, ha, hf⟩ := h.1 i p id hp hph
    exact hkept id a ha hf
  · intro i j p1 q1 id hp1 hq1 hph hqh
    obtain ⟨p, hp, hph1⟩ := hsub i p1 id hp1 hph
    obtain ⟨q, hq, hqh1⟩ := hsub j q1 id hq1 hqh
    exact h.2 i j p q id hp hq hph1 hqh1

/-- Replacing a worker by one that holds no other token than before. -/
theorem set_sub {ws : List worker_t} {i : Nat} {p p1 : worker_t} (h : ws[i]? = some p)
    (hh : ∀ id, p1.holds = some id → p.holds = some id) :
    ∀ (j : Nat) (q1 : worker_t) (id : Int), (ws.set i p1)[j]? = some q1 →
      q1.holds = some id → ∃ q, ws[j]? = some q ∧ q.holds = some id := by
  intro j q1 id hq1 hqh
  rw [set_get p1 j h] at hq1
  by_cases hj : j = i
  · simp only [hj, if_true, Option.some.injEq] at hq1
    subst hq1
    exact ⟨p, by rw [hj]; exact h, hh id hqh⟩
  · simp only [hj, if_false] at hq1
    exact ⟨q1, hq1, hqh⟩

theorem Step.mutex {cfg : config} {x x1 : world_t} (h : Step cfg x x1)
    (hm : Mutex x.workers x.sys) : Mutex x1.workers x1.sys := by
  cases h with
  | leave i hw _ _ =>
    exact hm.mono (set_sub hw (fun id hh => by cases hh)) (BusyKept.refl _)
  | take i task rest hw _ =>
    exact hm.mono (set_sub hw (fun id hh => by cases hh)) (fun _ a ha hf => ⟨a, ha, hf⟩)
  | acquire i t a m rest hw ha hf hq =>
    have hnone : ∀ (j : Nat) (q : worker_t), x.workers[j]? = some q →
        q.holds ≠ some t := by
      intro j q hq hh
      obtain ⟨b, hb, hbf⟩ := hm.1 j q t hq hh
      rw [ha] at hb
      cases hb
      rw [hf] at hbf
      cases hbf
    constructor
    · intro j q id hq hh
      show ∃ b, actor_at (set_actor x.sys t _) id = some b ∧ _
      rw [actor_at_set _ id ha]
      have hq1 : (x.workers.set i (.processing t m a.role_ptr))[j]? = some q := hq
      rw [set_get _ j hw] at hq1
      by_cases hj : j = i
      · simp only [hj, if_true, Option.some.injEq] at hq1
        subst hq1
        simp only [worker_t.holds, Option.some.injEq] at hh
        simp [hh]
      · simp only [hj, if_false] at hq1
        obtain ⟨b, hb, hbf⟩ := hm.1 j q id hq1 hh
        have hne : id ≠ t := fun e => hnone j q hq1 (e ▸ hh)
        exact ⟨b, by simp [hne, hb], hbf⟩
    · intro j k p q id hp hq hph hqh
      have hp1 : (x.workers.set i (.processing t m a.role_ptr))[j]? = some p := hp
      have hq1 : (x.workers.set i (.processing t m a.role_ptr))[k]? = some q := hq
      rw [set_get _ j hw] at hp1
      rw [set_get _ k hw] at hq1
      by_cases hj : j = i <;> by_cases hk : k = i
      · rw [hj, hk]
      · simp only [hj, if_true, Option.some.injEq] at hp1
        simp only [hk, if_false] at hq1
        subst hp1
        simp only [worker_t.holds, Option.some.injEq] at hph
        exact absurd (hph ▸ hqh) (hnone k q hq1)
      · simp only [hk, if_true, Option.some.injEq] at hq1
        simp only [hj, if_false] at hp1
        subst hq1
        simp only [worker_t.holds, Option.some.injEq] at hqh
        exact absurd (hqh ▸ hph) (hnone j p hp1)
      · simp only [hj, if_false] at hp1
        simp only [hk, if_false] at hq1
        exact hm.2 j k p q id hp1 hq1 hph hqh
  | spawn i t m r hw _ _ =>
    exact hm.mono (set_sub hw (fun id hh => hh))
      (fun _ a ha hf => ⟨a, actor_at_created _ ha, hf⟩)
  | godie i t m r a hw _ _ ha =>
    exact hm.mono (set_sub hw (fun id hh => hh)) (BusyKept.set _ ha (fun hf => hf))
  | prompt i t m r role call hw _ _ _ _ =>
    exact hm.mono (set_sub hw (fun id hh => hh)) (BusyKept.refl _)
  | hello i t n a hw ha _ _ _ =>
    exact hm.mono (set_sub hw (fun id hh => hh))
      (BusyKept.set (s := x.sys) _ ha (fun hf => hf))
  | sent t m a ha _ _ _ =>
    exact hm.mono (fun j p id hp hh => ⟨p, hp, hh⟩)
      (BusyKept.set (s := x.sys) _ ha (fun hf => hf))
  | refused => exact hm
  | store i t call a v hw ha =>
    exact hm.mono (fun j p id hp hh => ⟨p, hp, hh⟩) (BusyKept.set _ ha (fun hf => hf))
  | back i t call hw =>
    exact hm.mono (set_sub hw (fun id hh => hh)) (BusyKept.refl _)
  | release i t a hw ha =>
    constructor
    · intro j q id hq hh
      show ∃ b, actor_at (released x.sys t a) id = some b ∧ _
      rw [actor_at_released id ha]
      have hq1 : (x.workers.set i .idle)[j]? = some q := hq
      rw [set_get _ j hw] at hq1
      by_cases hj : j = i
      · simp only [hj, if_true, Option.some.injEq] at hq1
        subst hq1
        cases hh
      · simp only [hj, if_false] at hq1
        have hne : id ≠ t := by
          intro e
          exact hj (hm.2 j i q _ t hq1 hw (e ▸ hh) rfl)
        obtain ⟨b, hb, hbf⟩ := hm.1 j q id hq1 hh
        exact ⟨b, by simp [hne, hb], hbf⟩
    · have h2 : Mutex (x.workers.set i .idle) x.sys :=
        hm.mono (set_sub hw (fun id hh => by cases hh)) (BusyKept.refl _)
      exact h2.unique
  | join_pass _ _ => exact hm
  | join_shutdown _ =>
    exact hm.mono (fun j p id hp hh => ⟨p, hp, hh⟩) (fun _ a ha hf => ⟨a, ha, hf⟩)

theorem queue_of_set_same {s : system_t} {t : Int} {a : actor_t} (b : actor_t)
    (id : Int) (h : actor_at s t = some a) (hb : b.message_queue = a.message_queue) :
    queue_of (set_actor s t b) id = queue_of s id := by
  rw [queue_of_set b id h]
  by_cases hi : id = t
  · simp [hi, hb, queue_of, h]
  · simp [hi]

/-- Replacing a worker that holds no dequeued message by another such worker does
not change which workers hold a dequeued message. -/
theorem set_processing {ws : List worker_t} {i : Nat} {p : worker_t} (p1 : worker_t)
    (h : ws[i]? = some p)
    (hp : ∀ (id : Int) (m : message_t) (r : Int), p ≠ .processing id m r)
    (hp1 : ∀ (id : Int) (m : message_t) (r : Int), p1 ≠ .processing id m r) :
    ∀ (j : Nat) (id : Int) (m : message_t) (r : Int),
      (ws.set i p1)[j]? = some (.processing id m r) ↔
        ws[j]? = some (.processing id m r) := by
  intro j id m r
  rw [set_get p1 j h]
  by_cases hj : j = i
  · subst hj
    simp only [if_true, Option.some.injEq, h]
    exact ⟨fun e => absurd e (hp1 id m r), fun e => absurd e (hp id m r)⟩
  · simp [hj]

theorem Fifo.frame {ws ws1 : List worker_t} {s s1 : system_t}
    {sent handled : List (Int × message_t)} (h : Fifo ws s sent handled)
    (hw : ∀ (j : Nat) (id : Int) (m : message_t) (r : Int),
      ws1[j]? = some (.processing id m r) ↔ ws[j]? = some (.processing id m r))
    (hq : ∀ id, queue_of s1 id = queue_of s id) : Fifo ws1 s1 sent handled := by
  intro id
  rw [hq id]
  refine ⟨fun i m r hi => (h id).1 i m r ((hw i id m r).mp hi), fun hno => ?_⟩
  exact (h id).2 (fun i m r hi => hno i m r ((hw i id m r).mpr hi))

theorem Fifo.sent {ws ws1 : List worker_t} {s s1 : system_t}
    {sent handled : List (Int × message_t)} {t : Int} {m : message_t}
    (h : Fifo ws s sent handled)
    (hw : ∀ (j : Nat) (id : Int) (m : message_t) (r : Int),
      ws1[j]? = some (.processing id m r) ↔ ws[j]? = some (.processing id m r))
    (hq : ∀ id, queue_of s1 id =
      if id = t then queue_of s id ++ [m] else queue_of s id) :
    Fifo ws1 s1 (sent ++ [(t, m)]) handled := by
  intro id
  rw [hq id, log_of_append]
  by_cases hi : id = t
  · subst hi
    simp only [if_true]
    refine ⟨fun i m0 r hw0 => ?_, fun hno => ?_⟩
    · rw [(h id).1 i m0 r ((hw i id m0 r).mp hw0)]
      simp
    · rw [(h id).2 (fun i m0 r hw0 => hno i m0 r ((hw i id m0 r).mpr hw0))]
      simp
  · have hi1 : ¬ t = id := fun e => hi e.symm
    simp only [hi, hi1, if_false]
    refine ⟨fun i m0 r hw0 => (h id).1 i m0 r ((hw i id m0 r).mp hw0), fun hno => ?_⟩
    exact (h id).2 (fun i m0 r hw0 => hno i m0 r ((hw i id m0 r).mpr hw0))

/-- The worker `i` passes its dequeued message to `process_message`. -/
theorem Fifo.process {ws : List worker_t} {s s1 : system_t}
    {sent handled : List (Int × message_t)} {i : Nat} {t : Int} {m : message_t}
    {r : Int} (p1 : worker_t) (h : Fifo ws s sent handled) (hm : Mutex ws s)
    (hw : ws[i]? = some (.processing t m r))
    (hp1 : ∀ (id : Int) (m : message_t) (r : Int), p1 ≠ .processing id m r)
    (hq : ∀ id, queue_of s1 id = queue_of s id) :
    Fifo (ws.set i p1) s1 sent (handled ++ [(t, m)]) := by
  intro id
  rw [hq id, log_of_append]
  have hother : ∀ (j : Nat) (id1 : Int) (m1 : message_t) (r1 : Int),
      (ws.set i p1)[j]? = some (.processing id1 m1 r1) →
        j ≠ i ∧ ws[j]? = some (.processing id1 m1 r1) := by
    intro j id1 m1 r1 hj
    rw [set_get p1 j hw] at hj
    by_cases hji : j = i
    · simp only [hji, if_true, Option.some.injEq] at hj
      exact absurd hj (hp1 id1 m1 r1)
    · simp only [hji, if_false] at hj
      exact ⟨hji, hj⟩
  by_cases hi : t = id
  · subst hi
    simp only [if_true]
    refine ⟨fun j m1 r1 hj => ?_, fun _ => ?_⟩
    · obtain ⟨hji, hj1⟩ := hother j t m1 r1 hj
      exact absurd (hm.unique j i _ _ t hj1 hw rfl rfl) hji
    · rw [(h t).1 i m r hw]
      simp
  · simp only [hi, if_false]
    refine ⟨fun j m1 r1 hj => (h id).1 j m1 r1 (hother j id m1 r1 hj).2, fun hno => ?_⟩
    refine (h id).2 (fun j m1 r1 hj => ?_)
    have hji : j ≠ i := by
      intro e
      rw [e, hw] at hj
      simp only [Option.some.injEq, worker_t.processing.injEq] at hj
      exact hi hj.1
    refine hno j m1 r1 ?_
    rw [set_get p1 j hw]
    simp [hji, hj]

theorem Step.fifo {cfg : config} {x x1 : world_t} (h : Step cfg x x1)
    (hm : Mutex x.workers x.sys)
    (hf : Fifo x.workers x.sys x.sent_log x.handled_log) :
    Fifo x1.workers x1.sys x1.sent_log x1.handled_log := by
  cases h with
  | leave i hw _ _ =>
    exact hf.frame (set_processing _ hw (by simp) (by simp)) (fun _ => rfl)
  | take i task rest hw _ =>
    exact hf.frame (set_processing _ hw (by simp) (by simp)) (fun _ => rfl)
  | acquire i t a m rest hw ha hfree hq =>
    have hnone : ∀ (j : Nat) (m1 : message_t) (r1 : Int),
        x.workers[j]? ≠ some (.processing t m1 r1) := by
      intro j m1 r1 hj
      obtain ⟨b, hb, hbf⟩ := hm.busy j _ t hj rfl
      rw [ha] at hb
      cases hb
      rw [hfree] at hbf
      cases hbf
    have hbefore := (hf t).2 hnone
    have hqt : queue_of x.sys t = m :: rest := by simp [queue_of, ha, hq]
    intro id
    show (∀ (j : Nat) (m1 : message_t) (r1 : Int),
        (x.workers.set i (.processing t m a.role_ptr))[j]? = some (.processing id m1 r1) →
          log_of x.sent_log id = log_of x.handled_log id ++ m1 ::
            queue_of (set_actor x.sys t _) id) ∧
      ((∀ (j : Nat) (m1 : message_t) (r1 : Int),
        (x.workers.set i (.processing t m a.role_ptr))[j]? ≠ some (.processing id m1 r1)) →
          log_of x.sent_log id = log_of x.handled_log id ++
            queue_of (set_actor x.sys t _) id)
    rw [queue_of_set _ id ha]
    by_cases hi : id = t
    · subst hi
      simp only [if_true]
      refine ⟨fun j m1 r1 hj => ?_, fun hno => ?_⟩
      · rw [set_get _ j hw] at hj
        by_cases hji : j = i
        · simp only [hji, if_true, Option.some.injEq, worker_t.processing.injEq] at hj
          rw [hbefore, hqt, ← hj.2.1]
        · simp only [hji, if_false] at hj
          exact absurd hj (hnone j m1 r1)
      · exfalso
        refine hno i m a.role_ptr ?_
        rw [set_get _ i hw]
        simp
    · simp only [hi, if_false]
      have hsame : ∀ (j : Nat) (m1 : message_t) (r1 : Int),
          (x.workers.set i (.processing t m a.role_ptr))[j]? = some (.processing id m1 r1) ↔
            x.workers[j]? = some (.processing id m1 r1) := by
        intro j m1 r1
        rw [set_get _ j hw]
        by_cases hji : j = i
        · subst hji
          simp only [if_true, Option.some.injEq, worker_t.processing.injEq, hw]
          constructor
          · intro e
            exact absurd e.1.symm hi
          · intro e
            cases e
        · simp [hji]
      refine ⟨fun j m1 r1 hj => (hf id).1 j m1 r1 ((hsame j m1 r1).mp hj), fun hno => ?_⟩
      exact (hf id).2 (fun j m1 r1 hj => hno j m1 r1 ((hsame j m1 r1).mpr hj))
  | spawn i t m r hw _ _ =>
    exact hf.process _ hm hw (by simp) (fun id => queue_of_created _ _ id)
  | godie i t m r a hw _ _ ha =>
    exact hf.process _ hm hw (by simp) (fun id => queue_of_set_same _ id ha rfl)
  | prompt i t m r role call hw _ _ _ _ =>
    exact hf.process _ hm hw (by simp) (fun _ => rfl)
  | hello i t n a hw ha _ _ _ =>
    exact hf.sent (set_processing _ hw (by simp) (by simp))
      (fun id => queue_of_accepted _ id ha)
  | sent t m a ha _ _ _ =>
    exact hf.sent (fun _ _ _ _ => Iff.rfl) (fun id => queue_of_accepted _ id ha)
  | refused => exact hf
  | store i t call a v hw ha =>
    exact hf.frame (fun _ _ _ _ => Iff.rfl) (fun id => queue_of_set_same _ id ha rfl)
  | back i t call hw =>
    exact hf.frame (set_processing _ hw (by simp) (by simp)) (fun _ => rfl)
  | release i t a hw ha =>
    exact hf.frame (set_processing _ hw (by simp) (by simp))
      (fun id => queue_of_released id ha)
  | join_pass _ _ => exact hf
  | join_shutdown _ => exact hf.frame (fun _ _ _ _ => Iff.rfl) (fun _ => rfl)

/-! ### The counter `active` and the end of an execution -/

theorem countP_set_int {α : Type} (p : α → Bool) :
    ∀ (l : List α) (i : Nat) (a b : α), l[i]? = some a →
      ((l.set i b).countP p : Int) =
        (l.countP p : Int) - (if p a then 1 else 0) + (if p b then 1 else 0) := by
  intro l
  induction l with
  | nil =>
    intro i a b h
    simp at h
  | cons x xs ih =>
    intro i a b h
    cases i with
    | zero =>
      simp only [List.getElem?_cons_zero, Option.some.injEq] at h
      subst h
      simp only [List.set_cons_zero, List.countP_cons]
      push_cast
      split <;> split <;> simp
    | succ k =>
      simp only [List.getElem?_cons_succ] at h
      simp only [List.set_cons_succ, List.countP_cons]
      push_cast
      rw [ih k a b h]
      omega

theorem actor_at_get {s : system_t} {id : Int} {a : actor_t}
    (h : actor_at s id = some a) : s.actor_array_g[id.toNat]? = some a := by
  have h0 : ¬ id < 0 := by have := actor_at_nonneg h; omega
  simpa [actor_at, h0] using h

theorem count_set_actor {s : system_t} {t : Int} {a : actor_t} (b : actor_t)
    (h : actor_at s t = some a) :
    (((set_actor s t b).actor_array_g.countP counted : Nat) : Int) =
      (s.actor_array_g.countP counted : Nat) - (if counted a then 1 else 0)
        + (if counted b then 1 else 0) :=
  countP_set_int counted s.actor_array_g t.toNat a b (actor_at_get h)

/-- Updating a record without changing whether it is counted keeps `Counting`. -/
theorem Counting.set_same {s : system_t} {t : Int} {a : actor_t} (b : actor_t)
    (hc : Counting s) (h : actor_at s t = some a) (hb : counted b = counted a) :
    Counting (set_actor s t b) := by
  unfold Counting
  rw [count_set_actor b h, hb]
  have : (set_actor s t b).active_actor_number_g = s.active_actor_number_g := rfl
  rw [this, hc]
  omega

theorem Counting.release {s : system_t} {t : Int} {a : actor_t} (hc : Counting s)
    (h : actor_at s t = some a) (hf : a.free = false) : Counting (released s t a) := by
  unfold Counting Cacti.released
  have hca : counted a = true := by simp [counted, hf]
  by_cases hq : getSize a.message_queue = 0 ∧ a.alive = false
  · rw [if_pos hq]
    have hcb : counted { a with free := true } = false := by
      have hnil : a.message_queue = [] := List.length_eq_zero.mp hq.1
      simp [counted, hq.2, hnil]
    rw [count_set_actor (s := { s with
      active_actor_number_g := s.active_actor_number_g - 1 }) _ h, hca, hcb]
    show s.active_actor_number_g - 1 = _
    rw [hc]
    simp
  · rw [if_neg hq]
    have hcb : counted { a with free := true } = true := by
      unfold getSize at hq
      cases hal : a.alive with
      | true => simp [counted, hal]
      | false =>
        have hne : a.message_queue ≠ [] := fun e => hq ⟨by simp [e], hal⟩
        cases hm : a.message_queue with
        | nil => exact absurd hm hne
        | cons m rest => simp [counted, hm]
    rw [count_set_actor _ h, hca, hcb]
    show s.active_actor_number_g = _
    rw [hc]
    simp

theorem Step.counting {cfg : config} {x x1 : world_t} (h : Step cfg x x1)
    (hm : Mutex x.workers x.sys) (hc : Counting x.sys) : Counting x1.sys := by
  cases h with
  | leave => exact hc
  | take => exact hc
  | acquire i t a m rest hw ha hf hq =>
    exact hc.set_same _ ha (by simp [counted, hq])
  | spawn i t m r hw _ _ =>
    show Counting (created x.sys m.data)
    unfold Counting created dynarray_push
    simp only [List.countP_append, List.countP_singleton, counted]
    rw [hc]
    simp
  | godie i t m r a hw _ _ ha =>
    obtain ⟨b, hb, hbf⟩ := hm.busy i _ t hw rfl
    rw [ha] at hb
    cases hb
    exact hc.set_same _ ha (by simp [counted, hbf])
  | prompt => exact hc
  | hello i t n a hw ha hal _ _ =>
    exact hc.set_same (s := x.sys) _ ha (by simp [counted, hal])
  | sent t m a ha hal _ _ =>
    exact hc.set_same (s := x.sys) _ ha (by simp [counted, hal])
  | refused => exact hc
  | store i t call a v hw ha => exact hc.set_same _ ha rfl
  | back => exact hc
  | release i t a hw ha =>
    obtain ⟨b, hb, hbf⟩ := hm.busy i _ t hw rfl
    rw [ha] at hb
    cases hb
    exact hc.release ha hbf
  | join_pass => exact hc
  | join_shutdown => exact hc

/-- With `Counting`, `active <= 0` means that the registry is quiet. -/
theorem Counting.quiet_of_zero {s : system_t} (hc : Counting s)
    (h0 : s.active_actor_number_g ≤ 0) : Quiet s := by
  intro id a ha
  have hz : s.actor_array_g.countP counted = 0 := by
    unfold Counting at hc
    omega
  have hmem : a ∈ s.actor_array_g := List.getElem?_mem (actor_at_get ha)
  have hna := (List.countP_eq_zero.mp hz) a hmem
  cases hal : a.alive <;> cases hf : a.free <;> cases hq : a.message_queue <;>
    simp [counted, hal, hf, hq] at hna ⊢

theorem released_pool (s : system_t) (t : Int) (a : actor_t) :
    (released s t a).thread_pool_g = s.thread_pool_g := by
  unfold released
  split <;> rfl

theorem Step.joined {cfg : config} {x x1 : world_t} (h : Step cfg x x1)
    (hm : Mutex x.workers x.sys) (hc : Counting x.sys) (hj : Joined x) : Joined x1 := by
  have held : ∀ (i : Nat) (p : worker_t) (t : Int), x.workers[i]? = some p →
      p.holds = some t → x.joiner = .before := by
    intro i p t hw hh
    by_contra hne
    obtain ⟨a, ha, hf⟩ := hm.busy i p t hw hh
    rw [(hj.quiet hne t a ha).2.2] at hf
    cases hf
  cases h with
  | leave => exact ⟨hj.quiet, hj.raised⟩
  | take => exact ⟨hj.quiet, hj.raised⟩
  | acquire i t a m rest hw ha hf hq =>
    have hb : x.joiner = .before := by
      by_contra hne
      rw [(hj.quiet hne t a ha).2.1] at hq
      cases hq
    exact ⟨fun hne => absurd hb hne, hj.raised⟩
  | spawn i t m r hw _ _ =>
    exact ⟨fun hne => absurd (held i _ t hw rfl) hne, hj.raised⟩
  | godie i t m r a hw _ _ ha =>
    exact ⟨fun hne => absurd (held i _ t hw rfl) hne, hj.raised⟩
  | prompt i t m r role call hw _ _ _ _ =>
    exact ⟨fun hne => absurd (held i _ t hw rfl) hne, hj.raised⟩
  | hello i t n a hw ha _ _ _ =>
    exact ⟨fun hne => absurd (held i _ t hw rfl) hne, hj.raised⟩
  | sent t m a ha hal _ hsh =>
    have hb : x.joiner = .before := by
      by_contra hne
      rw [(hj.quiet hne t a ha).1] at hal
      cases hal
    refine ⟨fun hne => absurd hb hne, fun hs => ?_⟩
    have hs1 : x.sys.thread_pool_g.shutdown = true := hs
    rw [hsh] at hs1
    cases hs1
  | refused => exact hj
  | store i t call a v hw ha =>
    exact ⟨fun hne => absurd (held i _ t hw rfl) hne, hj.raised⟩
  | back i t call hw =>
    exact ⟨fun hne => absurd (held i _ t hw rfl) hne, hj.raised⟩
  | release i t a hw ha =>
    refine ⟨fun hne => absurd (held i _ t hw rfl) hne, fun hs => hj.raised ?_⟩
    rw [← released_pool x.sys t a]
    exact hs
  | join_pass hb h0 => exact ⟨fun _ => hc.quiet_of_zero h0, fun hs => by
      have := hj.raised hs
      rw [hb] at this
      cases this⟩
  | join_shutdown hp =>
    exact ⟨fun _ => hj.quiet (by rw [hp]; simp), fun _ => rfl⟩

theorem Inv.init {cfg : config} {role_ptr : Int} {x0 : world_t}
    (h : init cfg role_ptr = some x0) : Inv x0 := by
  obtain ⟨_, _, hx0⟩ := init_eq h
  subst hx0
  have hidle : ∀ (i : Nat) (p : worker_t),
      (List.replicate cfg.POOL_SIZE worker_t.idle)[i]? = some p → p = .idle := by
    intro i p hp
    rw [List.getElem?_replicate] at hp
    split at hp
    · simp only [Option.some.injEq] at hp
      exact hp.symm
    · cases hp
  refine ⟨⟨?_, ?_⟩, ?_, ?_, ⟨fun hne => absurd rfl hne, fun hs => by cases hs⟩⟩
  · intro i p id hp hh
    rw [hidle i p hp] at hh
    cases hh
  · intro i j p q id hp _ hh
    rw [hidle i p hp] at hh
    cases hh
  · intro id
    refine ⟨fun i m r hp => ?_, fun _ => ?_⟩
    · have := hidle i _ hp
      cases this
    · show log_of [(0, _)] id = log_of [] id ++ queue_of _ id
      unfold log_of queue_of actor_at
      by_cases h0 : id < 0
      · have hne : ¬ (0 : Int) = id := by omega
        simp [h0, List.filter, hne]
      · by_cases h1 : id = 0
        · subst h1
          simp [List.filter]
        · have hne : ¬ (0 : Int) = id := fun e => h1 e.symm
          have hpos : id.toNat ≠ 0 := by omega
          cases hk : id.toNat with
          | zero => exact absurd hk hpos
          | succ k => simp [h0, List.filter, hne]
  · simp [Counting, counted]

theorem Step.keeps_inv {cfg : config} {x x1 : world_t} (hx : Inv x)
    (h : Step cfg x x1) : Inv x1 :=
  ⟨h.mutex hx.mutex, h.fifo hx.mutex hx.fifo, h.counting hx.mutex hx.counting,
    h.joined hx.mutex hx.counting hx.joined⟩

theorem Reachable.invariant {cfg : config} {x : world_t} (h : Reachable cfg x) :
    Inv x :=
  Reachable.induct Inv (fun _ _ h0 => Inv.init h0) (fun _ _ hx hs => hs.keeps_inv hx) x h

/-- While an actor is alive the pool has not been shut down. -/
theorem Inv.running {x : world_t} (hx : Inv x) {id : Int} {a : actor_t}
    (ha : actor_at x.sys id = some a) (hal : a.alive = true) :
    x.sys.thread_pool_g.shutdown = false := by
  cases hs : x.sys.thread_pool_g.shutdown with
  | false => rfl
  | true =>
    have hj := hx.joined.raised hs
    have hq := hx.joined.quiet (by rw [hj]; simp) id a ha
    rw [hq.1] at hal
    cases hal

theorem acquire_head {cfg : config} {x x1 : world_t} {i : Nat}
    (h : step cfg x (.acquire i) = .next x1) :
    ∃ t m r, x1.workers[i]? = some (.processing t m r) ∧
      queue_of x.sys t = m :: queue_of x1.sys t := by
  simp only [step] at h
  split at h
  · rename_i t hw
    unfold thread_pool_task_begin at h
    cases ha : actor_at x.sys t with
    | none => simp [ha] at h
    | some a =>
      simp only [ha] at h
      cases hf : a.free with
      | false => simp [hf] at h
      | true =>
        cases hq : a.message_queue with
        | nil => simp [hf, hq, dequeue] at h
        | cons m rest =>
          simp only [hf, hq, dequeue, Bool.true_eq_false, if_false,
            outcome.next.injEq] at h
          refine ⟨t, m, a.role_ptr, ?_, ?_⟩
          · rw [← h]
            show (x.workers.set i _)[i]? = _
            rw [set_get _ i hw]
            simp
          · rw [← h]
            show queue_of x.sys t = m :: queue_of (set_actor x.sys t _) t
            rw [queue_of_set _ t ha]
            simp [queue_of, ha, hq]
  · cases h

theorem process_logged {cfg : config} {x x1 : world_t} {i : Nat} {t : Int}
    {m : message_t} {r : Int} (hw : x.workers[i]? = some (.processing t m r))
    (h : step cfg x (.process i) = .next x1) :
    x1.handled_log = x.handled_log ++ [(t, m)] := by
  simp only [step, hw, step_process] at h
  split at h
  · split at h
    · cases h
    · simp only [outcome.next.injEq] at h
      rw [← h]; rfl
  · split at h
    · split at h
      · cases h
      · simp only [outcome.next.injEq] at h
        rw [← h]; rfl
    · split at h
      · cases h
      · split at h
        · cases h
        · simp only [outcome.next.injEq] at h
          rw [← h]; rfl

/-- C10: in every reachable state and for every actor id, the messages passed to
`process_message` for that actor so far are, in the same order, an initial segment of
the messages whose `send_message` to that actor returned 0; a dispatch task that
passes the wait loop is handed exactly the head of the actor's queue, and that is
the message it passes to `process_message`. -/
theorem handled_in_send_order (cfg : config) (x : world_t) (id : Int)
    (h : Reachable cfg x) :
    log_of x.handled_log id <+: log_of x.sent_log id ∧
    (∀ i x1, step cfg x (.acquire i) = .next x1 →
      ∃ t m r, x1.workers[i]? = some (.processing t m r) ∧
        queue_of x.sys t = m :: queue_of x1.sys t) ∧
    (∀ i t m r x1, x.workers[i]? = some (.processing t m r) →
      step cfg x (.process i) = .next x1 →
      x1.handled_log = x.handled_log ++ [(t, m)]) := by
  refine ⟨?_, fun i x1 hs => acquire_head hs, fun i t m r x1 hw hs => process_logged hw hs⟩
  have hf := h.invariant.fifo id
  by_cases hp : ∃ (i : Nat) (m : message_t) (r : Int),
      x.workers[i]? = some (.processing id m r)
  · obtain ⟨i, m, r, hw⟩ := hp
    exact ⟨_, (hf.1 i m r hw).symm⟩
  · have hno : ∀ (i : Nat) (m : message_t) (r : Int),
        x.workers[i]? ≠ some (.processing id m r) :=
      fun i m r hw => hp ⟨i, m, r, hw⟩
    exact ⟨_, (hf.2 hno).symm⟩

/-- C10 (witness): after actor 0 has handled its `HELLO` and the `GODIE` it sent
itself, and a later send was refused, the handled messages of actor 0 are an initial
segment of the accepted ones. -/
theorem handled_in_send_order_witness :
    Reachable example_cfg godie_released ∧
    log_of godie_released.handled_log 0 <+: log_of godie_released.sent_log 0 ∧
    (∀ i x1, step example_cfg godie_released (.acquire i) = .next x1 →
      ∃ t m r, x1.workers[i]? = some (.processing t m r) ∧
        queue_of godie_released.sys t = m :: queue_of x1.sys t) ∧
    (∀ i t m r x1, godie_released.workers[i]? = some (.processing t m r) →
      step example_cfg godie_released (.process i) = .next x1 →
      x1.handled_log = godie_released.handled_log ++ [(t, m)]) :=
  have hreach : Reachable example_cfg godie_released :=
    ⟨100, start,
      godie_events ++ [event.process 0, event.release 0, event.send 0 user_msg],
      rfl, rfl⟩
  ⟨hreach, handled_in_send_order example_cfg godie_released 0 hreach⟩

/-! ### `send_message` in the states an execution reaches -/

/-- C1: in every state that an execution reaches, for every id and message,
`send_message` returns, and its return code is decided in the order of the
specification: `-2` when `id < 0` or `id >= N`; otherwise `-1` when the actor at `id`
is not alive; otherwise `-3` when its queue holds at least `ACTOR_QUEUE_LIMIT`
messages; otherwise `0`. -/
theorem send_message_return_code (cfg : config) (x : world_t) (id : Int)
    (m : message_t) (h : Reachable cfg x) :
    ∃ s1, send_message cfg x.sys id m = .ok (claimed_send_code cfg x.sys id, s1) := by
  have hcode := send_message_code cfg x.sys id m
  have hrun : ¬ (claimed_send_code cfg x.sys id = 0 ∧
      x.sys.thread_pool_g.shutdown = true) := by
    rintro ⟨h0, hs⟩
    unfold claimed_send_code at h0
    split at h0
    · omega
    · split at h0
      · omega
      · rename_i a ha
        split at h0
        · omega
        · rename_i hal
          have hrunning := h.invariant.running ha (by simpa using hal)
          rw [hrunning] at hs
          cases hs
  rw [if_neg hrun] at hcode
  cases hsend : send_message cfg x.sys id m with
  | error f => simp [hsend, Except.map] at hcode
  | ok r =>
    obtain ⟨code, s1⟩ := r
    simp only [hsend, Except.map, Except.ok.injEq] at hcode
    exact ⟨s1, by rw [hcode]⟩

/-- C1 (witness): a send to actor 0 in the state `actor_system_create` leaves. -/
theorem send_message_return_code_witness :
    Reachable example_cfg start ∧
    ∃ s1, send_message example_cfg start.sys 0 user_msg
      = .ok (claimed_send_code example_cfg start.sys 0, s1) :=
  have hreach : Reachable example_cfg start := Reachable.start example_cfg 100 start rfl
  ⟨hreach, send_message_return_code example_cfg start 0 user_msg hreach⟩

/-- C2: in every state that an execution reaches in which `id` is in the registry,
the actor at `id` is alive and its queue holds fewer than `ACTOR_QUEUE_LIMIT`
messages, `send_message id m` returns 0, the actor at `id` differs from before only
by `m` appended at the tail of its queue, the pool's task queue gains exactly one task
carrying `id` at its tail, and every other actor record, the registry size, the
flag `shutdown` and both counters are unchanged. -/
theorem send_message_accepts (cfg : config) (x : world_t) (id : Int) (m : message_t)
    (a : actor_t) (h : Reachable cfg x) (ha : actor_at x.sys id = some a)
    (hal : a.alive = true) (hq : a.message_queue.length < cfg.ACTOR_QUEUE_LIMIT) :
    ∃ s1, send_message cfg x.sys id m = .ok (0, s1) ∧
      actor_at s1 id = some { a with message_queue := a.message_queue ++ [m] } ∧
      (∀ j, j ≠ id → actor_at s1 j = actor_at x.sys j) ∧
      s1.actor_array_g.length = x.sys.actor_array_g.length ∧
      s1.thread_pool_g.tasks = x.sys.thread_pool_g.tasks ++ [{ arg := id }] ∧
      s1.thread_pool_g.shutdown = x.sys.thread_pool_g.shutdown ∧
      s1.active_actor_number_g = x.sys.active_actor_number_g ∧
      s1.all_actor_number_g = x.sys.all_actor_number_g :=
  send_message_accepted cfg x.sys id m a ha hal hq (h.invariant.running ha hal)

/-- C2 (witness): a send to actor 0 in the state `actor_system_create` leaves. -/
theorem send_message_accepts_witness :
    Reachable example_cfg start ∧
    ∃ s1, send_message example_cfg start.sys 0 user_msg = .ok (0, s1) ∧
      actor_at s1 0 = some
        { id := 0, role_ptr := 100, state := 0,
          message_queue := [{ message_type := 0, nbytes := 0, data := 0 }, user_msg],
          alive := true, free := true } ∧
      (∀ j, j ≠ 0 → actor_at s1 j = actor_at start.sys j) ∧
      s1.actor_array_g.length = start.sys.actor_array_g.length ∧
      s1.thread_pool_g.tasks = start.sys.thread_pool_g.tasks ++ [{ arg := 0 }] ∧
      s1.thread_pool_g.shutdown = start.sys.thread_pool_g.shutdown ∧
      s1.active_actor_number_g = start.sys.active_actor_number_g ∧
      s1.all_actor_number_g = start.sys.all_actor_number_g :=
  have hreach : Reachable example_cfg start := Reachable.start example_cfg 100 start rfl
  ⟨hreach,
    send_message_accepts example_cfg start 0 user_msg
      { id := 0, role_ptr := 100, state := 0,
        message_queue := [{ message_type := 0, nbytes := 0, data := 0 }],
        alive := true, free := true }
      hreach rfl rfl (by decide)⟩

/-- C3 (as amended): `send_message` does not look at the message type. In every state
that an execution reaches, a message whose type is neither `SPAWN`, `GODIE`, `HELLO`
nor an index below `nprompts` of the target's role, sent to an actor that is in the
registry, alive and has spare queue capacity, is accepted like any other: the call
returns 0 and the message is at the tail of the target's queue. -/
theorem send_message_any_type (cfg : config) (x : world_t) (id : Int) (m : message_t)
    (a : actor_t) (role : role_t) (h : Reachable cfg x)
    (ha : actor_at x.sys id = some a) (hal : a.alive = true)
    (hq : a.message_queue.length < cfg.ACTOR_QUEUE_LIMIT)
    (_hrole : cfg.roles a.role_ptr = some role)
    (_htype : m.message_type ≠ cfg.MSG_SPAWN ∧ m.message_type ≠ cfg.MSG_GODIE ∧
      m.message_type ≠ cfg.MSG_HELLO ∧ ¬ m.message_type < role.nprompts) :
    ∃ s1, send_message cfg x.sys id m = .ok (0, s1) ∧
      queue_of s1 id = queue_of x.sys id ++ [m] := by
  obtain ⟨s1, hsend, hat, _⟩ :=
    send_message_accepted cfg x.sys id m a ha hal hq (h.invariant.running ha hal)
  refine ⟨s1, hsend, ?_⟩
  simp [queue_of, hat, ha]

/-- C3 (witness): the message of type 99 sent to actor 0 after its `HELLO`. -/
theorem send_message_any_type_witness :
    Reachable example_cfg hello_done ∧
    ∃ s1, send_message example_cfg hello_done.sys 0 stray_msg = .ok (0, s1) ∧
      queue_of s1 0 = queue_of hello_done.sys 0 ++ [stray_msg] :=
  have hreach : Reachable example_cfg hello_done := ⟨100, start, hello_events, rfl, rfl⟩
  ⟨hreach,
    send_message_any_type example_cfg hello_done 0 stray_msg
      { id := 0, role_ptr := 100, state := 0, message_queue := [], alive := true,
        free := true }
      example_role hreach rfl rfl (by decide) rfl (by decide)⟩

/-- C3 (counterexample): after actor 0 has handled its `HELLO`, a message of type 99,
which is not reserved and not below `nprompts = 2` of the role of actor 0, is sent to
it: `send_message` returns 0 and the message is enqueued. -/
theorem send_message_accepts_stray_type :
    run example_cfg start hello_events = .next hello_done ∧
    (stray_msg.message_type ≠ example_cfg.MSG_SPAWN ∧
      stray_msg.message_type ≠ example_cfg.MSG_GODIE ∧
      stray_msg.message_type ≠ example_cfg.MSG_HELLO ∧
      example_cfg.roles 100 = some example_role ∧
      ¬ stray_msg.message_type < example_role.nprompts) ∧
    send_message example_cfg hello_done.sys 0 stray_msg =
      .ok (0,
        { actor_array_g :=
            [{ id := 0, role_ptr := 100, state := 0, message_queue := [stray_msg],
               alive := true, free := true }]
          active_actor_number_g := 1
          all_actor_number_g := 1
          thread_pool_g := { tasks := [{ arg := 0 }], shutdown := false } }) :=
  ⟨rfl, ⟨by decide, by decide, by decide, rfl, by decide⟩, rfl⟩

/-! ### One worker per actor -/

theorem acquire_token {cfg : config} {x x1 : world_t} {i : Nat}
    (h : step cfg x (.acquire i) = .next x1) :
    ∃ t a, x.workers[i]? = some (.waiting t) ∧ actor_at x.sys t = some a ∧
      a.free = true ∧
      ∃ m r a1, x1.workers[i]? = some (.processing t m r) ∧
        actor_at x1.sys t = some a1 ∧ a1.free = false := by
  simp only [step] at h
  split at h
  · rename_i t hw
    unfold thread_pool_task_begin at h
    cases ha : actor_at x.sys t with
    | none => simp [ha] at h
    | some a =>
      simp only [ha] at h
      cases hf : a.free with
      | false => simp [hf] at h
      | true =>
        cases hq : a.message_queue with
        | nil => simp [hf, hq, dequeue] at h
        | cons m rest =>
          simp only [hf, hq, dequeue, Bool.true_eq_false, if_false,
            outcome.next.injEq] at h
          refine ⟨t, a, hw, ha, hf, m, a.role_ptr,
            { a with free := false, message_queue := rest }, ?_, ?_, ?_⟩
          · rw [← h]
            show (x.workers.set i _)[i]? = _
            rw [set_get _ i hw]
            simp
          · rw [← h]
            exact actor_at_set_self (s := x.sys) _ ha
          · rfl
  · cases h

/-- C11: in every reachable state two workers never hold the token of the same
actor (a worker holds it from the dequeue, where it sets `free = false`, to the
bookkeeping that sets `free = true`), the record of an actor whose token is held has
`free = false`, and a dispatch task passes its wait loop only in a state where the
actor's token is clear, setting it as it passes. -/
theorem one_token_holder (cfg : config) (x : world_t) (h : Reachable cfg x) :
    (∀ (i j : Nat) (p q : worker_t) (id : Int), x.workers[i]? = some p →
      x.workers[j]? = some q → p.holds = some id → q.holds = some id → i = j) ∧
    (∀ (i : Nat) (p : worker_t) (id : Int), x.workers[i]? = some p →
      p.holds = some id → ∃ a, actor_at x.sys id = some a ∧ a.free = false) ∧
    (∀ (i : Nat) (x1 : world_t), step cfg x (.acquire i) = .next x1 →
      ∃ t a, x.workers[i]? = some (.waiting t) ∧ actor_at x.sys t = some a ∧
        a.free = true ∧
        ∃ m r a1, x1.workers[i]? = some (.processing t m r) ∧
          actor_at x1.sys t = some a1 ∧ a1.free = false) :=
  ⟨h.invariant.mutex.unique, h.invariant.mutex.busy, fun _ _ hs => acquire_token hs⟩

/-- C11 (witness): the state in which the worker holds the token of actor 0 and is
about to process its `GODIE`. -/
theorem one_token_holder_witness :
    Reachable example_cfg godie_taken ∧
    (∀ (i j : Nat) (p q : worker_t) (id : Int), godie_taken.workers[i]? = some p →
      godie_taken.workers[j]? = some q → p.holds = some id → q.holds = some id →
      i = j) ∧
    (∀ (i : Nat) (p : worker_t) (id : Int), godie_taken.workers[i]? = some p →
      p.holds = some id → ∃ a, actor_at godie_taken.sys id = some a ∧ a.free = false) ∧
    (∀ (i : Nat) (x1 : world_t), step example_cfg godie_taken (.acquire i) = .next x1 →
      ∃ t a, godie_taken.workers[i]? = some (.waiting t) ∧
        actor_at godie_taken.sys t = some a ∧ a.free = true ∧
        ∃ m r a1, x1.workers[i]? = some (.processing t m r) ∧
          actor_at x1.sys t = some a1 ∧ a1.free = false) :=
  have hreach : Reachable example_cfg godie_taken := ⟨100, start, godie_events, rfl, rfl⟩
  ⟨hreach, one_token_holder example_cfg godie_taken hreach⟩

/-! ### The meaning of `active` -/

theorem join_pass_quiet {cfg : config} {x x1 : world_t} {id0 : Int}
    (hc : Counting x.sys) (h : step cfg x (.join_pass id0) = .next x1) :
    x1.sys = x.sys ∧ x.sys.active_actor_number_g = 0 := by
  simp only [step] at h
  split at h
  · rename_i hj
    simp only [outcome.next.injEq] at h
    rw [← h]
    refine ⟨rfl, ?_⟩
    have := hj.2.2
    unfold Counting at hc
    omega
  · cases h

/-- C13: in every reachable state in which `active` is 0 (or below), every actor of
the registry is not alive and has an empty queue (and its token is free); `active`
is never negative; and the state in which the wait loop of `actor_system_join` ends
is such a state. -/
theorem quiet_when_idle (cfg : config) (x : world_t) (h : Reachable cfg x) :
    0 ≤ x.sys.active_actor_number_g ∧
    (x.sys.active_actor_number_g ≤ 0 →
      ∀ (id : Int) (a : actor_t), actor_at x.sys id = some a →
        a.alive = false ∧ a.message_queue = [] ∧ a.free = true) ∧
    (∀ (id0 : Int) (x1 : world_t), step cfg x (.join_pass id0) = .next x1 →
      x1.sys.active_actor_number_g = 0 ∧
      ∀ (id : Int) (a : actor_t), actor_at x1.sys id = some a →
        a.alive = false ∧ a.message_queue = [] ∧ a.free = true) := by
  have hc := h.invariant.counting
  refine ⟨?_, fun h0 => hc.quiet_of_zero h0, fun id0 x1 hs => ?_⟩
  · unfold Counting at hc
    omega
  · obtain ⟨hsys, h0⟩ := join_pass_quiet hc hs
    rw [hsys]
    exact ⟨h0, hc.quiet_of_zero (by omega)⟩

/-- C13 (witness): after actor 0 has handled its `GODIE` and given the token back,
`active` is 0 and the only actor is dead with an empty queue. -/
theorem quiet_when_idle_witness :
    Reachable example_cfg godie_released ∧
    godie_released.sys.active_actor_number_g ≤ 0 ∧
    0 ≤ godie_released.sys.active_actor_number_g ∧
    (∀ (id : Int) (a : actor_t), actor_at godie_released.sys id = some a →
        a.alive = false ∧ a.message_queue = [] ∧ a.free = true) ∧
    (∀ (id0 : Int) (x1 : world_t),
      step example_cfg godie_released (.join_pass id0) = .next x1 →
      x1.sys.active_actor_number_g = 0 ∧
      ∀ (id : Int) (a : actor_t), actor_at x1.sys id = some a →
        a.alive = false ∧ a.message_queue = [] ∧ a.free = true) :=
  have hreach : Reachable example_cfg godie_released :=
    ⟨100, start,
      godie_events ++ [event.process 0, event.release 0, event.send 0 user_msg],
      rfl, rfl⟩
  have h := quiet_when_idle example_cfg godie_released hreach
  ⟨hreach, by decide, h.1, h.2.1 (by decide), h.2.2⟩

theorem counted_of_free {a : actor_t} (hf : a.free = true) :
    counted a = claimed_counted a := by
  simp [counted, claimed_counted, hf]

/-- C16 (as amended): in every reachable state `active` equals the number of registry
entries whose record is alive, or has a non-empty queue, or whose token is held by a
dispatch task (`free = false`); so it equals the number of entries that are alive or
have a non-empty queue in every state in which no dispatch task is between its
dequeue and its final bookkeeping. -/
theorem active_counts (cfg : config) (x : world_t) (h : Reachable cfg x) :
    x.sys.active_actor_number_g = ((x.sys.actor_array_g.countP counted : Nat) : Int) ∧
    ((∀ a ∈ x.sys.actor_array_g, a.free = true) →
      x.sys.active_actor_number_g =
        ((x.sys.actor_array_g.countP claimed_counted : Nat) : Int)) := by
  have hc := h.invariant.counting
  refine ⟨hc, fun hfree => ?_⟩
  unfold Counting at hc
  rw [hc]
  congr 1
  exact List.countP_congr (fun a ha => by rw [counted_of_free (hfree a ha)])

/-- C16 (witness): the state after the `HELLO` of actor 0 has been handled. -/
theorem active_counts_witness :
    Reachable example_cfg hello_done ∧
    (∀ a ∈ hello_done.sys.actor_array_g, a.free = true) ∧
    hello_done.sys.active_actor_number_g =
      ((hello_done.sys.actor_array_g.countP counted : Nat) : Int) ∧
    hello_done.sys.active_actor_number_g =
      ((hello_done.sys.actor_array_g.countP claimed_counted : Nat) : Int) :=
  have hreach : Reachable example_cfg hello_done := ⟨100, start, hello_events, rfl, rfl⟩
  have hfree : ∀ a ∈ hello_done.sys.actor_array_g, a.free = true := by decide
  have h := active_counts example_cfg hello_done hreach
  ⟨hreach, hfree, h.1, h.2 hfree⟩

/-- C16 (counterexample): after the worker has processed the `GODIE` of actor 0 and
before its final bookkeeping (the registry mutex is free), actor 0 is not alive
and its queue is empty, so no entry is alive or has a non-empty queue, yet
`active` is 1. -/
theorem active_not_alive_or_queued :
    run example_cfg start (godie_events ++ [event.process 0]) = .next godie_done ∧
    godie_done.workers = [.finishing 0] ∧
    godie_done.sys.active_actor_number_g = 1 ∧
    godie_done.sys.actor_array_g.countP claimed_counted = 0 :=
  ⟨rfl, rfl, rfl, rfl⟩

/-- How a transition changes `active`: not at all, or by +1 while a worker processes
a `SPAWN`, or by -1 or not at all in the bookkeeping of a task. -/
theorem Step.active {cfg : config} {x x1 : world_t} (h : Step cfg x x1) :
    x1.sys.active_actor_number_g = x.sys.active_actor_number_g ∨
    (x1.sys.active_actor_number_g = x.sys.active_actor_number_g + 1 ∧
      ∃ (i : Nat) (t : Int) (m : message_t) (r : Int),
        x.workers[i]? = some (.processing t m r) ∧ m.message_type = cfg.MSG_SPAWN) ∨
    (x1.sys.active_actor_number_g = x.sys.active_actor_number_g - 1 ∧
      ∃ (i : Nat) (t : Int), x.workers[i]? = some (.finishing t)) := by
  cases h with
  | leave => exact Or.inl rfl
  | take => exact Or.inl rfl
  | acquire => exact Or.inl rfl
  | spawn i t m r hw hm _ => exact Or.inr (Or.inl ⟨rfl, i, t, m, r, hw, hm⟩)
  | godie => exact Or.inl rfl
  | prompt => exact Or.inl rfl
  | hello => exact Or.inl rfl
  | sent => exact Or.inl rfl
  | refused => exact Or.inl rfl
  | store => exact Or.inl rfl
  | back => exact Or.inl rfl
  | release i t a hw ha =>
    show (released x.sys t a).active_actor_number_g = _ ∨ _
    unfold released
    split
    · exact Or.inr (Or.inr ⟨rfl, i, t, hw⟩)
    · exact Or.inl rfl
  | join_pass => exact Or.inl rfl
  | join_shutdown => exact Or.inl rfl

/-- A worker that holds a token keeps `active` at 1 or more. -/
theorem Inv.active_pos {x : world_t} (hx : Inv x) {i : Nat} {p : worker_t} {t : Int}
    (hw : x.workers[i]? = some p) (hh : p.holds = some t) :
    1 ≤ x.sys.active_actor_number_g := by
  by_contra hlt
  obtain ⟨a, ha, hf⟩ := hx.mutex.busy i p t hw hh
  have hq := hx.counting.quiet_of_zero (by omega) t a ha
  rw [hq.2.2] at hf
  cases hf

theorem Step.stays_zero {cfg : config} {x x1 : world_t} (h : Step cfg x x1)
    (hx : Inv x) (h0 : x.sys.active_actor_number_g = 0) :
    x1.sys.active_actor_number_g = 0 := by
  rcases h.active with he | ⟨_, i, t, m, r, hw, _⟩ | ⟨_, i, t, hw⟩
  · rw [he, h0]
  · have := hx.active_pos hw rfl
    omega
  · have := hx.active_pos hw rfl
    omega

/-- C17: in every execution, once `active` is 0 it is 0 in every later state; and
whenever a step increases `active`, it increases it by exactly 1 from a value of at
least 1, and a worker is then processing a `SPAWN`: the actor whose message is being
processed is still counted. -/
theorem active_never_rises_from_zero (cfg : config) (x : world_t)
    (h : Reachable cfg x) :
    (x.sys.active_actor_number_g = 0 →
      ∀ (es : List event) (x1 : world_t), run cfg x es = .next x1 →
        x1.sys.active_actor_number_g = 0) ∧
    (∀ (e : event) (x1 : world_t), step cfg x e = .next x1 →
      x.sys.active_actor_number_g < x1.sys.active_actor_number_g →
      1 ≤ x.sys.active_actor_number_g ∧
      x1.sys.active_actor_number_g = x.sys.active_actor_number_g + 1 ∧
      ∃ (i : Nat) (t : Int) (m : message_t) (r : Int),
        x.workers[i]? = some (.processing t m r) ∧
        m.message_type = cfg.MSG_SPAWN) := by
  constructor
  · intro h0 es x1 hrun
    have hP := run_invariant
      (fun y => Inv y ∧ y.sys.active_actor_number_g = 0)
      (fun y y1 hy hs => ⟨hs.keeps_inv hy.1, hs.stays_zero hy.1 hy.2⟩)
      es x x1 ⟨h.invariant, h0⟩ hrun
    exact hP.2
  · intro e x1 hs hlt
    have hstep := step_sound hs
    rcases hstep.active with he | ⟨h1, i, t, m, r, hw, hm⟩ | ⟨h1, _⟩
    · omega
    · exact ⟨h.invariant.active_pos hw rfl, h1, i, t, m, r, hw, hm⟩
    · omega

/-- C17 (witness): from the quiet state after the `GODIE` of actor 0, `active` stays
0 whatever happens next. -/
theorem active_never_rises_from_zero_witness :
    Reachable example_cfg godie_released ∧
    (∀ (es : List event) (x1 : world_t), run example_cfg godie_released es = .next x1 →
        x1.sys.active_actor_number_g = 0) ∧
    (∀ (e : event) (x1 : world_t), step example_cfg godie_released e = .next x1 →
      godie_released.sys.active_actor_number_g < x1.sys.active_actor_number_g →
      1 ≤ godie_released.sys.active_actor_number_g ∧
      x1.sys.active_actor_number_g = godie_released.sys.active_actor_number_g + 1 ∧
      ∃ (i : Nat) (t : Int) (m : message_t) (r : Int),
        godie_released.workers[i]? = some (.processing t m r) ∧
        m.message_type = example_cfg.MSG_SPAWN) :=
  have hreach : Reachable example_cfg godie_released :=
    ⟨100, start,
      godie_events ++ [event.process 0, event.release 0, event.send 0 user_msg],
      rfl, rfl⟩
  have h := active_never_rises_from_zero example_cfg godie_released hreach
  ⟨hreach, h.1 rfl, h.2⟩

/-! ### The thread-local current actor -/

theorem task_arg_of_holds {p : worker_t} {id : Int} (h : p.holds = some id) :
    p.task_arg = some id := by
  cases p <;> simp_all [worker_t.task_arg, worker_t.holds]

theorem Local.same {x x1 : world_t} (hl : Local x) (hws : x1.workers = x.workers)
    (htl : x1.actor_id_thread_local = x.actor_id_thread_local) : Local x1 := by
  refine ⟨by rw [hws, htl]; exact hl.each, ?_⟩
  intro k q id hq hqa
  rw [hws] at hq
  have := hl.current k q id hq hqa
  simpa [world_t.actor_id_self, htl] using this

theorem Local.moved {x x1 : world_t} (hl : Local x) {i : Nat} {p p1 : worker_t}
    (hw : x.workers[i]? = some p) (hws : x1.workers = x.workers.set i p1)
    (htl : x1.actor_id_thread_local = x.actor_id_thread_local)
    (hp : ∀ id, p1.task_arg = some id → p.task_arg = some id) : Local x1 := by
  refine ⟨by rw [hws, htl, List.length_set]; exact hl.each, ?_⟩
  intro k q id hq hqa
  rw [hws, set_get p1 k hw] at hq
  have hgoal : x.actor_id_self k = some id := by
    by_cases hk : k = i
    · simp only [hk, if_true, Option.some.injEq] at hq
      subst hq
      rw [hk]
      exact hl.current i p id hw (hp id hqa)
    · simp only [hk, if_false] at hq
      exact hl.current k q id hq hqa
  simpa [world_t.actor_id_self, htl] using hgoal

theorem Local.taken {x : world_t} (hl : Local x) {i : Nat} (hw : x.workers[i]? = some .idle)
    (s : system_t) (arg : Int) :
    Local { x.move i (.waiting arg) s with
            actor_id_thread_local := x.actor_id_thread_local.set i arg } := by
  have hi : i < x.workers.length := (List.getElem?_eq_some.mp hw).1
  have hi1 : i < x.actor_id_thread_local.length := by rw [hl.each]; exact hi
  refine ⟨by simp [world_t.move, hl.each], ?_⟩
  intro k q id hq hqa
  have hq1 : (x.workers.set i (.waiting arg))[k]? = some q := hq
  rw [set_get _ k hw] at hq1
  show (x.actor_id_thread_local.set i arg)[k]? = some id
  rw [List.getElem?_set]
  by_cases hk : k = i
  · simp only [hk, if_true, Option.some.injEq] at hq1
    subst hq1
    simp only [worker_t.task_arg, Option.some.injEq] at hqa
    simp [hk, hi1, hqa]
  · simp only [hk, if_false] at hq1
    have hk1 : ¬ i = k := fun e => hk e.symm
    simp only [hk1, if_false]
    exact hl.current k q id hq1 hqa

theorem Step.keeps_local {cfg : config} {x x1 : world_t} (h : Step cfg x x1)
    (hl : Local x) : Local x1 := by
  cases h with
  | leave i hw hsh ht => exact hl.moved hw rfl rfl (by simp [worker_t.task_arg])
  | take i task rest hw ht => exact hl.taken hw _ _
  | acquire i id a m rest hw ha hf hq =>
    exact hl.moved hw rfl rfl (by simp [worker_t.task_arg])
  | spawn i id m r hw hm hc => exact hl.moved hw rfl rfl (by simp [worker_t.task_arg])
  | godie i id m r a hw hm1 hm2 ha =>
    exact hl.moved hw rfl rfl (by simp [worker_t.task_arg])
  | prompt i id m r role call hw hm1 hm2 hr hc =>
    exact hl.moved hw rfl rfl (by simp [worker_t.task_arg])
  | hello i id n a hw ha hal hq hsh =>
    exact hl.moved hw rfl rfl (by simp [worker_t.task_arg])
  | sent target m a ha hal hq hsh => exact hl.same rfl rfl
  | refused => exact hl
  | store i id call a v hw ha => exact hl.same rfl rfl
  | back i id call hw => exact hl.moved hw rfl rfl (by simp [worker_t.task_arg])
  | release i id a hw ha => exact hl.moved hw rfl rfl (by simp [worker_t.task_arg])
  | join_pass hj ha => exact hl.same rfl rfl
  | join_shutdown hj => exact hl.same rfl rfl

theorem Local.fresh_workers {cfg : config} {role_ptr : Int} {x0 : world_t}
    (h : init cfg role_ptr = some x0) : Local x0 := by
  obtain ⟨_, _, hx0⟩ := init_eq h
  subst hx0
  refine ⟨by simp, ?_⟩
  intro k q id hq hqa
  have hq1 : (List.replicate cfg.POOL_SIZE worker_t.idle)[k]? = some q := hq
  rw [List.getElem?_replicate] at hq1
  split at hq1
  · simp only [Option.some.injEq] at hq1
    subst hq1
    simp [worker_t.task_arg] at hqa
  · cases hq1

theorem Reachable.thread_local {cfg : config} {x : world_t} (h : Reachable cfg x) :
    Local x :=
  Reachable.induct Local (fun _ _ h0 => Local.fresh_workers h0)
    (fun _ _ hx hs => hs.keeps_local hx) x h

/-- C18 (as amended): in every reachable state, a worker that is past the wait loop
`cacti.c:121` of a dispatch task for actor `id`, processing a message of that actor or
running its handler, reads `id` from its thread-local current-actor id; and of two
different workers whose thread-local current-actor id is the same value, at most one
is past the wait loop of a dispatch task. Nothing is said of the other workers that
read the same value: they may wait for the token of that actor, or be in no dispatch
task at all, since the thread-local is written at `cacti.c:114` and never cleared. -/
theorem one_self_past_wait (cfg : config) (x : world_t) (h : Reachable cfg x) :
    (∀ (i : Nat) (p : worker_t) (id : Int), x.workers[i]? = some p →
      p.holds = some id → x.actor_id_self i = some id) ∧
    (∀ (i j : Nat) (p q : worker_t) (id : Int), x.workers[i]? = some p →
      x.workers[j]? = some q → x.actor_id_self i = some id →
      x.actor_id_self j = some id → i ≠ j → p.holds = none ∨ q.holds = none) := by
  have hl := h.thread_local
  have hcur : ∀ (i : Nat) (p : worker_t) (id : Int), x.workers[i]? = some p →
      p.holds = some id → x.actor_id_self i = some id :=
    fun i p id hp hh => hl.current i p id hp (task_arg_of_holds hh)
  refine ⟨hcur, ?_⟩
  intro i j p q id hp hq hsi hsj hij
  cases hph : p.holds with
  | none => exact Or.inl rfl
  | some t =>
    cases hqh : q.holds with
    | none => exact Or.inr rfl
    | some u =>
      exfalso
      have h1 := hcur i p t hp hph
      have h2 := hcur j q u hq hqh
      rw [hsi] at h1
      rw [hsj] at h2
      simp only [Option.some.injEq] at h1 h2
      subst h1
      subst h2
      exact hij (h.invariant.mutex.unique i j p q id hp hq hph hqh)

/-- C18 (witness): worker 0 runs the handler of actor 0 and reads 0; worker 1 reads
0 as well and is not past the wait loop. -/
theorem one_self_past_wait_witness :
    Reachable two_cfg second_task ∧
    second_task.actor_id_self 0 = some 0 ∧
    ((worker_t.in_handler 0 { func := 7, state_cell := 0, nbytes := 0, data := 0 }).holds
        = none ∨ (worker_t.waiting 0).holds = none) :=
  have hreach : Reachable two_cfg second_task :=
    ⟨100, start2, second_task_events, rfl, rfl⟩
  have h := one_self_past_wait two_cfg second_task hreach
  ⟨hreach, h.1 0 _ 0 rfl rfl, h.2 0 1 _ _ 0 rfl rfl rfl rfl (by decide)⟩

/-- C18 (counterexample): before any task has run, the two workers of the pool both read
0, the id of the first actor, from their thread-local current-actor id. After the
handler of actor 0 on worker 0 has sent its own actor a message and worker 1 has
popped the task posted for it, worker 1 waits for the token and both workers read 0.
And after worker 0 has run the `HELLO` handler of actor 1 and gone back to the loop of
the pool, holding no task, it still reads 1 while worker 1 processes a message of
actor 1. -/
theorem two_workers_same_self :
    init two_cfg 100 = some start2 ∧
    start2.actor_id_self 0 = some 0 ∧ start2.actor_id_self 1 = some 0 ∧
    run two_cfg start2 second_task_events = .next second_task ∧
    second_task.workers =
      [.in_handler 0 { func := 7, state_cell := 0, nbytes := 0, data := 0 }, .waiting 0] ∧
    second_task.actor_id_self 0 = some 0 ∧
    second_task.actor_id_self 1 = some 0 ∧
    ∃ x, run two_cfg start2 stale_self_events = .next x ∧
      x.workers = [.idle, .processing 1 user_msg 100] ∧
      x.actor_id_self 0 = some 1 ∧ x.actor_id_self 1 = some 1 :=
  ⟨rfl, rfl, rfl, rfl, rfl, rfl, rfl, _, rfl, rfl, rfl, rfl⟩

/-! ### Tasks and queued messages -/

theorem waiting_set {ws : List worker_t} {i : Nat} {p : worker_t} (p1 : worker_t)
    (id : Int) (h : ws[i]? = some p) :
    ((waiting_for (ws.set i p1) id : Nat) : Int) =
      (waiting_for ws id : Nat) - (if p = .waiting id then 1 else 0)
        + (if p1 = .waiting id then 1 else 0) := by
  unfold waiting_for
  rw [countP_set_int _ ws i p p1 h]
  simp

theorem waiting_set_same {ws : List worker_t} {i : Nat} {p : worker_t} (p1 : worker_t)
    (id : Int) (h : ws[i]? = some p) (hp : p ≠ .waiting id) (hp1 : p1 ≠ .waiting id) :
    waiting_for (ws.set i p1) id = waiting_for ws id := by
  have := waiting_set p1 id h
  simp only [hp, hp1, if_false] at this
  omega

theorem tasks_for_accepted (s : system_t) (t : Int) (a : actor_t) (m : message_t)
    (id : Int) :
    tasks_for (accepted s t a m) id = tasks_for s id + if t = id then 1 else 0 := by
  unfold tasks_for accepted enqueue
  simp [List.countP_append, List.countP_singleton]

theorem tasks_for_released (s : system_t) (t : Int) (a : actor_t) (id : Int) :
    tasks_for (released s t a) id = tasks_for s id := by
  unfold tasks_for
  rw [released_pool]

/-- A state change that touches neither the tasks, nor the waiting workers, nor the
queues keeps `Pending`. -/
theorem Pending.unchanged {ws ws1 : List worker_t} {s s1 : system_t} (h : Pending ws s)
    (ht : ∀ id, tasks_for s1 id = tasks_for s id)
    (hw : ∀ id, waiting_for ws1 id = waiting_for ws id)
    (hq : ∀ id, queue_of s1 id = queue_of s id) : Pending ws1 s1 := by
  intro id
  rw [ht id, hw id, hq id]
  exact h id

/-- An accepted send keeps `Pending`: one more task, one more message. -/
theorem Pending.accept {ws ws1 : List worker_t} {s : system_t} {t : Int} {a : actor_t}
    (m : message_t) (h : Pending ws s) (ha : actor_at s t = some a)
    (hw : ∀ id, waiting_for ws1 id = waiting_for ws id) :
    Pending ws1 (accepted s t a m) := by
  intro id
  rw [tasks_for_accepted, hw id, queue_of_accepted m id ha]
  have := h id
  by_cases hi : id = t
  · have hi1 : t = id := hi.symm
    simp only [hi, if_true, List.length_append, List.length_singleton]
    rw [hi] at this
    push_cast
    omega
  · have hi1 : ¬ t = id := fun e => hi e.symm
    simp only [hi, hi1, if_false]
    push_cast
    omega

theorem Step.pending {cfg : config} {x x1 : world_t} (h : Step cfg x x1)
    (hp : Pending x.workers x.sys) : Pending x1.workers x1.sys := by
  cases h with
  | leave i hw _ _ =>
    exact hp.unchanged (fun _ => rfl)
      (fun id => waiting_set_same _ id hw (by simp) (by simp)) (fun _ => rfl)
  | take i task rest hw ht =>
    intro id
    have h0 := hp id
    have hws := waiting_set (.waiting task.arg) id hw
    have htasks : tasks_for x.sys id =
        x.sys.thread_pool_g.tasks.countP (fun task => decide (task.arg = id)) := rfl
    rw [ht, List.countP_cons] at htasks
    show ((rest.countP (fun task => decide (task.arg = id)) : Nat) : Int)
      + ((waiting_for (x.workers.set i (.waiting task.arg)) id : Nat) : Int)
      = (((queue_of x.sys id).length : Nat) : Int)
    rw [hws]
    by_cases hi : task.arg = id
    · simp only [hi, decide_True, if_true] at htasks
      simp [hi]
      omega
    · simp only [hi, decide_False, Bool.false_eq_true, if_false] at htasks
      simp [hi]
      omega
  | acquire i t a m rest hw ha hf hq =>
    intro id
    have h0 := hp id
    have hws := waiting_set (.processing t m a.role_ptr) id hw
    show ((tasks_for x.sys id : Nat) : Int)
      + ((waiting_for (x.workers.set i (.processing t m a.role_ptr)) id : Nat) : Int)
      = (((queue_of (set_actor x.sys t _) id).length : Nat) : Int)
    rw [hws, queue_of_set _ id ha]
    by_cases hi : id = t
    · subst hi
      have hqt : queue_of x.sys id = m :: rest := by simp [queue_of, ha, hq]
      rw [hqt] at h0
      simp at h0 ⊢
      omega
    · have hi1 : ¬ t = id := fun e => hi e.symm
      simp [hi, hi1]
      omega
  | spawn i t m r hw _ _ =>
    exact hp.unchanged (fun _ => rfl)
      (fun id => waiting_set_same _ id hw (by simp) (by simp))
      (fun id => queue_of_created _ _ id)
  | godie i t m r a hw _ _ ha =>
    exact hp.unchanged (fun _ => rfl)
      (fun id => waiting_set_same _ id hw (by simp) (by simp))
      (fun id => queue_of_set_same _ id ha rfl)
  | prompt i t m r role call hw _ _ _ _ =>
    exact hp.unchanged (fun _ => rfl)
      (fun id => waiting_set_same _ id hw (by simp) (by simp)) (fun _ => rfl)
  | hello i t n a hw ha _ _ _ =>
    exact hp.accept _ ha (fun id => waiting_set_same _ id hw (by simp) (by simp))
  | sent t m a ha _ _ _ =>
    exact hp.accept _ ha (fun _ => rfl)
  | refused => exact hp
  | store i t call a v hw ha =>
    exact hp.unchanged (fun _ => rfl) (fun _ => rfl)
      (fun id => queue_of_set_same _ id ha rfl)
  | back i t call hw =>
    exact hp.unchanged (fun _ => rfl)
      (fun id => waiting_set_same _ id hw (by simp) (by simp)) (fun _ => rfl)
  | release i t a hw ha =>
    exact hp.unchanged (fun id => tasks_for_released _ _ _ id)
      (fun id => waiting_set_same _ id hw (by simp) (by simp))
      (fun id => queue_of_released id ha)
  | join_pass _ _ => exact hp
  | join_shutdown _ => exact hp.unchanged (fun _ => rfl) (fun _ => rfl) (fun _ => rfl)

theorem Pending.at_start {cfg : config} {role_ptr : Int} {x0 : world_t}
    (h : init cfg role_ptr = some x0) : Pending x0.workers x0.sys := by
  obtain ⟨_, _, hx0⟩ := init_eq h
  subst hx0
  intro id
  have hw : waiting_for (List.replicate cfg.POOL_SIZE worker_t.idle) id = 0 := by
    unfold waiting_for
    rw [List.countP_eq_zero]
    intro p hp
    rw [List.eq_of_mem_replicate hp]
    simp
  show ((tasks_for _ id : Nat) : Int)
    + ((waiting_for (List.replicate cfg.POOL_SIZE worker_t.idle) id : Nat) : Int) = _
  rw [hw]
  unfold tasks_for queue_of actor_at
  by_cases h0 : id < 0
  · have hne : ¬ (0 : Int) = id := by omega
    simp [h0, List.countP_cons, hne]
  · by_cases h1 : id = 0
    · subst h1
      simp [List.countP_cons]
    · have hne : ¬ (0 : Int) = id := fun e => h1 e.symm
      have hpos : id.toNat ≠ 0 := by omega
      cases hk : id.toNat with
      | zero => exact absurd hk hpos
      | succ k => simp [h0, List.countP_cons, hne]

theorem Reachable.tasks_pending {cfg : config} {x : world_t} (h : Reachable cfg x) :
    Pending x.workers x.sys :=
  Reachable.induct (fun y => Pending y.workers y.sys) (fun _ _ h0 => Pending.at_start h0)
    (fun _ _ hy hs => hs.pending hy) x h

/-- With `Pending`, a task that waits for a token finds the actor in the registry
with a message to dequeue. -/
theorem Pending.head {ws : List worker_t} {s : system_t} (h : Pending ws s) {i : Nat}
    {t : Int} (hw : ws[i]? = some (.waiting t)) :
    ∃ a m rest, actor_at s t = some a ∧ a.message_queue = m :: rest := by
  have hpos : 0 < waiting_for ws t := by
    unfold waiting_for
    rw [List.countP_pos_iff]
    exact ⟨_, List.getElem?_mem hw, by simp⟩
  have hlen : 0 < (queue_of s t).length := by
    have := h t
    omega
  unfold queue_of at hlen
  cases ha : actor_at s t with
  | none => simp [ha] at hlen
  | some a =>
    simp only [ha] at hlen
    cases hq : a.message_queue with
    | nil => simp [hq] at hlen
    | cons m rest => exact ⟨a, m, rest, rfl, hq⟩

theorem acquire_defined {cfg : config} {x : world_t} (hp : Pending x.workers x.sys)
    (i : Nat) (f : fault) : step cfg x (.acquire i) ≠ .failed f := by
  intro hs
  simp only [step] at hs
  split at hs
  · rename_i t hw
    obtain ⟨a, m, rest, ha, hq⟩ := hp.head hw
    unfold thread_pool_task_begin at hs
    simp only [ha, hq, dequeue] at hs
    cases hf : a.free <;> simp [hf] at hs
  · cases hs

theorem Step.retires {cfg : config} {x x1 : world_t} (h : Step cfg x x1)
    (hm : Mutex x.workers x.sys)
    (hlt : x1.sys.active_actor_number_g < x.sys.active_actor_number_g) :
    x1.sys.active_actor_number_g = x.sys.active_actor_number_g - 1 ∧
      ∃ t, ¬ retired x.sys t ∧ retired x1.sys t := by
  cases h with
  | leave => exact absurd hlt (lt_irrefl _)
  | take => exact absurd hlt (lt_irrefl _)
  | acquire => exact absurd hlt (lt_irrefl _)
  | spawn =>
    have : x.sys.active_actor_number_g + 1 < x.sys.active_actor_number_g := hlt
    omega
  | godie => exact absurd hlt (lt_irrefl _)
  | prompt => exact absurd hlt (lt_irrefl _)
  | hello => exact absurd hlt (lt_irrefl _)
  | sent => exact absurd hlt (lt_irrefl _)
  | refused => exact absurd hlt (lt_irrefl _)
  | store => exact absurd hlt (lt_irrefl _)
  | back => exact absurd hlt (lt_irrefl _)
  | release i t a hw ha =>
    obtain ⟨b, hb, hbf⟩ := hm.busy i _ t hw rfl
    rw [ha] at hb
    cases hb
    have hlt1 : (released x.sys t a).active_actor_number_g
        < x.sys.active_actor_number_g := hlt
    show (released x.sys t a).active_actor_number_g = _ ∧
      ∃ t1, ¬ retired x.sys t1 ∧ retired (released x.sys t a) t1
    by_cases hq : getSize a.message_queue = 0 ∧ a.alive = false
    · refine ⟨?_, t, ?_, ?_⟩
      · unfold released
        rw [if_pos hq]
        rfl
      · rintro ⟨c, hc, _, _, hcf⟩
        rw [ha] at hc
        cases hc
        rw [hbf] at hcf
        cases hcf
      · refine ⟨{ a with free := true }, ?_, hq.2, List.length_eq_zero.mp hq.1, rfl⟩
        rw [actor_at_released t ha]
        simp
    · exfalso
      unfold released at hlt1
      rw [if_neg hq] at hlt1
      exact absurd hlt1 (lt_irrefl _)
  | join_pass => exact absurd hlt (lt_irrefl _)
  | join_shutdown => exact absurd hlt (lt_irrefl _)

/-- An actor that has left the active set never comes back. -/
theorem Step.stays_retired {cfg : config} {x x1 : world_t} (h : Step cfg x x1)
    (hm : Mutex x.workers x.sys) (t : Int) (hr : retired x.sys t) :
    retired x1.sys t := by
  obtain ⟨a, ha, hal, hq, hf⟩ := hr
  have hheld : ∀ (i : Nat) (p : worker_t), x.workers[i]? = some p →
      p.holds ≠ some t := by
    intro i p hw hh
    obtain ⟨b, hb, hbf⟩ := hm.busy i p t hw hh
    rw [ha] at hb
    cases hb
    rw [hf] at hbf
    cases hbf
  cases h with
  | leave => exact ⟨a, ha, hal, hq, hf⟩
  | take => exact ⟨a, ha, hal, hq, hf⟩
  | acquire i t1 b m rest hw hb hbf hbq =>
    have hne : t ≠ t1 := by
      intro e
      subst e
      rw [ha] at hb
      cases hb
      rw [hq] at hbq
      cases hbq
    refine ⟨a, ?_, hal, hq, hf⟩
    show actor_at (set_actor x.sys t1 _) t = some a
    rw [actor_at_set _ t hb]
    simp [hne, ha]
  | spawn i t1 m r hw _ _ => exact ⟨a, actor_at_created _ ha, hal, hq, hf⟩
  | godie i t1 m r b hw _ _ hb =>
    have hne : t ≠ t1 := fun e => hheld i _ hw (by rw [e]; rfl)
    refine ⟨a, ?_, hal, hq, hf⟩
    show actor_at (set_actor x.sys t1 _) t = some a
    rw [actor_at_set _ t hb]
    simp [hne, ha]
  | prompt => exact ⟨a, ha, hal, hq, hf⟩
  | hello i t1 n b hw hb hbal _ _ =>
    have hne : t ≠ n := by
      intro e
      subst e
      rw [ha] at hb
      cases hb
      rw [hal] at hbal
      cases hbal
    refine ⟨a, ?_, hal, hq, hf⟩
    show actor_at (accepted x.sys n b _) t = some a
    rw [actor_at_accepted _ t hb]
    simp [hne, ha]
  | sent t1 m b hb hbal _ _ =>
    have hne : t ≠ t1 := by
      intro e
      subst e
      rw [ha] at hb
      cases hb
      rw [hal] at hbal
      cases hbal
    refine ⟨a, ?_, hal, hq, hf⟩
    show actor_at (accepted x.sys t1 b m) t = some a
    rw [actor_at_accepted _ t hb]
    simp [hne, ha]
  | refused => exact ⟨a, ha, hal, hq, hf⟩
  | store i t1 call b v hw hb =>
    have hne : t ≠ t1 := fun e => hheld i _ hw (by rw [e]; rfl)
    refine ⟨a, ?_, hal, hq, hf⟩
    show actor_at (set_actor x.sys t1 _) t = some a
    rw [actor_at_set _ t hb]
    simp [hne, ha]
  | back => exact ⟨a, ha, hal, hq, hf⟩
  | release i t1 b hw hb =>
    have hne : t ≠ t1 := fun e => hheld i _ hw (by rw [e]; rfl)
    refine ⟨a, ?_, hal, hq, hf⟩
    show actor_at (released x.sys t1 b) t = some a
    rw [actor_at_released t hb]
    simp [hne, ha]
  | join_pass => exact ⟨a, ha, hal, hq, hf⟩
  | join_shutdown => exact ⟨a, ha, hal, hq, hf⟩

/-- C19: in every reachable state, for each actor id the dispatch tasks posted for it
that have not yet performed their dequeue (those still in the pool's queue and
those popped by a worker that waits for the token) are exactly as many as the
messages in the actor's queue; hence a task at the wait loop finds a message to
dequeue and the dequeue never fails; `active` is never negative; a step that
decrements `active` decrements it by 1 and retires an actor that was not retired
before, and a retired actor stays retired in every later state, so `active` is
decremented at most once per actor. -/
theorem tasks_match_queue (cfg : config) (x : world_t) (h : Reachable cfg x) :
    (∀ id : Int,
      ((tasks_for x.sys id : Nat) : Int) + ((waiting_for x.workers id : Nat) : Int)
        = (((queue_of x.sys id).length : Nat) : Int)) ∧
    (∀ (i : Nat) (t : Int), x.workers[i]? = some (.waiting t) →
      ∃ a m rest, actor_at x.sys t = some a ∧ a.message_queue = m :: rest) ∧
    (∀ (i : Nat) (f : fault), step cfg x (.acquire i) ≠ .failed f) ∧
    0 ≤ x.sys.active_actor_number_g ∧
    (∀ (e : event) (x1 : world_t), step cfg x e = .next x1 →
      x1.sys.active_actor_number_g < x.sys.active_actor_number_g →
      x1.sys.active_actor_number_g = x.sys.active_actor_number_g - 1 ∧
      ∃ t, ¬ retired x.sys t ∧ retired x1.sys t) ∧
    (∀ t : Int, retired x.sys t →
      ∀ (es : List event) (x2 : world_t), run cfg x es = .next x2 →
        retired x2.sys t) := by
  have hp := h.tasks_pending
  have hinv := h.invariant
  refine ⟨hp, fun i t hw => hp.head hw, fun i f => acquire_defined hp i f, ?_,
    fun e x1 hs hlt => (step_sound hs).retires hinv.mutex hlt, ?_⟩
  · have hc := hinv.counting
    unfold Counting at hc
    omega
  · intro t hr es x2 hrun
    have hP := run_invariant (fun y => Inv y ∧ retired y.sys t)
      (fun y y1 hy hs => ⟨hs.keeps_inv hy.1, hs.stays_retired hy.1.mutex t hy.2⟩)
      es x x2 ⟨hinv, hr⟩ hrun
    exact hP.2

/-- C19 (witness): worker 1 has popped the task posted for the message that waits in
the queue of actor 0, while worker 0 still holds the token. -/
theorem tasks_match_queue_witness :
    Reachable two_cfg second_task ∧
    (∀ id : Int,
      ((tasks_for second_task.sys id : Nat) : Int)
        + ((waiting_for second_task.workers id : Nat) : Int)
        = (((queue_of second_task.sys id).length : Nat) : Int)) ∧
    (∀ (i : Nat) (t : Int), second_task.workers[i]? = some (.waiting t) →
      ∃ a m rest, actor_at second_task.sys t = some a ∧ a.message_queue = m :: rest) ∧
    (∀ (i : Nat) (f : fault), step two_cfg second_task (.acquire i) ≠ .failed f) ∧
    0 ≤ second_task.sys.active_actor_number_g ∧
    (∀ (e : event) (x1 : world_t), step two_cfg second_task e = .next x1 →
      x1.sys.active_actor_number_g < second_task.sys.active_actor_number_g →
      x1.sys.active_actor_number_g = second_task.sys.active_actor_number_g - 1 ∧
      ∃ t, ¬ retired second_task.sys t ∧ retired x1.sys t) ∧
    (∀ t : Int, retired second_task.sys t →
      ∀ (es : List event) (x2 : world_t), run two_cfg second_task es = .next x2 →
        retired x2.sys t) :=
  have hreach : Reachable two_cfg second_task :=
    ⟨100, start2, second_task_events, rfl, rfl⟩
  ⟨hreach, tasks_match_queue two_cfg second_task hreach⟩

/-! ### The pool at shutdown -/

theorem thread_pool_thread_pop {pool : thread_pool_t} {task : runnable_t}
    {rest : List runnable_t} (h : pool.tasks = task :: rest) :
    thread_pool_thread pool = some (some task, { pool with tasks := rest }) := by
  unfold thread_pool_thread
  simp [h, getSize, dequeue]

theorem Drained.keep {x x1 : world_t} (h : Drained x)
    (hw : ∀ i : Nat, x1.workers[i]? = some .exited → x.workers[i]? = some .exited)
    (hp : x1.sys.thread_pool_g = x.sys.thread_pool_g) : Drained x1 := by
  intro i hi
  rw [hp]
  exact h i (hw i hi)

theorem set_exited {ws : List worker_t} {i : Nat} {p : worker_t} (p1 : worker_t)
    (h : ws[i]? = some p) (hp1 : p1 ≠ .exited) :
    ∀ j : Nat, (ws.set i p1)[j]? = some .exited → ws[j]? = some .exited := by
  intro j hj
  rw [set_get p1 j h] at hj
  by_cases hji : j = i
  · simp only [hji, if_true, Option.some.injEq] at hj
    exact absurd hj hp1
  · simpa [hji] using hj

theorem Step.drained {cfg : config} {x x1 : world_t} (h : Step cfg x x1)
    (hd : Drained x) : Drained x1 := by
  cases h with
  | leave i hw hs ht => exact fun _ _ => ⟨hs, ht⟩
  | take i task rest hw ht =>
    intro j hj
    have hj1 := set_exited (.waiting task.arg) hw (by simp) j hj
    have := (hd j hj1).2
    rw [ht] at this
    cases this
  | acquire i t a m rest hw _ _ _ => exact hd.keep (set_exited _ hw (by simp)) rfl
  | spawn i t m r hw _ _ => exact hd.keep (set_exited _ hw (by simp)) rfl
  | godie i t m r a hw _ _ _ => exact hd.keep (set_exited _ hw (by simp)) rfl
  | prompt i t m r role call hw _ _ _ _ =>
    exact hd.keep (set_exited _ hw (by simp)) rfl
  | hello i t n a hw _ _ _ hsh =>
    intro j hj
    have hj1 := set_exited (.finishing t) hw (by simp) j hj
    have := (hd j hj1).1
    rw [hsh] at this
    cases this
  | sent t m a _ _ _ hsh =>
    intro j hj
    have := (hd j hj).1
    rw [hsh] at this
    cases this
  | refused => exact hd
  | store i t call a v hw _ => exact hd.keep (fun _ hj => hj) rfl
  | back i t call hw => exact hd.keep (set_exited _ hw (by simp)) rfl
  | release i t a hw _ =>
    exact hd.keep (set_exited _ hw (by simp)) (released_pool x.sys t a)
  | join_pass _ _ => exact hd
  | join_shutdown _ => exact fun j hj => ⟨rfl, (hd j hj).2⟩

theorem Reachable.pool_drained {cfg : config} {x : world_t} (h : Reachable cfg x) :
    Drained x := by
  refine Reachable.induct Drained ?_ (fun _ _ hy hs => hs.drained hy) x h
  intro role_ptr x0 h0 i hi
  obtain ⟨_, _, hx0⟩ := init_eq h0
  subst hx0
  have hi1 : (List.replicate cfg.POOL_SIZE worker_t.idle)[i]? = some .exited := hi
  rw [List.getElem?_replicate] at hi1
  split at hi1 <;> cases hi1

/-- C14: a worker leaves the loop of `thread_pool_thread` only when `shutdown` is
raised and the task queue is empty; whenever the task queue is non-empty a turn of
the loop pops exactly its head, whether or not `shutdown` is raised; tasks are
added at the tail; raising `shutdown` leaves the queue as it is; and in every
reachable state in which some worker has left its loop the task queue is empty, so
no accepted task is dropped by the shutdown. -/
theorem pool_drains_before_exit (cfg : config) (x : world_t) (h : Reachable cfg x) :
    (∀ pool p : thread_pool_t, thread_pool_thread pool = some (none, p) →
      pool.shutdown = true ∧ pool.tasks = [] ∧ p = pool) ∧
    (∀ (pool : thread_pool_t) (task : runnable_t) (rest : List runnable_t),
      pool.tasks = task :: rest →
      thread_pool_thread pool = some (some task, { pool with tasks := rest })) ∧
    (∀ (pool p : thread_pool_t) (arg : Int), thread_pool_add_task pool arg = .ok p →
      p.tasks = pool.tasks ++ [{ arg := arg }]) ∧
    (∀ pool : thread_pool_t, (thread_pool_shutdown pool).tasks = pool.tasks ∧
      (thread_pool_shutdown pool).shutdown = true) ∧
    (∀ (i : Nat) (task : runnable_t) (rest : List runnable_t),
      x.workers[i]? = some .idle → x.sys.thread_pool_g.tasks = task :: rest →
      step cfg x (.pool_turn i) = .next
        { x.move i (.waiting task.arg)
            { x.sys with thread_pool_g := { x.sys.thread_pool_g with tasks := rest } } with
          actor_id_thread_local := x.actor_id_thread_local.set i task.arg }) ∧
    (∀ i : Nat, x.workers[i]? = some .exited →
      x.sys.thread_pool_g.shutdown = true ∧ x.sys.thread_pool_g.tasks = []) := by
  refine ⟨?_, fun pool task rest ht => thread_pool_thread_pop ht, ?_,
    fun pool => ⟨rfl, rfl⟩, ?_, h.pool_drained⟩
  · intro pool p hp
    obtain ⟨h1, h2, h3⟩ := thread_pool_thread_leave hp
    exact ⟨h2, h3, h1⟩
  · intro pool p arg hadd
    unfold thread_pool_add_task at hadd
    split at hadd
    · cases hadd
    · simp only [Except.ok.injEq] at hadd
      rw [← hadd]
      rfl
  · intro i task rest hw ht
    simp [step, hw, thread_pool_thread_pop ht]

/-- C14 (witness): after the only actor has retired, the joining thread has raised
`shutdown` and the worker has left its loop with an empty task queue. -/
theorem pool_drains_before_exit_witness :
    Reachable example_cfg pool_stopped ∧
    pool_stopped.workers[0]? = some .exited ∧
    pool_stopped.sys.thread_pool_g.shutdown = true ∧
    pool_stopped.sys.thread_pool_g.tasks = [] :=
  have hreach : Reachable example_cfg pool_stopped :=
    ⟨100, start,
      godie_events ++ [event.process 0, event.release 0, event.send 0 user_msg,
        event.join_pass 0, event.join_shutdown, event.pool_turn 0],
      rfl, rfl⟩
  ⟨hreach, rfl,
    (pool_drains_before_exit example_cfg pool_stopped hreach).2.2.2.2.2 0 rfl⟩

/-! ### The `HELLO` of a new actor -/

/-- No transition removes an actor from the registry. -/
theorem Step.registry {cfg : config} {x x1 : world_t} (h : Step cfg x x1) (id : Int)
    (a : actor_t) (ha : actor_at x.sys id = some a) :
    ∃ a1, actor_at x1.sys id = some a1 := by
  have hset : ∀ (t : Int) (b c : actor_t), actor_at x.sys t = some b →
      ∃ a1, actor_at (set_actor x.sys t c) id = some a1 := by
    intro t b c hb
    rw [actor_at_set c id hb]
    by_cases hi : id = t
    · exact ⟨c, by simp [hi]⟩
    · exact ⟨a, by simp [hi, ha]⟩
  cases h with
  | leave => exact ⟨a, ha⟩
  | take => exact ⟨a, ha⟩
  | acquire i t b m rest hw hb _ _ => exact hset t b _ hb
  | spawn i t m r hw _ _ => exact ⟨a, actor_at_created _ ha⟩
  | godie i t m r b hw _ _ hb => exact hset t b _ hb
  | prompt => exact ⟨a, ha⟩
  | hello i t n b hw hb _ _ _ => exact hset n b _ hb
  | sent t m b hb _ _ _ => exact hset t b _ hb
  | refused => exact ⟨a, ha⟩
  | store i t call b v hw hb => exact hset t b _ hb
  | back => exact ⟨a, ha⟩
  | release i t b hw hb =>
    show ∃ a1, actor_at (released x.sys t b) id = some a1
    rw [actor_at_released id hb]
    by_cases hi : id = t
    · exact ⟨{ b with free := true }, by simp [hi]⟩
    · exact ⟨a, by simp [hi, ha]⟩
  | join_pass => exact ⟨a, ha⟩
  | join_shutdown => exact ⟨a, ha⟩

theorem Step.known {cfg : config} {x x1 : world_t} (h : Step cfg x x1)
    (hk : Known x) : Known x1 := by
  have hold : ∀ p ∈ x.sent_log, ∃ a, actor_at x1.sys p.1 = some a := by
    intro p hp
    obtain ⟨a, ha⟩ := hk p hp
    exact h.registry p.1 a ha
  have hnew : ∀ (t : Int) (m : message_t),
      (∃ a, actor_at x1.sys t = some a) →
      ∀ p ∈ x.sent_log ++ [(t, m)], ∃ a, actor_at x1.sys p.1 = some a := by
    intro t m ht p hp
    rw [List.mem_append, List.mem_singleton] at hp
    rcases hp with hp | hp
    · exact hold p hp
    · rw [hp]
      exact ht
  cases h with
  | leave => exact hold
  | take => exact hold
  | acquire => exact hold
  | spawn => exact hold
  | godie => exact hold
  | prompt => exact hold
  | hello i t n b hw hb _ _ _ =>
    exact hnew n _ ⟨_, actor_at_set_self (s := x.sys) _ hb⟩
  | sent t m b hb _ _ _ =>
    exact hnew t m ⟨_, actor_at_set_self (s := x.sys) _ hb⟩
  | refused => exact hold
  | store => exact hold
  | back => exact hold
  | release => exact hold
  | join_pass => exact hold
  | join_shutdown => exact hold

theorem Reachable.sends_known {cfg : config} {x : world_t} (h : Reachable cfg x) :
    Known x := by
  refine Reachable.induct Known ?_ (fun _ _ hy hs => hs.known hy) x h
  intro role_ptr x0 h0 p hp
  obtain ⟨_, _, hx0⟩ := init_eq h0
  subst hx0
  have hp1 := List.mem_singleton.mp hp
  rw [hp1]
  exact ⟨_, rfl⟩

/-- Nothing was ever sent to an id that is not in the registry. -/
theorem Known.unsent {x : world_t} (hk : Known x) {id : Int}
    (hn : actor_at x.sys id = none) : log_of x.sent_log id = [] := by
  unfold log_of
  rw [List.map_eq_nil_iff, List.filter_eq_nil_iff]
  intro p hp
  obtain ⟨a, ha⟩ := hk p hp
  simp only [decide_eq_true_eq]
  intro e
  rw [e, hn] at ha
  cases ha

theorem actor_at_length (s : system_t) :
    actor_at s (s.actor_array_g.length : Int) = none := by
  unfold actor_at
  have h0 : ¬ ((s.actor_array_g.length : Int) < 0) := by omega
  simp [h0]

/-- The state right after a worker has inserted a new actor while processing a
`SPAWN`: the worker is between the insertion and the `HELLO`, the new actor has the
next registry index, which was free before, its record is alive and not busy with an
empty queue, and nothing has been sent to it. -/
theorem spawn_fresh {cfg : config} {x x1 : world_t} {i : Nat} {id : Int}
    {m : message_t} {r : Int} (hk : Known x)
    (hw : x.workers[i]? = some (.processing id m r))
    (hm : m.message_type = cfg.MSG_SPAWN)
    (h1 : step cfg x (.process i) = .next x1) :
    actor_at x.sys x.sys.actor_array_g.length = none ∧
    actor_at x1.sys x.sys.actor_array_g.length =
      some { id := x.sys.actor_array_g.length, role_ptr := m.data, state := 0,
             message_queue := [], alive := true, free := true } ∧
    x1.workers[i]? = some (.spawning id x.sys.actor_array_g.length) ∧
    log_of x1.sent_log x.sys.actor_array_g.length = [] := by
  simp only [step, hw, step_process, hm, if_true] at h1
  unfold create_new_actor at h1
  by_cases hc : x.sys.all_actor_number_g + 1 > cfg.CAST_LIMIT
  · simp [hc] at h1
  · simp only [hc, if_false, outcome.next.injEq] at h1
    rw [← h1]
    refine ⟨actor_at_length x.sys, ?_, ?_, hk.unsent (actor_at_length x.sys)⟩
    · show actor_at (created x.sys m.data) _ = _
      have h0 : ¬ ((x.sys.actor_array_g.length : Int) < 0) := by omega
      simp [actor_at, created, dynarray_push, dynarray_length, createQueue, h0]
    · show (x.workers.set i _)[i]? = _
      rw [set_get _ i hw]
      simp [dynarray_length]

theorem log_of_grows (log : List (Int × message_t)) (t id : Int) (m : message_t)
    (h : log_of log id ≠ []) : log_of (log ++ [(t, m)]) id ≠ [] := by
  rw [log_of_append]
  split
  · simp
  · exact h

/-- Until it has sent the `HELLO`, the worker that inserted actor `n` stays between
the insertion and the send. -/
theorem Step.still_spawning {cfg : config} {x x1 : world_t} (h : Step cfg x x1)
    (i : Nat) (id n : Int)
    (hs : x.workers[i]? = some (.spawning id n) ∨ log_of x.sent_log n ≠ []) :
    x1.workers[i]? = some (.spawning id n) ∨ log_of x1.sent_log n ≠ [] := by
  have hmove : ∀ (j : Nat) (p p1 : worker_t) (s : system_t) (y : world_t),
      y.workers = x.workers → y.sent_log = x.sent_log →
      x.workers[j]? = some p → p ≠ .spawning id n →
      (y.move j p1 s).workers[i]? = some (.spawning id n) ∨
        log_of (y.move j p1 s).sent_log n ≠ [] := by
    intro j p p1 s y hyw hys hj hp
    rcases hs with hs | hs
    · left
      show (y.workers.set j p1)[i]? = _
      rw [hyw, set_get p1 i hj]
      have hij : i ≠ j := by
        intro e
        rw [e, hj] at hs
        simp only [Option.some.injEq] at hs
        exact hp hs
      simp [hij, hs]
    · right
      show log_of y.sent_log n ≠ []
      rw [hys]
      exact hs
  cases h with
  | leave j hw _ _ => exact hmove j _ _ _ x rfl rfl hw (by simp)
  | take j task rest hw _ =>
    exact hmove j _ (.waiting task.arg) x.sys x rfl rfl hw (by simp)
  | acquire j t a m rest hw _ _ _ => exact hmove j _ _ _ x rfl rfl hw (by simp)
  | spawn j t m r hw _ _ => exact hmove j _ _ _ (x.handled t m) rfl rfl hw (by simp)
  | godie j t m r a hw _ _ _ =>
    exact hmove j _ _ _ (x.handled t m) rfl rfl hw (by simp)
  | prompt j t m r role call hw _ _ _ _ =>
    exact hmove j _ _ _ (x.handled t m) rfl rfl hw (by simp)
  | hello j t n1 a hw _ _ _ _ =>
    by_cases hn : n1 = n
    · right
      show log_of (x.sent_log ++ [(n1, _)]) n ≠ []
      rw [log_of_append, if_pos hn]
      simp
    · rcases hs with hs | hs
      · left
        show (x.workers.set j _)[i]? = _
        rw [set_get _ i hw]
        have hij : i ≠ j := by
          intro e
          rw [e, hw] at hs
          simp only [Option.some.injEq, worker_t.spawning.injEq] at hs
          exact hn hs.2
        simp [hij, hs]
      · right
        exact log_of_grows _ _ _ _ hs
  | sent t m a _ _ _ _ =>
    rcases hs with hs | hs
    · exact Or.inl hs
    · exact Or.inr (log_of_grows _ _ _ _ hs)
  | refused => exact hs
  | store => exact hs
  | back j t call hw => exact hmove j _ _ _ x rfl rfl hw (by simp)
  | release j t a hw _ => exact hmove j _ _ _ x rfl rfl hw (by simp)
  | join_pass => exact hs
  | join_shutdown => exact hs

theorem Fifo.empty_queue {ws : List worker_t} {s : system_t}
    {sent handled : List (Int × message_t)} (h : Fifo ws s sent handled) {id : Int}
    (he : log_of sent id = []) : queue_of s id = [] := by
  by_cases hp : ∃ (i : Nat) (m : message_t) (r : Int),
      ws[i]? = some (.processing id m r)
  · obtain ⟨i, m, r, hw⟩ := hp
    have := (h id).1 i m r hw
    rw [he] at this
    simp at this
  · have hno : ∀ (i : Nat) (m : message_t) (r : Int),
        ws[i]? ≠ some (.processing id m r) := fun i m r hw => hp ⟨i, m, r, hw⟩
    have := (h id).2 hno
    rw [he] at this
    exact (List.append_eq_nil.mp this.symm).2

theorem spawn_hello_sent {cfg : config} {x x1 : world_t} {i : Nat} {id n : Int}
    (hw : x.workers[i]? = some (.spawning id n))
    (h : step cfg x (.spawn_hello i) = .next x1) :
    x1.sent_log = x.sent_log ++ [(n, spawn_hello_msg cfg id)] ∧
    queue_of x1.sys n = queue_of x.sys n ++ [spawn_hello_msg cfg id] ∧
    x1.workers[i]? = some (.finishing id) := by
  simp only [step, hw] at h
  split at h
  · cases h
  · rename_i code x2 hsend
    split at h
    · cases h
    · rename_i hcode
      simp only [outcome.next.injEq] at h
      rcases world_send_ok hsend with ⟨hne, _⟩ | ⟨_, a, ha, _, _, _, hx2⟩
      · exact absurd hne hcode
      · rw [← h, hx2]
        refine ⟨rfl, ?_, ?_⟩
        · show queue_of (accepted x.sys n a _) n = _
          rw [queue_of_accepted _ n ha]
          simp
        · show (x.workers.set i _)[i]? = _
          rw [set_get _ i hw]
          simp

/-- An actor of the registry stays alive until a message has been sent to it with
success: only a `GODIE` taken from its queue clears `alive`. -/
theorem Step.alive_unsent {cfg : config} {x x1 : world_t} (h : Step cfg x x1)
    (hx : Inv x) (n : Int)
    (hs : (∃ a, actor_at x.sys n = some a ∧ a.alive = true) ∨
      log_of x.sent_log n ≠ []) :
    (∃ a, actor_at x1.sys n = some a ∧ a.alive = true) ∨
      log_of x1.sent_log n ≠ [] := by
  rcases hs with ⟨a, ha, hal⟩ | hs
  · have hset : ∀ (t : Int) (b c : actor_t), actor_at x.sys t = some b →
        c.alive = b.alive →
        ∃ a1, actor_at (set_actor x.sys t c) n = some a1 ∧ a1.alive = true := by
      intro t b c hb hc
      rw [actor_at_set c n hb]
      by_cases hn : n = t
      · rw [hn, hb] at ha
        simp only [Option.some.injEq] at ha
        rw [if_pos hn]
        exact ⟨c, rfl, by rw [hc, ha]; exact hal⟩
      · rw [if_neg hn]
        exact ⟨a, ha, hal⟩
    cases h with
    | leave => exact Or.inl ⟨a, ha, hal⟩
    | take => exact Or.inl ⟨a, ha, hal⟩
    | acquire i t b m rest hw hb _ _ => exact Or.inl (hset t b _ hb rfl)
    | spawn i t m r hw _ _ => exact Or.inl ⟨a, actor_at_created _ ha, hal⟩
    | godie i t m r b hw _ _ hb =>
      by_cases hn : n = t
      · right
        have hf := (hx.fifo t).1 i m r hw
        show log_of x.sent_log n ≠ []
        rw [hn, hf]
        simp
      · left
        show ∃ a1, actor_at (set_actor x.sys t _) n = some a1 ∧ _
        rw [actor_at_set _ n hb, if_neg hn]
        exact ⟨a, ha, hal⟩
    | prompt => exact Or.inl ⟨a, ha, hal⟩
    | hello i t k b hw hb _ _ _ => exact Or.inl (hset k b _ hb rfl)
    | sent t m b hb _ _ _ => exact Or.inl (hset t b _ hb rfl)
    | refused => exact Or.inl ⟨a, ha, hal⟩
    | store i t call b v hw hb => exact Or.inl (hset t b _ hb rfl)
    | back => exact Or.inl ⟨a, ha, hal⟩
    | release i t b hw hb =>
      left
      show ∃ a1, actor_at (released x.sys t b) n = some a1 ∧ _
      rw [actor_at_released n hb]
      by_cases hn : n = t
      · rw [hn, hb] at ha
        simp only [Option.some.injEq] at ha
        rw [if_pos hn]
        exact ⟨_, rfl, by rw [ha]; exact hal⟩
      · rw [if_neg hn]
        exact ⟨a, ha, hal⟩
    | join_pass => exact Or.inl ⟨a, ha, hal⟩
    | join_shutdown => exact Or.inl ⟨a, ha, hal⟩
  · right
    cases h with
    | hello i t k b hw hb _ _ _ => exact log_of_grows _ _ _ _ hs
    | sent t m b hb _ _ _ => exact log_of_grows _ _ _ _ hs
    | _ => exact hs

theorem Reachable.room {cfg : config} {x : world_t} (h : Reachable cfg x) :
    0 < cfg.ACTOR_QUEUE_LIMIT := by
  obtain ⟨role_ptr, x0, es, hinit, _⟩ := h
  have := (init_eq hinit).2.1
  omega

/-- C12 (as amended): when a worker processes a `SPAWN` in a reachable state, the new
actor is inserted at the next registry index `N`, which was free before: its record is
bound to the role of the `SPAWN`, alive, not busy and has an empty queue, and nothing
has been sent to `N`. From then on, as long as no send to `N` has been accepted, the
worker is still between the insertion and the send of the `HELLO`, the actor is still
alive with an empty queue, every other event of that worker is disabled, and the send
of the `HELLO` (with `data` equal to the spawning actor's id) is accepted: after it the
`HELLO` is the only message ever accepted for `N`, it is alone in the queue of `N`, and
the worker is done with the spawn. In any state, a `HELLO` that `send_message` refuses
ends the process in `fatal`. The code does not exclude an accepted send to `N` between
the insertion and the `HELLO`. -/
theorem hello_first_unless_overtaken (cfg : config) (x x1 : world_t) (i : Nat)
    (id : Int) (m : message_t) (r : Int) (h : Reachable cfg x)
    (hw : x.workers[i]? = some (.processing id m r))
    (hm : m.message_type = cfg.MSG_SPAWN)
    (h1 : step cfg x (.process i) = .next x1) :
    (actor_at x.sys x.sys.actor_array_g.length = none ∧
      actor_at x1.sys x.sys.actor_array_g.length =
        some { id := x.sys.actor_array_g.length, role_ptr := m.data, state := 0,
               message_queue := [], alive := true, free := true } ∧
      x1.workers[i]? = some (.spawning id x.sys.actor_array_g.length) ∧
      log_of x1.sent_log x.sys.actor_array_g.length = []) ∧
    (∀ (es : List event) (x2 : world_t), run cfg x1 es = .next x2 →
      log_of x2.sent_log x.sys.actor_array_g.length = [] →
      x2.workers[i]? = some (.spawning id x.sys.actor_array_g.length) ∧
      (∃ a, actor_at x2.sys x.sys.actor_array_g.length = some a ∧ a.alive = true ∧
        a.message_queue = []) ∧
      (∀ e : event, e.worker = some i → e ≠ .spawn_hello i →
        step cfg x2 e = .disabled) ∧
      ∃ x3 : world_t, step cfg x2 (.spawn_hello i) = .next x3 ∧
        log_of x3.sent_log x.sys.actor_array_g.length = [spawn_hello_msg cfg id] ∧
        queue_of x3.sys x.sys.actor_array_g.length = [spawn_hello_msg cfg id] ∧
        x3.workers[i]? = some (.finishing id)) ∧
    (∀ (y : world_t) (n code : Int) (s : system_t),
      y.workers[i]? = some (.spawning id n) →
      send_message cfg y.sys n (spawn_hello_msg cfg id) = .ok (code, s) → code ≠ 0 →
      step cfg y (.spawn_hello i) = .failed .spawn_hello_refused) := by
  have hfresh := spawn_fresh h.sends_known hw hm h1
  refine ⟨hfresh, fun es x2 hrun hlog => ?_, fun y n code s hy hsend hcode => ?_⟩
  swap
  · simp [step, hy, world_t.send, hsend, hcode]
  have hinv1 : Inv x1 := (step_sound h1).keeps_inv h.invariant
  have hP := run_invariant
    (fun y => Inv y ∧
      (y.workers[i]? = some (.spawning id x.sys.actor_array_g.length) ∨
        log_of y.sent_log x.sys.actor_array_g.length ≠ []) ∧
      ((∃ a, actor_at y.sys x.sys.actor_array_g.length = some a ∧ a.alive = true) ∨
        log_of y.sent_log x.sys.actor_array_g.length ≠ []))
    (fun y y1 hy hs => ⟨hs.keeps_inv hy.1, hs.still_spawning i id _ hy.2.1,
      hs.alive_unsent hy.1 _ hy.2.2⟩)
    es x1 x2 ⟨hinv1, Or.inl hfresh.2.2.1, Or.inl ⟨_, hfresh.2.1, rfl⟩⟩ hrun
  have hw2 : x2.workers[i]? = some (.spawning id x.sys.actor_array_g.length) := by
    rcases hP.2.1 with hs | hs
    · exact hs
    · exact absurd hlog hs
  obtain ⟨a, ha, hal⟩ : ∃ a, actor_at x2.sys x.sys.actor_array_g.length = some a ∧
      a.alive = true := by
    rcases hP.2.2 with hs | hs
    · exact hs
    · exact absurd hlog hs
  have hq0 : queue_of x2.sys x.sys.actor_array_g.length = [] :=
    hP.1.fifo.empty_queue hlog
  have hq : a.message_queue = [] := by simpa [queue_of, ha] using hq0
  have hroom := h.room
  have hsh := hP.1.running ha hal
  obtain ⟨s1, hsend, _⟩ := send_message_accepted cfg x2.sys x.sys.actor_array_g.length
    (spawn_hello_msg cfg id) a ha hal (by rw [hq]; exact hroom) hsh
  have hex : ∃ x3 : world_t, step cfg x2 (.spawn_hello i) = .next x3 := by
    simp [step, hw2, world_t.send, hsend]
  obtain ⟨x3, h3⟩ := hex
  obtain ⟨hsent, hqueue, hdone⟩ := spawn_hello_sent hw2 h3
  refine ⟨hw2, ⟨a, ha, hal, hq⟩, ?_, x3, h3, ?_, ?_, hdone⟩
  · intro e he hne
    cases e <;> simp_all [event.worker, step]
  · rw [hsent, log_of_append, if_pos rfl, hlog]
    rfl
  · rw [hqueue, hq0]
    rfl

/-- C12 (witness): actor 0 processes the `SPAWN` it sent itself; the new actor 1 is in
the registry, and when the worker sends the `HELLO` at once it is accepted and is the
first message of actor 1. -/
theorem hello_first_unless_overtaken_witness :
    Reachable example_cfg spawn_taken ∧
    actor_at spawn_created.sys 1 =
      some { id := 1, role_ptr := 100, state := 0, message_queue := [], alive := true,
             free := true } ∧
    spawn_created.workers[0]? = some (.spawning 0 1) ∧
    ∃ x3 : world_t, step example_cfg spawn_created (.spawn_hello 0) = .next x3 ∧
      log_of x3.sent_log 1 = [spawn_hello_msg example_cfg 0] ∧
      queue_of x3.sys 1 = [spawn_hello_msg example_cfg 0] ∧
      x3.workers[0]? = some (.finishing 0) :=
  have hreach : Reachable example_cfg spawn_taken :=
    ⟨100, start, spawn_events, rfl, rfl⟩
  have h := hello_first_unless_overtaken example_cfg spawn_taken spawn_created 0 0
    spawn_msg 100 hreach rfl rfl rfl
  ⟨hreach, h.1.2.1, h.1.2.2.1, (h.2.1 [] spawn_created rfl rfl).2.2.2⟩

/-- C12 (counterexample): actor 0 spawns actor 1 and then actor 2. After worker 0 has
inserted actor 2 and before it sends the `HELLO`, the handler of actor 1 on worker 1
sends a message to id 2: the send is accepted, and the `HELLO` of actor 2 is the
second message in its queue, not the first. -/
theorem hello_overtaken :
    ∃ x, run two_cfg start2 overtake_events = .next x ∧
      queue_of x.sys 2 = [user_msg, spawn_hello_msg two_cfg 0] ∧
      log_of x.sent_log 2 = [user_msg, spawn_hello_msg two_cfg 0] :=
  ⟨_, rfl, rfl, rfl⟩

end Cacti

namespace Silnia

open Cacti

/-! ### The globals of the runtime, described record by record -/

end Silnia

namespace PageRank

theorem boundary_zero (N T : Nat) : boundary N T 0 = 0 := by
  simp [boundary]

theorem boundary_succ (N T t : Nat) :
    boundary N T (t + 1) = boundary N T t + N / T + if t < N % T then 1 else 0 := by
  unfold boundary
  rw [Nat.succ_mul]
  split <;> omega

theorem boundary_all (N T : Nat) (hT : 1 ≤ T) : boundary N T T = N := by
  unfold boundary
  have h1 : N % T < T := Nat.mod_lt _ (by omega)
  have h2 := Nat.div_add_mod N T
  rw [Nat.min_eq_right (by omega)]
  exact h2

theorem boundary_mono (N T : Nat) : ∀ d t : Nat, boundary N T t ≤ boundary N T (t + d) := by
  intro d
  induction d with
  | zero => intro t; exact le_rfl
  | succ d ih =>
    intro t
    have h := boundary_succ N T (t + d)
    have h1 := ih t
    rw [← Nat.add_assoc, h]
    exact le_trans h1 (le_trans (Nat.le_add_right _ _) (Nat.le_add_right _ _))

theorem boundary_le (N T : Nat) {a b : Nat} (h : a ≤ b) :
    boundary N T a ≤ boundary N T b := by
  have := boundary_mono N T (b - a) a
  rwa [Nat.add_sub_cancel' h] at this

theorem boundary_le_nodes (N T : Nat) (hT : 1 ≤ T) {t : Nat} (ht : t ≤ T) :
    boundary N T t ≤ N := by
  have := boundary_le N T ht
  rwa [boundary_all N T hT] at this

/-- The two branches of the source compute the same boundary. -/
theorem branches_eq (N T t : Nat) :
    (if t < N % T then t * (N / T + 1)
      else N % T * (N / T + 1) + (t - N % T) * (N / T)) = boundary N T t := by
  unfold boundary
  split
  · rename_i h
    rw [Nat.min_eq_left (by omega), Nat.mul_succ]
  · rename_i h
    obtain ⟨e, he⟩ : ∃ e, t = N % T + e := ⟨t - N % T, by omega⟩
    rw [Nat.min_eq_right (by omega), he, Nat.add_sub_cancel_left]
    ring

theorem first_eq (N T t : Nat) (hN : N < 2 ^ 32) (hT : 1 ≤ T) (ht : t ≤ T) :
    (ThreadsInfo.new N T).getThreadFirstIndex t = boundary N T t := by
  have hb := boundary_le_nodes N T hT ht
  have hq : N / T + 1 < 2 ^ 64 := by
    have := Nat.div_le_self N T
    omega
  have h := branches_eq N T t
  unfold ThreadsInfo.getThreadFirstIndex ThreadsInfo.new
  simp only [Nat.mod_eq_of_lt hq]
  split
  · rename_i hlt
    rw [if_pos hlt] at h
    rw [h]
    exact Nat.mod_eq_of_lt (by omega)
  · rename_i hlt
    rw [if_neg hlt] at h
    rw [h]
    exact Nat.mod_eq_of_lt (by omega)

theorem last_eq (N T t : Nat) (hN : N < 2 ^ 32) (hT : 1 ≤ T) (hT32 : T < 2 ^ 32)
    (ht : t < T) (hpos : 1 ≤ boundary N T (t + 1)) :
    (ThreadsInfo.new N T).getThreadLastIndex t + 1 = boundary N T (t + 1) := by
  have hb := boundary_le_nodes N T hT (show t + 1 ≤ T by omega)
  have hq : N / T + 1 < 2 ^ 64 := by
    have := Nat.div_le_self N T
    omega
  have h := branches_eq N T (t + 1)
  have hwrap : ∀ v : Nat, 1 ≤ v → v < 2 ^ 64 →
      (v % 2 ^ 64 + 2 ^ 64 - 1) % 2 ^ 64 + 1 = v := by
    intro v h1 h2
    rw [Nat.mod_eq_of_lt h2]
    have : v + 2 ^ 64 - 1 = (v - 1) + 2 ^ 64 := by omega
    rw [this, Nat.add_mod_right, Nat.mod_eq_of_lt (by omega)]
    omega
  unfold ThreadsInfo.getThreadLastIndex ThreadsInfo.new
  simp only [Nat.mod_eq_of_lt hq]
  have h32 : (t + 1) % 2 ^ 32 = t + 1 := Nat.mod_eq_of_lt (by omega)
  split
  · rename_i hlt
    rw [h32]
    by_cases hlt1 : t + 1 < N % T
    · rw [if_pos hlt1] at h
      rw [h]
      exact hwrap _ hpos (by omega)
    · have hg : t + 1 = N % T := by omega
      rw [if_neg hlt1, hg, Nat.sub_self, Nat.zero_mul, Nat.add_zero] at h
      rw [hg, h]
      rw [hg] at hpos hb
      exact hwrap _ hpos (by omega)
  · rename_i hge
    have hge1 : ¬ t + 1 < N % T := by omega
    rw [if_neg hge1] at h
    have h64 : (t - N % T + 1) % 2 ^ 64 = t + 1 - N % T := by
      rw [Nat.mod_eq_of_lt (by omega)]
      omega
    rw [h64, h]
    exact hwrap _ hpos (by omega)

theorem used_eq (N T : Nat) (hN : N < 2 ^ 32) :
    (ThreadsInfo.new N T).getNumberOfThreadsUsed = min N T := by
  unfold ThreadsInfo.getNumberOfThreadsUsed ThreadsInfo.new
  simp only [Nat.mod_eq_of_lt hN]

/-- A used thread gets at least one node. -/
theorem boundary_strict (N T t : Nat) (hT : 1 ≤ T) (ht : t < min N T) :
    boundary N T t < boundary N T (t + 1) := by
  rw [boundary_succ]
  by_cases hlt : t < N % T
  · simp only [hlt, if_true]
    exact Nat.lt_succ_of_le (Nat.le_add_right _ _)
  · simp only [hlt, if_false, Nat.add_zero]
    have hle : T ≤ N := by
      by_contra hcon
      have hmod : N % T = N := Nat.mod_eq_of_lt (by omega)
      rw [hmod] at hlt
      omega
    have hq : 0 < N / T := Nat.div_pos hle (by omega)
    exact Nat.lt_add_of_pos_right hq

theorem boundary_used (N T : Nat) (hT : 1 ≤ T) : boundary N T (min N T) = N := by
  by_cases h : T ≤ N
  · rw [Nat.min_eq_right h]
    exact boundary_all N T hT
  · have hlt : N < T := by omega
    rw [Nat.min_eq_left (by omega)]
    unfold boundary
    rw [Nat.div_eq_of_lt hlt, Nat.mod_eq_of_lt hlt]
    simp

theorem boundary_cover (N T : Nat) :
    ∀ U i : Nat, i < boundary N T U →
      ∃ t, t < U ∧ boundary N T t ≤ i ∧ i < boundary N T (t + 1) := by
  intro U
  induction U with
  | zero =>
    intro i hi
    rw [boundary_zero] at hi
    omega
  | succ U ih =>
    intro i hi
    by_cases h : i < boundary N T U
    · obtain ⟨t, ht, h1, h2⟩ := ih i h
      exact ⟨t, by omega, h1, h2⟩
    · exact ⟨U, by omega, by omega, hi⟩

/-- C20: for every node count `N < 2^32` and every thread count `T` with
`1 <= T < 2^32`, `ThreadsInfo` reports `min(N, T)` threads as used; the index range
of each used thread is non-empty; the range of thread 0 starts at 0, the range of
each next used thread starts right after the end of the previous one, and the range
of the last used thread ends at `N - 1`; the sizes of two ranges differ by at most
one; and every index below `N` lies in the range of exactly one used thread. -/
theorem ranges_partition_nodes (N T : Nat) (hN : N < 2 ^ 32) (hT : 1 ≤ T)
    (hT32 : T < 2 ^ 32) :
    (ThreadsInfo.new N T).getNumberOfThreadsUsed = min N T ∧
    (∀ t, t < (ThreadsInfo.new N T).getNumberOfThreadsUsed →
      (ThreadsInfo.new N T).getThreadFirstIndex t
        ≤ (ThreadsInfo.new N T).getThreadLastIndex t) ∧
    (0 < (ThreadsInfo.new N T).getNumberOfThreadsUsed →
      (ThreadsInfo.new N T).getThreadFirstIndex 0 = 0 ∧
      (ThreadsInfo.new N T).getThreadLastIndex
        ((ThreadsInfo.new N T).getNumberOfThreadsUsed - 1) + 1 = N) ∧
    (∀ t, t + 1 < (ThreadsInfo.new N T).getNumberOfThreadsUsed →
      (ThreadsInfo.new N T).getThreadFirstIndex (t + 1)
        = (ThreadsInfo.new N T).getThreadLastIndex t + 1) ∧
    (∀ t u, t < (ThreadsInfo.new N T).getNumberOfThreadsUsed →
      u < (ThreadsInfo.new N T).getNumberOfThreadsUsed →
      (ThreadsInfo.new N T).getThreadLastIndex t
          - (ThreadsInfo.new N T).getThreadFirstIndex t
        ≤ (ThreadsInfo.new N T).getThreadLastIndex u
          - (ThreadsInfo.new N T).getThreadFirstIndex u + 1) ∧
    (∀ i, i < N →
      ∃! t, t < (ThreadsInfo.new N T).getNumberOfThreadsUsed ∧
        (ThreadsInfo.new N T).getThreadFirstIndex t ≤ i ∧
        i ≤ (ThreadsInfo.new N T).getThreadLastIndex t) := by
  have hused := used_eq N T hN
  have hfirst : ∀ t, t < min N T →
      (ThreadsInfo.new N T).getThreadFirstIndex t = boundary N T t :=
    fun t ht => first_eq N T t hN hT (by omega)
  have hlast : ∀ t, t < min N T →
      (ThreadsInfo.new N T).getThreadLastIndex t + 1 = boundary N T (t + 1) := by
    intro t ht
    have := boundary_strict N T t hT ht
    exact last_eq N T t hN hT hT32 (by omega) (by omega)
  rw [hused]
  refine ⟨rfl, ?_, ?_, ?_, ?_, ?_⟩
  · intro t ht
    have h1 := hfirst t ht
    have h2 := hlast t ht
    have h3 := boundary_strict N T t hT ht
    omega
  · intro hpos
    refine ⟨?_, ?_⟩
    · rw [hfirst 0 hpos, boundary_zero]
    · have h2 := hlast (min N T - 1) (by omega)
      rw [h2, Nat.sub_add_cancel hpos]
      exact boundary_used N T hT
  · intro t ht
    rw [hfirst (t + 1) ht, hlast t (by omega)]
  · intro t u ht hu
    have h1 := hfirst t ht
    have h2 := hlast t ht
    have h3 := hfirst u hu
    have h4 := hlast u hu
    have h5 := boundary_succ N T t
    have h6 := boundary_succ N T u
    have h7 := boundary_strict N T u hT hu
    split at h5 <;> split at h6 <;> omega
  · intro i hi
    have hcov := boundary_cover N T (min N T) i (by rw [boundary_used N T hT]; exact hi)
    obtain ⟨t, ht, h1, h2⟩ := hcov
    refine ⟨t, ⟨ht, ?_, ?_⟩, ?_⟩
    · rw [hfirst t ht]
      exact h1
    · have := hlast t ht
      omega
    · rintro u ⟨hu, hu1, hu2⟩
      rw [hfirst u hu] at hu1
      have hu3 := hlast u hu
      rcases Nat.lt_trichotomy u t with hlt | heq | hgt
      · have := boundary_le N T (show u + 1 ≤ t by omega)
        omega
      · exact heq
      · have := boundary_le N T (show t + 1 ≤ u by omega)
        omega

/-- C20 (witness): 10 nodes divided among 4 threads give the ranges 0..2, 3..5, 6..7
and 8..9. -/
theorem ranges_partition_nodes_witness :
    ((ThreadsInfo.new 10 4).getThreadFirstIndex 0,
        (ThreadsInfo.new 10 4).getThreadLastIndex 0) = (0, 2) ∧
    ((ThreadsInfo.new 10 4).getThreadFirstIndex 1,
        (ThreadsInfo.new 10 4).getThreadLastIndex 1) = (3, 5) ∧
    ((ThreadsInfo.new 10 4).getThreadFirstIndex 2,
        (ThreadsInfo.new 10 4).getThreadLastIndex 2) = (6, 7) ∧
    ((ThreadsInfo.new 10 4).getThreadFirstIndex 3,
        (ThreadsInfo.new 10 4).getThreadLastIndex 3) = (8, 9) ∧
    (ThreadsInfo.new 10 4).getNumberOfThreadsUsed = min 10 4 ∧
    (∀ i, i < 10 →
      ∃! t, t < (ThreadsInfo.new 10 4).getNumberOfThreadsUsed ∧
        (ThreadsInfo.new 10 4).getThreadFirstIndex t ≤ i ∧
        i ≤ (ThreadsInfo.new 10 4).getThreadLastIndex t) :=
  have h := ranges_partition_nodes 10 4 (by decide) (by decide) (by decide)
  ⟨by decide, by decide, by decide, by decide, h.1, h.2.2.2.2.2⟩

end PageRank
